import Mathlib

/-!
I2C master transaction engine (MagXGPSXBRC/i2c_lib.c)

A shallow embedding of the transaction functions of `i2c_lib.c`.

* Every call into the peripheral library is appended to a chronological
  hardware-call log (`HwCall`).  Blocking polls (`while (!I2C...IsReady(...));`)
  are recorded as a single log entry: the embedding assumes each poll
  eventually completes.
* The peripheral and the attached device are a `Device`: an oracle that
  answers each result-returning library call as a function of the log so far.
  Since the answer may depend on the whole history, this covers every
  deterministic device behaviour; each transaction starts from the empty
  log (earlier history can be absorbed into the oracle).
* `printf` diagnostics are not modelled.
* `int` values are unbounded integers; the functions never compute beyond
  `len` and `len - 1`, which only overflows for `len = INT_MIN`.
-/

namespace I2CLib

/-! ## Peripheral library constants -/

/-- Modelled from the spec: the result taxonomy `I2C_RESULT` comes from the
peripheral library header, which is not part of the sources; success is the
value zero. -/
def I2C_SUCCESS : Nat := 0

/-- Modelled from the spec: generic error member of `I2C_RESULT` (peripheral
library header, not part of the sources). -/
def I2C_ERROR : Nat := 1

/-- Modelled from the spec: bus collision member of `I2C_RESULT` (peripheral
library header, not part of the sources). -/
def I2C_MASTER_BUS_COLLISION : Nat := 2

/-- Modelled from the spec: receive-overflow member of `I2C_RESULT`
(peripheral library header, not part of the sources). -/
def I2C_RECEIVE_OVERFLOW : Nat := 3

/-- Modelled from the spec: write direction bit (peripheral library header,
not part of the sources). -/
def I2C_WRITE : Nat := 0

/-- Modelled from the spec: read direction bit (peripheral library header,
not part of the sources). -/
def I2C_READ : Nat := 1

/-- Modelled from the spec: the library macro `I2C_FORMAT_7_BIT_ADDRESS`
(not part of the sources) combines a 7-bit device address and the direction
bit into one address byte, the address in bits 7..1 and the direction in
bit 0. -/
def I2C_FORMAT_7_BIT_ADDRESS (DeviceAddress rw : Nat) : Nat :=
  (DeviceAddress % 128) * 2 + rw % 2

/-! ## Hardware-call log and device oracle -/

/-- One call into the peripheral library, with the value it returned. -/
inductive HwCall where
  /-- `while (!I2CBusIsIdle(port));` -/
  | busIdleWait
  /-- `I2CStart(port)` and its result -/
  | start (r : Nat)
  /-- `I2CRepeatStart(port)` -/
  | repeatStart
  /-- `do status = I2CGetStatus(port); while (!(status & I2C_START));` -/
  | startStatusWait
  /-- `while (!I2CTransmitterIsReady(port));` -/
  | txReadyWait
  /-- `I2CSendByte(port, b)` and its result -/
  | sendByte (b : Nat) (r : Nat)
  /-- `while (!I2CTransmissionHasCompleted(port));` -/
  | txDoneWait
  /-- `I2CByteWasAcknowledged(port)` and its answer -/
  | ackQuery (acked : Bool)
  /-- `I2CReceiverEnable(port, TRUE)` and its result -/
  | rxEnable (r : Nat)
  /-- `while (!I2CReceivedDataIsAvailable(port));` -/
  | rxDataWait
  /-- `I2CAcknowledgeByte(port, ack)` -/
  | ackByte (ack : Bool)
  /-- `while (!I2CAcknowledgeHasCompleted(port));` -/
  | ackDoneWait
  /-- `I2CGetByte(port)` and the byte it returned -/
  | getByte (b : Nat)
  /-- `I2CStop(port)` -/
  | stop
  /-- `do status = I2CGetStatus(port); while (!(status & I2C_STOP));` -/
  | stopStatusWait
  /-- `usDelay(n)` -/
  | usDelay (n : Nat)
  /-- `msDelay(n)` -/
  | msDelay (n : Nat)
  deriving DecidableEq, Repr

/-- Behaviour of the bus controller together with the addressed device:
the answer of every result-returning library call, given the calls made so
far. -/
structure Device where
  /-- result of `I2CStart` -/
  I2CStart : List HwCall → Nat
  /-- result of `I2CSendByte` for the given byte -/
  I2CSendByte : List HwCall → Nat → Nat
  /-- answer of `I2CByteWasAcknowledged` -/
  I2CByteWasAcknowledged : List HwCall → Bool
  /-- result of `I2CReceiverEnable` -/
  I2CReceiverEnable : List HwCall → Nat
  /-- byte returned by `I2CGetByte` -/
  I2CGetByte : List HwCall → Nat

/-! ## Byte transceiver and transfer framing -/

/-- `static BOOL TransmitOneByte(I2C_MODULE i2c_port, BYTE data)`:
returns the flag and the extended log. -/
def TransmitOneByte (dev : Device) (log : List HwCall) (data : Nat) : Bool × List HwCall :=
  let log1 := log ++ [HwCall.txReadyWait]
  let r := dev.I2CSendByte log1 data
  if r = I2C_MASTER_BUS_COLLISION then
    (false, log1 ++ [HwCall.sendByte data r])
  else
    (true, log1 ++ [HwCall.sendByte data r, HwCall.txDoneWait])

/-- Outcome of `ReceiveOneByte`: result code, the caller's buffer and the log. -/
structure RxOut where
  result : Nat
  buf : Nat → Nat
  log : List HwCall

/-- `static I2C_RESULT ReceiveOneByte(I2C_MODULE i2c_port, BYTE *data, BOOL ack)`
where `data` points at `buf[idx]`. -/
def ReceiveOneByte (dev : Device) (log : List HwCall) (buf : Nat → Nat) (idx : Nat)
    (ack : Bool) : RxOut :=
  let r := dev.I2CReceiverEnable log
  let log1 := log ++ [HwCall.rxEnable r]
  if r = I2C_RECEIVE_OVERFLOW then
    { result := I2C_RECEIVE_OVERFLOW, buf := buf, log := log1 }
  else
    let log2 := log1 ++ [HwCall.rxDataWait, HwCall.ackByte ack, HwCall.ackDoneWait]
    let b := dev.I2CGetByte log2 % 256
    { result := I2C_SUCCESS, buf := Function.update buf idx b, log := log2 ++ [HwCall.getByte b] }

/-- `static BOOL StartTransfer(I2C_MODULE i2c_port, BOOL restart)`. -/
def StartTransfer (dev : Device) (log : List HwCall) (restart : Bool) : Bool × List HwCall :=
  if restart then
    (true, log ++ [HwCall.repeatStart, HwCall.startStatusWait])
  else
    let log1 := log ++ [HwCall.busIdleWait]
    let r := dev.I2CStart log1
    if r ≠ I2C_SUCCESS then
      (false, log1 ++ [HwCall.start r])
    else
      (true, log1 ++ [HwCall.start r, HwCall.startStatusWait])

/-- `static void StopTransfer(I2C_MODULE i2c_port)`. -/
def StopTransfer (log : List HwCall) : List HwCall :=
  log ++ [HwCall.stop, HwCall.stopStatusWait]

/-! ## I2C_Write -/

/-- Loop state of the payload loop of `I2C_Write`. -/
structure TxState where
  dataIndex : Nat
  okay : Bool
  log : List HwCall

/-- The loop `while ((dataIndex < *len) && okay) okay = TransmitOneByte(port, str[dataIndex++]);`
of `I2C_Write`, unrolled at most `fuel` times. -/
def writeLoop (dev : Device) (str : Nat → Nat) (len : Int) : Nat → TxState → TxState
  | 0, s => s
  | fuel + 1, s =>
    if (s.dataIndex : Int) < len ∧ s.okay = true then
      let t := TransmitOneByte dev s.log (str s.dataIndex)
      writeLoop dev str len fuel { dataIndex := s.dataIndex + 1, okay := t.1, log := t.2 }
    else s

/-- Outcome of `I2C_Write`: returned result, the value stored through `*len`,
and the log. -/
structure WriteOut where
  result : Nat
  len : Int
  log : List HwCall

/-- The address block of `I2C_Write`,
`if ((i2c_result == I2C_SUCCESS) && okay) { ... if (!TransmitOneByte(...)) { if (!I2CByteWasAcknowledged(...)) { ... i2c_result = I2C_ERROR; } } dataIndex = 0; }`,
entered with `i2c_result == I2C_SUCCESS`: returns `i2c_result` and the log. -/
def writeAddrPhase (dev : Device) (DeviceAddress : Nat) (okay : Bool) (log : List HwCall) :
    Nat × List HwCall :=
  if I2C_SUCCESS = I2C_SUCCESS ∧ okay = true then
    let t := TransmitOneByte dev log (I2C_FORMAT_7_BIT_ADDRESS DeviceAddress I2C_WRITE)
    if t.1 = false then
      let acked := dev.I2CByteWasAcknowledged t.2
      if acked = false then (I2C_ERROR, t.2 ++ [HwCall.ackQuery acked])
      else (I2C_SUCCESS, t.2 ++ [HwCall.ackQuery acked])
    else (I2C_SUCCESS, t.2)
  else (I2C_SUCCESS, log)

/-- `I2C_RESULT I2C_Write(I2C_MODULE i2c_port, BYTE DeviceAddress, BYTE *str, int *len)`.
The `i2c_result` of the address block is overwritten by
`i2c_result = okay ? I2C_SUCCESS : I2C_ERROR;` after the loop, exactly as in
the source. -/
def I2C_Write (dev : Device) (DeviceAddress : Nat) (str : Nat → Nat) (len : Int) : WriteOut :=
  let st := StartTransfer dev [] true
  let okay := st.1
  let a := writeAddrPhase dev DeviceAddress okay st.2
  let s := writeLoop dev str len len.toNat { dataIndex := 0, okay := okay, log := a.2 }
  let log := StopTransfer s.log
  let i2c_result := if s.okay = true then I2C_SUCCESS else I2C_ERROR
  { result := i2c_result, len := (s.dataIndex : Int), log := log }

/-! ## I2C_Read and I2CReadRegs -/

/-- Loop state of the receive loops: index into the data buffer, accumulated
result, buffer contents and log. -/
structure RxState where
  dataIndex : Nat
  i2c_result : Nat
  buf : Nat → Nat
  log : List HwCall

/-- The loop
`while ((dataIndex < len-1) && (i2c_result == I2C_SUCCESS)) i2c_result |= ReceiveOneByte(port, &buf[dataIndex++], TRUE);`
which `I2C_Read` and `I2CReadRegs` share word for word, unrolled at most
`fuel` times. -/
def recvAckLoop (dev : Device) (len : Int) : Nat → RxState → RxState
  | 0, s => s
  | fuel + 1, s =>
    if (s.dataIndex : Int) < len - 1 ∧ s.i2c_result = I2C_SUCCESS then
      let r := ReceiveOneByte dev s.log s.buf s.dataIndex true
      recvAckLoop dev len fuel
        { dataIndex := s.dataIndex + 1, i2c_result := s.i2c_result ||| r.result,
          buf := r.buf, log := r.log }
    else s

/-- Outcome of `I2C_Read`: returned result, the value stored through `*len`,
the buffer `str` and the log. -/
structure ReadOut where
  result : Nat
  len : Int
  str : Nat → Nat
  log : List HwCall

/-- The address block of `I2C_Read`,
`if ((i2c_result == I2C_SUCCESS) && okay) { ... okay = TransmitOneByte(...); if (!okay) { okay = I2CByteWasAcknowledged(...); ... i2c_result = I2C_ERROR; } dataIndex = 0; }`,
entered with `i2c_result == I2C_SUCCESS`: returns `i2c_result` and the log. -/
def readAddrPhase (dev : Device) (DeviceAddress : Nat) (okay : Bool) (log : List HwCall) :
    Nat × List HwCall :=
  if I2C_SUCCESS = I2C_SUCCESS ∧ okay = true then
    let t := TransmitOneByte dev log (I2C_FORMAT_7_BIT_ADDRESS DeviceAddress I2C_READ)
    if t.1 = false then
      let acked := dev.I2CByteWasAcknowledged t.2
      (I2C_ERROR, t.2 ++ [HwCall.ackQuery acked])
    else (I2C_SUCCESS, t.2)
  else (I2C_SUCCESS, log)

/-- The last receive of `I2C_Read`,
`if (i2c_result == I2C_SUCCESS) i2c_result |= ReceiveOneByte(port, &str[dataIndex++], FALSE);`. -/
def readLastByte (dev : Device) (s : RxState) : RxState :=
  if s.i2c_result = I2C_SUCCESS then
    let r := ReceiveOneByte dev s.log s.buf s.dataIndex false
    { dataIndex := s.dataIndex + 1, i2c_result := s.i2c_result ||| r.result,
      buf := r.buf, log := r.log }
  else s

/-- `I2C_RESULT I2C_Read(I2C_MODULE i2c_port, BYTE DeviceAddress, BYTE *str, int *len)`. -/
def I2C_Read (dev : Device) (DeviceAddress : Nat) (str : Nat → Nat) (len : Int) : ReadOut :=
  let st := StartTransfer dev [] false
  let a := readAddrPhase dev DeviceAddress st.1 st.2
  let s := recvAckLoop dev len (len - 1).toNat
    { dataIndex := 0, i2c_result := a.1, buf := str, log := a.2 }
  let s2 := readLastByte dev s
  { result := s2.i2c_result, len := (s2.dataIndex : Int), str := s2.buf,
    log := StopTransfer s2.log }

/-- Loop state of the header loop of `I2CReadRegs`. -/
structure HdrState where
  headerIndex : Nat
  i2c_result : Nat
  log : List HwCall

/-- The loop `while ((headerIndex < 2) && (i2c_result == I2C_SUCCESS) && okay)`
of `I2CReadRegs`, unrolled at most `fuel` times. -/
def headerLoop (dev : Device) (header : List Nat) (okay : Bool) : Nat → HdrState → HdrState
  | 0, s => s
  | fuel + 1, s =>
    if s.headerIndex < 2 ∧ s.i2c_result = I2C_SUCCESS ∧ okay = true then
      let t := TransmitOneByte dev s.log (header.getD s.headerIndex 0)
      if t.1 = true then
        let acked := dev.I2CByteWasAcknowledged t.2
        if acked = false then
          headerLoop dev header okay fuel
            { headerIndex := s.headerIndex + 1, i2c_result := s.i2c_result ||| I2C_ERROR,
              log := t.2 ++ [HwCall.ackQuery acked] }
        else
          headerLoop dev header okay fuel
            { headerIndex := s.headerIndex + 1, i2c_result := s.i2c_result,
              log := t.2 ++ [HwCall.ackQuery acked] }
      else
        headerLoop dev header okay fuel
          { headerIndex := s.headerIndex + 1, i2c_result := s.i2c_result ||| I2C_ERROR,
            log := t.2 }
    else s

/-- The header bytes `header[0] = SlaveAddress.byte; header[1] = (BYTE) (reg_addr >> 8);`
set up by `I2CReadRegs` (`header[2]` is never written nor read). -/
def regsHeader (DeviceAddress : Nat) (reg_addr : Int) : List Nat :=
  [I2C_FORMAT_7_BIT_ADDRESS DeviceAddress I2C_WRITE, ((reg_addr >>> 8) % 256).toNat]

/-- Outcome of `I2CReadRegs`: returned result, the buffer `i2cData` and the log. -/
structure RegsOut where
  result : Nat
  i2cData : Nat → Nat
  log : List HwCall

/-- The read-address block of `I2CReadRegs` after the repeated start,
`if ((i2c_result == I2C_SUCCESS) && okay) { ... if (!TransmitOneByte(...)) { if (!I2CByteWasAcknowledged(...)) { ... i2c_result = I2C_ERROR; } } dataIndex = 0; }`:
returns `i2c_result` and the log. -/
def regsAddrPhase (dev : Device) (DeviceAddress : Nat) (i2c_result : Nat) (okay : Bool)
    (log : List HwCall) : Nat × List HwCall :=
  if i2c_result = I2C_SUCCESS ∧ okay = true then
    let t := TransmitOneByte dev log (I2C_FORMAT_7_BIT_ADDRESS DeviceAddress I2C_READ)
    if t.1 = false then
      let acked := dev.I2CByteWasAcknowledged t.2
      if acked = false then (I2C_ERROR, t.2 ++ [HwCall.ackQuery acked])
      else (i2c_result, t.2 ++ [HwCall.ackQuery acked])
    else (i2c_result, t.2)
  else (i2c_result, log)

/-- The last receive of `I2CReadRegs`,
`if (i2c_result == I2C_SUCCESS) i2c_result |= ReceiveOneByte(port, &i2cData[dataIndex], FALSE);`
(the index is not incremented here). -/
def regsLastByte (dev : Device) (s : RxState) : RxState :=
  if s.i2c_result = I2C_SUCCESS then
    let r := ReceiveOneByte dev s.log s.buf s.dataIndex false
    { dataIndex := s.dataIndex, i2c_result := s.i2c_result ||| r.result,
      buf := r.buf, log := r.log }
  else s

/-- `I2C_RESULT I2CReadRegs(I2C_MODULE i2c_port, BYTE DeviceAddress, int reg_addr, BYTE *i2cData, int len)`. -/
def I2CReadRegs (dev : Device) (DeviceAddress : Nat) (reg_addr : Int) (i2cData : Nat → Nat)
    (len : Int) : RegsOut :=
  let header := regsHeader DeviceAddress reg_addr
  let st := StartTransfer dev [] false
  let h := headerLoop dev header st.1 2
    { headerIndex := 0, i2c_result := I2C_SUCCESS, log := st.2 }
  let s3 : RxState :=
    if h.i2c_result = I2C_SUCCESS then
      let st2 := StartTransfer dev h.log true
      let a := regsAddrPhase dev DeviceAddress h.i2c_result st2.1 st2.2
      let s := recvAckLoop dev len (len - 1).toNat
        { dataIndex := 0, i2c_result := a.1, buf := i2cData, log := a.2 }
      regsLastByte dev s
    else { dataIndex := 0, i2c_result := h.i2c_result, buf := i2cData, log := h.log }
  { result := s3.i2c_result, i2cData := s3.buf, log := StopTransfer s3.log }

/-! ## I2C_WriteDev and I2C_ReadDev -/

/-- The data block descriptor `I2C_DATA_BLOCK` as the header comments of
`I2C_WriteDev` and `I2C_ReadDev` give it (the bus handle `i2c_channel` is
left out: the log belongs to one bus). -/
structure I2C_DATA_BLOCK where
  dev_id : Nat
  reg_addr : Nat
  block_size : Nat
  data : Nat → Nat

/-- `void i2c_ackError(int loc)`: a diagnostic line followed by `msDelay(10)`. -/
def i2c_ackError (log : List HwCall) (_loc : Nat) : List HwCall :=
  log ++ [HwCall.msDelay 10]

/-- Loop state of the block operations: byte counter `count`, offset of
`data_ptr` from `blk.data`, status `i2c_ops`, the data buffer and the log. -/
structure BlkState where
  count : Nat
  data_ptr : Nat
  i2c_ops : Nat
  buf : Nat → Nat
  log : List HwCall

/-- The device-ID block of `I2C_WriteDev`,
`if (TransmitOneByte(ch, SlaveAddress.byte)) { if (!I2CByteWasAcknowledged(ch)) { i2c_ackError(8); i2c_ops = I2C_ERROR; } }`,
entered with `i2c_ops == I2C_SUCCESS`: returns `i2c_ops` and the log. -/
def writeDevAddrPhase (dev : Device) (blk : I2C_DATA_BLOCK) (log : List HwCall) :
    Nat × List HwCall :=
  let t := TransmitOneByte dev log (I2C_FORMAT_7_BIT_ADDRESS blk.dev_id I2C_WRITE)
  if t.1 = true then
    let acked := dev.I2CByteWasAcknowledged t.2
    if acked = false then (I2C_ERROR, i2c_ackError (t.2 ++ [HwCall.ackQuery acked]) 8)
    else (I2C_SUCCESS, t.2 ++ [HwCall.ackQuery acked])
  else (I2C_SUCCESS, t.2)

/-- The register block of `I2C_WriteDev`,
`if (i2c_ops == I2C_SUCCESS) { if (TransmitOneByte(ch, blk.reg_addr)) { usDelay(35); if (!I2CByteWasAcknowledged(ch)) { i2c_ackError(9); i2c_ops = I2C_ERROR; } } }`. -/
def writeDevRegPhase (dev : Device) (blk : I2C_DATA_BLOCK) (i2c_ops : Nat)
    (log : List HwCall) : Nat × List HwCall :=
  if i2c_ops = I2C_SUCCESS then
    let t := TransmitOneByte dev log blk.reg_addr
    if t.1 = true then
      let log1 := t.2 ++ [HwCall.usDelay 35]
      let acked := dev.I2CByteWasAcknowledged log1
      if acked = false then (I2C_ERROR, i2c_ackError (log1 ++ [HwCall.ackQuery acked]) 9)
      else (i2c_ops, log1 ++ [HwCall.ackQuery acked])
    else (i2c_ops, t.2)
  else (i2c_ops, log)

/-- The payload loop of `I2C_WriteDev`,
`while ((count < blk.block_size) && (i2c_ops == I2C_SUCCESS)) { if (TransmitOneByte(ch, *data_ptr++)) { if (!I2CByteWasAcknowledged(ch)) { i2c_ackError(10); i2c_ops = I2C_ERROR; } else count++; } else i2c_ops = I2C_ERROR; }`,
unrolled at most `fuel` times. -/
def writeDevLoop (dev : Device) (blk : I2C_DATA_BLOCK) : Nat → BlkState → BlkState
  | 0, s => s
  | fuel + 1, s =>
    if s.count < blk.block_size ∧ s.i2c_ops = I2C_SUCCESS then
      let t := TransmitOneByte dev s.log (s.buf s.data_ptr)
      if t.1 = true then
        let acked := dev.I2CByteWasAcknowledged t.2
        if acked = false then
          writeDevLoop dev blk fuel
            { count := s.count, data_ptr := s.data_ptr + 1, i2c_ops := I2C_ERROR,
              buf := s.buf, log := i2c_ackError (t.2 ++ [HwCall.ackQuery acked]) 10 }
        else
          writeDevLoop dev blk fuel
            { count := s.count + 1, data_ptr := s.data_ptr + 1, i2c_ops := s.i2c_ops,
              buf := s.buf, log := t.2 ++ [HwCall.ackQuery acked] }
      else
        writeDevLoop dev blk fuel
          { count := s.count, data_ptr := s.data_ptr + 1, i2c_ops := I2C_ERROR,
            buf := s.buf, log := t.2 }
    else s

/-- Outcome of a block operation: returned result, the data buffer and the log. -/
structure BlkOut where
  result : Nat
  data : Nat → Nat
  log : List HwCall

/-- `I2C_RESULT I2C_WriteDev(I2C_DATA_BLOCK blk)`. -/
def I2C_WriteDev (dev : Device) (blk : I2C_DATA_BLOCK) : BlkOut :=
  let i2c_started := StartTransfer dev [] false
  if i2c_started.1 = true then
    let a := writeDevAddrPhase dev blk i2c_started.2
    let r := writeDevRegPhase dev blk a.1 a.2
    let s := writeDevLoop dev blk blk.block_size
      { count := 0, data_ptr := 0, i2c_ops := r.1, buf := blk.data, log := r.2 }
    { result := s.i2c_ops, data := s.buf, log := StopTransfer s.log }
  else
    { result := I2C_ERROR, data := blk.data, log := i2c_started.2 }

/-- The device-ID block of `I2C_ReadDev`,
`if (i2c_started) { if (TransmitOneByte(ch, SlaveAddress.byte)) { if (!I2CByteWasAcknowledged(ch)) { i2c_ackError(7); i2c_ops = I2C_ERROR; } } else i2c_ops = I2C_ERROR; usDelay(35); } else i2c_ops = I2C_ERROR;`,
entered with `i2c_ops == I2C_SUCCESS`: returns `i2c_ops` and the log. -/
def readDevAddrPhase (dev : Device) (blk : I2C_DATA_BLOCK) (i2c_started : Bool)
    (log : List HwCall) : Nat × List HwCall :=
  if i2c_started = true then
    let t := TransmitOneByte dev log (I2C_FORMAT_7_BIT_ADDRESS blk.dev_id I2C_READ)
    let p : Nat × List HwCall :=
      if t.1 = true then
        let acked := dev.I2CByteWasAcknowledged t.2
        if acked = false then (I2C_ERROR, i2c_ackError (t.2 ++ [HwCall.ackQuery acked]) 7)
        else (I2C_SUCCESS, t.2 ++ [HwCall.ackQuery acked])
      else (I2C_ERROR, t.2)
    (p.1, p.2 ++ [HwCall.usDelay 35])
  else (I2C_ERROR, log)

/-- The receive loop of `I2C_ReadDev`,
`while ((count < blk.block_size) && (i2c_ops == I2C_SUCCESS)) { i2c_ops = ReceiveOneByte(ch, data_ptr++, TRUE); count++; }`,
unrolled at most `fuel` times. -/
def readDevLoop (dev : Device) (blk : I2C_DATA_BLOCK) : Nat → BlkState → BlkState
  | 0, s => s
  | fuel + 1, s =>
    if s.count < blk.block_size ∧ s.i2c_ops = I2C_SUCCESS then
      let r := ReceiveOneByte dev s.log s.buf s.data_ptr true
      readDevLoop dev blk fuel
        { count := s.count + 1, data_ptr := s.data_ptr + 1, i2c_ops := r.result,
          buf := r.buf, log := r.log }
    else s

/-- The last receive of `I2C_ReadDev`,
`if (i2c_ops == I2C_SUCCESS) { i2c_ops |= ReceiveOneByte(ch, data_ptr, FALSE); }`. -/
def readDevLastByte (dev : Device) (s : BlkState) : BlkState :=
  if s.i2c_ops = I2C_SUCCESS then
    let r := ReceiveOneByte dev s.log s.buf s.data_ptr false
    { count := s.count, data_ptr := s.data_ptr, i2c_ops := s.i2c_ops ||| r.result,
      buf := r.buf, log := r.log }
  else s

/-- `I2C_RESULT I2C_ReadDev(I2C_DATA_BLOCK blk)`. -/
def I2C_ReadDev (dev : Device) (blk : I2C_DATA_BLOCK) : BlkOut :=
  let i2c_started := StartTransfer dev [] false
  let a := readDevAddrPhase dev blk i2c_started.1 i2c_started.2
  let s := readDevLoop dev blk blk.block_size
    { count := 0, data_ptr := 0, i2c_ops := a.1, buf := blk.data, log := a.2 }
  let s2 := readDevLastByte dev s
  { result := s2.i2c_ops, data := s2.buf, log := StopTransfer s2.log }

/-! ## I2C_Init -/

/-- Outcome of `I2C_Init`: the returned flag and whether the bus is enabled
afterwards. -/
structure InitOut where
  result : Nat
  enabled : Bool
  enableCalls : Nat

/-- `I2C_RESULT I2C_Init(I2C_MODULE i2c_port, int speed)`, where
`actualClock` is the value `I2CSetFrequency(i2c_port, GetPeripheralClock(), speed)`
returned and `enabled` is the enable state of the bus before the call;
`enableCalls` counts the calls of `I2CEnable(i2c_port, TRUE)`.  `abs` is the
absolute value, the C division `speed / 10` truncates towards zero; `int`
arithmetic is taken without overflow. -/
def I2C_Init (actualClock : Int) (speed : Int) (enabled : Bool) : InitOut :=
  if ((actualClock - speed).natAbs : Int) > Int.tdiv speed 10 then
    { result := I2C_ERROR, enabled := enabled, enableCalls := 0 }
  else
    { result := I2C_SUCCESS, enabled := true, enableCalls := 1 }

/-! ## calc_ck_sum -/

/-- Loop state of `calc_ck_sum`: the checksum, the two flags and the offset of
`str` from its initial value. -/
structure CkState where
  cksum : Nat
  start_flag : Bool
  stop_flag : Bool
  idx : Nat

/-- One pass through the body of the `do { ... str++; } while (...)` loop of
`calc_ck_sum` on the character `c = *str`; `(BYTE) (*str)` is the character
as a byte. -/
def ckBody (c : Nat) (st : CkState) : CkState :=
  if st.start_flag = false then
    if c = 0x24 then
      { cksum := st.cksum, start_flag := true, stop_flag := st.stop_flag, idx := st.idx + 1 }
    else
      { cksum := st.cksum, start_flag := st.start_flag, stop_flag := st.stop_flag,
        idx := st.idx + 1 }
  else
    if c = 0x2A then
      { cksum := st.cksum, start_flag := st.start_flag, stop_flag := true, idx := st.idx + 1 }
    else
      { cksum := (st.cksum ^^^ (c % 256)) % 256, start_flag := st.start_flag,
        stop_flag := st.stop_flag, idx := st.idx + 1 }

/-- The loop `do { body } while ((*str != 0x00) && (stop_flag == FALSE));` of
`calc_ck_sum` over the memory `str`, unrolled at most `fuel` times. -/
def ckLoop (str : Nat → Nat) : Nat → CkState → CkState
  | 0, st => st
  | fuel + 1, st =>
    let st1 := ckBody (str st.idx) st
    if str st1.idx ≠ 0x00 ∧ st1.stop_flag = false then ckLoop str fuel st1 else st1

/-- `static BYTE calc_ck_sum(char *str)` on the memory `str` (character `i` of
the string is `str i`), with `fuel` unrollings of the loop. -/
def calc_ck_sum (str : Nat → Nat) (fuel : Nat) : Nat :=
  (ckLoop str fuel { cksum := 0, start_flag := false, stop_flag := false, idx := 0 }).cksum

/-- The same loop read off a list of characters: the body runs on each
character in turn until the list ends or `stop_flag` is set.  Used to
relate `ckLoop` on a NUL-terminated string to the documented checksum. -/
def ckRun : List Nat → CkState → CkState
  | [], st => st
  | c :: rest, st =>
    if (ckBody c st).stop_flag = false then ckRun rest (ckBody c st) else ckBody c st

/-- Memory holding the characters `s` followed by NUL bytes. -/
def cString (s : List Nat) : Nat → Nat := fun i => s.getD i 0

/-- Bitwise XOR of a list of bytes. -/
def xorAll (l : List Nat) : Nat := l.foldl (fun acc c => acc ^^^ c) 0

/-- The NMEA checksum as the documentation states it: the XOR of all bytes
strictly after the first `$` and strictly before the first `*` that follows
it (up to the end of the string when there is no such `*`), and 0 when
there is no `$`. -/
def nmeaChecksum (s : List Nat) : Nat :=
  xorAll (((s.dropWhile (fun c => c != 0x24)).drop 1).takeWhile (fun c => c != 0x2A))

/-! ## Timer1Handler -/

/-- State touched by `Timer1Handler`: the static counters `ms` and `onesec`,
the global `unsigned int millisec`, and the number of `invLED3()` calls
performed so far. -/
structure TimerState where
  ms : Int
  onesec : Int
  millisec : Nat
  led3Toggles : Nat

/-- The state after `initTimer1` and the static initialisers. -/
def timerInit : TimerState :=
  { ms := 100, onesec := 1000, millisec := 0, led3Toggles := 0 }

/-- One invocation of `void Timer1Handler(void)`; `millisec++` wraps at `2^32`.
The servo, speed-controller and LED7 updates and the interrupt flag do not
touch this state. -/
def Timer1Handler (t : TimerState) : TimerState :=
  let ms := t.ms - 1
  if ms ≤ 0 then
    let millisec := (t.millisec + 1) % 2 ^ 32
    let onesec := t.onesec - 1
    if onesec ≤ 0 then
      { ms := 100, onesec := 1000, millisec := millisec, led3Toggles := t.led3Toggles + 1 }
    else
      { ms := 100, onesec := onesec, millisec := millisec, led3Toggles := t.led3Toggles }
  else
    { ms := ms, onesec := t.onesec, millisec := t.millisec, led3Toggles := t.led3Toggles }

/-- The state after `n` invocations of the handler. -/
def timerAfter : Nat → TimerState
  | 0 => timerInit
  | n + 1 => Timer1Handler (timerAfter n)

/-! ## Observations on the log -/

/-- What is visible on the two-wire bus. -/
inductive BusEvent where
  /-- start condition -/
  | START
  /-- repeated-start condition -/
  | RESTART
  /-- one byte clocked out by the master -/
  | TX (b : Nat)
  /-- acknowledge bit driven by the master after a received byte:
  `true` is ACK, `false` is NACK -/
  | ACKBIT (ack : Bool)
  /-- one data byte taken from the receiver -/
  | RX (b : Nat)
  /-- stop condition -/
  | STOP
  deriving DecidableEq, Repr

/-- Bus-level meaning of one library call: polls and status queries are
invisible, a collided start or send puts nothing on the bus. -/
def HwCall.bus : HwCall → Option BusEvent
  | HwCall.start r => if r = I2C_SUCCESS then some BusEvent.START else none
  | HwCall.repeatStart => some BusEvent.RESTART
  | HwCall.sendByte b r => if r = I2C_MASTER_BUS_COLLISION then none else some (BusEvent.TX b)
  | HwCall.ackByte a => some (BusEvent.ACKBIT a)
  | HwCall.getByte b => some (BusEvent.RX b)
  | HwCall.stop => some BusEvent.STOP
  | _ => none

/-- Whether a bus event belongs to the receive phase (acknowledge bit or
received byte). -/
def BusEvent.isReceive : BusEvent → Bool
  | BusEvent.ACKBIT _ => true
  | BusEvent.RX _ => true
  | _ => false

/-- Bus event trace of a log. -/
def busTrace (log : List HwCall) : List BusEvent :=
  log.filterMap HwCall.bus

/-- Acknowledge values passed to `I2CAcknowledgeByte`, in order. -/
def acksIssued (log : List HwCall) : List Bool :=
  log.filterMap fun c => match c with
    | HwCall.ackByte a => some a
    | _ => none

/-- Bytes delivered by `I2CGetByte`, in order. -/
def received (log : List HwCall) : List Nat :=
  log.filterMap fun c => match c with
    | HwCall.getByte b => some b
    | _ => none

/-- Number of `I2CStop` calls in a log. -/
def stopCount (log : List HwCall) : Nat :=
  log.count HwCall.stop

/-- Bytes handed to `I2CSendByte`, in order, whether or not the send collided. -/
def sendAttempts (log : List HwCall) : List Nat :=
  log.filterMap fun c => match c with
    | HwCall.sendByte b _ => some b
    | _ => none

/-- Answers of `I2CByteWasAcknowledged`, in order. -/
def ackQueries (log : List HwCall) : List Bool :=
  log.filterMap fun c => match c with
    | HwCall.ackQuery a => some a
    | _ => none

/-- The bytes `I2C_WriteDev` has to send, in order: the device address byte
with write direction, the register address, the `block_size` payload bytes. -/
def writeDevBytes (blk : I2C_DATA_BLOCK) : List Nat :=
  [I2C_FORMAT_7_BIT_ADDRESS blk.dev_id I2C_WRITE, blk.reg_addr]
    ++ (List.range blk.block_size).map blk.data

/-- State of an `I2C_WriteDev` transaction between two bytes, on a bus
without collisions: every byte sent so far has been queried for its
acknowledge, the status is `I2C_SUCCESS` while all answers were positive and
`I2C_ERROR` once the last answer was negative, the bytes sent are an initial
segment of `writeDevBytes`, and no stop has been issued. -/
def WInv (blk : I2C_DATA_BLOCK) (ops : Nat) (log : List HwCall) : Prop :=
  ((ops = I2C_SUCCESS ∧ ∀ b ∈ ackQueries log, b = true) ∨
    (ops = I2C_ERROR ∧ ∃ j, ackQueries log = List.replicate j true ++ [false])) ∧
  sendAttempts log = (writeDevBytes blk).take (ackQueries log).length ∧
  (ackQueries log).length ≤ (writeDevBytes blk).length ∧
  busTrace log = BusEvent.START :: (sendAttempts log).map BusEvent.TX ∧
  stopCount log = 0

/-- State of an `I2C_WriteDev` transaction right after a byte went out and
before its acknowledge is queried. -/
def WSent (blk : I2C_DATA_BLOCK) (log : List HwCall) : Prop :=
  (∀ b ∈ ackQueries log, b = true) ∧
  sendAttempts log = (writeDevBytes blk).take ((ackQueries log).length + 1) ∧
  (ackQueries log).length + 1 ≤ (writeDevBytes blk).length ∧
  busTrace log = BusEvent.START :: (sendAttempts log).map BusEvent.TX ∧
  stopCount log = 0

/-- The data buffer is in step with the bytes delivered so far: delivered
byte `i` sits in `buf[i]`, the positions after the delivered bytes are those
of the original buffer `buf0`, and the index counts the delivered bytes as
long as the result is `I2C_SUCCESS`. -/
def RxInv (buf0 : Nat → Nat) (s : RxState) : Prop :=
  (received s.log).length ≤ s.dataIndex ∧
  (s.i2c_result = I2C_SUCCESS → (received s.log).length = s.dataIndex) ∧
  (∀ i, i < (received s.log).length → (received s.log)[i]? = some (s.buf i)) ∧
  (∀ i, (received s.log).length ≤ i → s.buf i = buf0 i)

/-! ## Simulated devices used for concrete runs -/

/-- A fully responsive device: no collision, every byte acknowledged, no
receive overflow, and the `k`-th received byte is `data k`. -/
def responsive (data : Nat → Nat) : Device where
  I2CStart := fun _ => I2C_SUCCESS
  I2CSendByte := fun _ _ => I2C_SUCCESS
  I2CByteWasAcknowledged := fun _ => true
  I2CReceiverEnable := fun _ => I2C_SUCCESS
  I2CGetByte := fun log => data (received log).length

/-- A device that never collides and never overflows but does not
acknowledge the `k`-th byte sent to it (counting the address byte as
number 0); every other byte is acknowledged. -/
def nackAt (k : Nat) : Device where
  I2CStart := fun _ => I2C_SUCCESS
  I2CSendByte := fun _ _ => I2C_SUCCESS
  I2CByteWasAcknowledged := fun log => decide ((sendAttempts log).length ≠ k + 1)
  I2CReceiverEnable := fun _ => I2C_SUCCESS
  I2CGetByte := fun log => (received log).length

/-- A device that is fully responsive except that the receiver reports
overflow on receive step `k` (counting from 0). -/
def overflowAt (k : Nat) (data : Nat → Nat) : Device where
  I2CStart := fun _ => I2C_SUCCESS
  I2CSendByte := fun _ _ => I2C_SUCCESS
  I2CByteWasAcknowledged := fun _ => true
  I2CReceiverEnable := fun log =>
    if (received log).length = k then I2C_RECEIVE_OVERFLOW else I2C_SUCCESS
  I2CGetByte := fun log => data (received log).length

/-- Example payload buffer `[0xAA, 0xBB]`, zero elsewhere. -/
def bufAABB : Nat → Nat := fun i => [0xAA, 0xBB].getD i 0

/-- A device that never collides and never overflows and acknowledges
nothing. -/
def nackAll : Device where
  I2CStart := fun _ => I2C_SUCCESS
  I2CSendByte := fun _ _ => I2C_SUCCESS
  I2CByteWasAcknowledged := fun _ => false
  I2CReceiverEnable := fun _ => I2C_SUCCESS
  I2CGetByte := fun log => (received log).length

/-- A device on which the start collides; otherwise fully responsive. -/
def startCollides : Device where
  I2CStart := fun _ => I2C_MASTER_BUS_COLLISION
  I2CSendByte := fun _ _ => I2C_SUCCESS
  I2CByteWasAcknowledged := fun _ => true
  I2CReceiverEnable := fun _ => I2C_SUCCESS
  I2CGetByte := fun log => (received log).length

/-- A device that is fully responsive except that the `k`-th byte handed to
`I2CSendByte` (counting the address byte as number 0) collides. -/
def collideAt (k : Nat) : Device where
  I2CStart := fun _ => I2C_SUCCESS
  I2CSendByte := fun log _ =>
    if (sendAttempts log).length = k then I2C_MASTER_BUS_COLLISION else I2C_SUCCESS
  I2CByteWasAcknowledged := fun _ => true
  I2CReceiverEnable := fun _ => I2C_SUCCESS
  I2CGetByte := fun log => (received log).length

/-- Example descriptor: device 0x50, register 0x10, `n` bytes, buffer
`[0xAA, 0xBB]` followed by zeros. -/
def blkExample (n : Nat) : I2C_DATA_BLOCK :=
  { dev_id := 0x50, reg_addr := 0x10, block_size := n, data := bufAABB }

/-! ## Basic facts about the observations -/

theorem busTrace_append (l1 l2 : List HwCall) :
    busTrace (l1 ++ l2) = busTrace l1 ++ busTrace l2 := by
  simp [busTrace, List.filterMap_append]

theorem acksIssued_append (l1 l2 : List HwCall) :
    acksIssued (l1 ++ l2) = acksIssued l1 ++ acksIssued l2 := by
  simp [acksIssued, List.filterMap_append]

theorem received_append (l1 l2 : List HwCall) :
    received (l1 ++ l2) = received l1 ++ received l2 := by
  simp [received, List.filterMap_append]

theorem stopCount_append (l1 l2 : List HwCall) :
    stopCount (l1 ++ l2) = stopCount l1 + stopCount l2 := by
  simp [stopCount, List.count_append]

/-! ## Facts about the byte transceiver -/

/-- A receive step either succeeds or reports overflow. -/
theorem ReceiveOneByte_result (dev : Device) (log : List HwCall) (buf : Nat → Nat)
    (idx : Nat) (ack : Bool) :
    (ReceiveOneByte dev log buf idx ack).result = I2C_SUCCESS ∨
      (ReceiveOneByte dev log buf idx ack).result = I2C_RECEIVE_OVERFLOW := by
  unfold ReceiveOneByte
  by_cases h : dev.I2CReceiverEnable log = I2C_RECEIVE_OVERFLOW <;> simp [h]

/-- A successful receive step appends one delivered byte, stores it at
`buf[idx]` and issues the requested acknowledge value. -/
theorem ReceiveOneByte_ok (dev : Device) (log : List HwCall) (buf : Nat → Nat)
    (idx : Nat) (ack : Bool)
    (h : (ReceiveOneByte dev log buf idx ack).result = I2C_SUCCESS) :
    ∃ b, received (ReceiveOneByte dev log buf idx ack).log = received log ++ [b] ∧
      (ReceiveOneByte dev log buf idx ack).buf = Function.update buf idx b ∧
      acksIssued (ReceiveOneByte dev log buf idx ack).log = acksIssued log ++ [ack] ∧
      busTrace (ReceiveOneByte dev log buf idx ack).log
        = busTrace log ++ [BusEvent.ACKBIT ack, BusEvent.RX b] ∧
      stopCount (ReceiveOneByte dev log buf idx ack).log = stopCount log := by
  unfold ReceiveOneByte at h ⊢
  by_cases h1 : dev.I2CReceiverEnable log = I2C_RECEIVE_OVERFLOW
  · simp [h1, I2C_RECEIVE_OVERFLOW, I2C_SUCCESS] at h
  · simp only [h1, if_false]
    refine ⟨_, ?_, rfl, ?_, ?_, ?_⟩
    · simp [received, List.filterMap_append]
    · simp [acksIssued, List.filterMap_append]
    · simp [busTrace, List.filterMap_append, HwCall.bus]
    · simp [stopCount, List.count_append]

/-- A failed receive step delivers nothing, leaves the buffer alone and
issues no acknowledge. -/
theorem ReceiveOneByte_fail (dev : Device) (log : List HwCall) (buf : Nat → Nat)
    (idx : Nat) (ack : Bool)
    (h : (ReceiveOneByte dev log buf idx ack).result ≠ I2C_SUCCESS) :
    received (ReceiveOneByte dev log buf idx ack).log = received log ∧
      (ReceiveOneByte dev log buf idx ack).buf = buf ∧
      acksIssued (ReceiveOneByte dev log buf idx ack).log = acksIssued log ∧
      busTrace (ReceiveOneByte dev log buf idx ack).log = busTrace log ∧
      stopCount (ReceiveOneByte dev log buf idx ack).log = stopCount log := by
  unfold ReceiveOneByte at h ⊢
  by_cases h1 : dev.I2CReceiverEnable log = I2C_RECEIVE_OVERFLOW
  · simp only [h1, if_true]
    refine ⟨?_, trivial, ?_, ?_, ?_⟩
    · simp [received, List.filterMap_append]
    · simp [acksIssued, List.filterMap_append]
    · simp [busTrace, List.filterMap_append, HwCall.bus]
    · simp [stopCount, List.count_append]
  · simp [h1] at h

/-- Without receive overflow every receive step succeeds. -/
theorem ReceiveOneByte_noOverflow (dev : Device)
    (hrx : ∀ log, dev.I2CReceiverEnable log ≠ I2C_RECEIVE_OVERFLOW)
    (log : List HwCall) (buf : Nat → Nat) (idx : Nat) (ack : Bool) :
    (ReceiveOneByte dev log buf idx ack).result = I2C_SUCCESS := by
  unfold ReceiveOneByte
  simp [hrx log]

/-- Without collision a transmit step succeeds and puts its byte on the bus. -/
theorem TransmitOneByte_noCollision (dev : Device)
    (htx : ∀ log b, dev.I2CSendByte log b ≠ I2C_MASTER_BUS_COLLISION)
    (log : List HwCall) (data : Nat) :
    (TransmitOneByte dev log data).1 = true ∧
      busTrace (TransmitOneByte dev log data).2 = busTrace log ++ [BusEvent.TX data] ∧
      received (TransmitOneByte dev log data).2 = received log ∧
      acksIssued (TransmitOneByte dev log data).2 = acksIssued log ∧
      stopCount (TransmitOneByte dev log data).2 = stopCount log := by
  unfold TransmitOneByte
  simp [htx, busTrace, received, acksIssued, stopCount, List.filterMap_append, HwCall.bus,
    List.count_append]

/-- A transmit step never delivers a byte, never issues an acknowledge and
never stops the transfer. -/
theorem TransmitOneByte_frame (dev : Device) (log : List HwCall) (data : Nat) :
    received (TransmitOneByte dev log data).2 = received log ∧
      acksIssued (TransmitOneByte dev log data).2 = acksIssued log ∧
      stopCount (TransmitOneByte dev log data).2 = stopCount log := by
  unfold TransmitOneByte
  by_cases h : dev.I2CSendByte (log ++ [HwCall.txReadyWait]) data = I2C_MASTER_BUS_COLLISION <;>
    simp [h, received, acksIssued, stopCount, List.filterMap_append, List.count_append]

/-- A start step never delivers a byte, never issues an acknowledge and
never stops the transfer. -/
theorem StartTransfer_frame (dev : Device) (log : List HwCall) (restart : Bool) :
    received (StartTransfer dev log restart).2 = received log ∧
      acksIssued (StartTransfer dev log restart).2 = acksIssued log ∧
      stopCount (StartTransfer dev log restart).2 = stopCount log := by
  unfold StartTransfer
  cases restart
  · by_cases h : dev.I2CStart (log ++ [HwCall.busIdleWait]) = I2C_SUCCESS <;>
      simp [h, received, acksIssued, stopCount, List.filterMap_append, List.count_append]
  · simp [received, acksIssued, stopCount, List.filterMap_append, List.count_append]

/-! ## The payload loop of I2C_Write -/

/-- On a device that never collides the payload loop sends every remaining
byte in buffer order and ends with `okay` still set. -/
theorem writeLoop_noCollision (dev : Device)
    (htx : ∀ log b, dev.I2CSendByte log b ≠ I2C_MASTER_BUS_COLLISION)
    (str : Nat → Nat) (n : Nat) :
    ∀ (fuel i : Nat) (log : List HwCall), i + fuel = n →
      (writeLoop dev str (n : Int) fuel ⟨i, true, log⟩).dataIndex = n ∧
      (writeLoop dev str (n : Int) fuel ⟨i, true, log⟩).okay = true ∧
      busTrace (writeLoop dev str (n : Int) fuel ⟨i, true, log⟩).log
        = busTrace log ++ (List.range' i fuel).map (fun j => BusEvent.TX (str j)) ∧
      stopCount (writeLoop dev str (n : Int) fuel ⟨i, true, log⟩).log = stopCount log := by
  intro fuel
  induction fuel with
  | zero =>
    intro i log h
    simp [writeLoop]
    omega
  | succ fuel ih =>
    intro i log h
    have hlt : (i : Int) < (n : Int) := by omega
    have ht := TransmitOneByte_noCollision dev htx log (str i)
    have hi := ih (i + 1) (TransmitOneByte dev log (str i)).2 (by omega)
    simp only [writeLoop, hlt, true_and, if_true, ht.1]
    refine ⟨hi.1, hi.2.1, ?_, ?_⟩
    · rw [hi.2.2.1, ht.2.1, List.range'_succ]
      simp
    · rw [hi.2.2.2, ht.2.2.2.2]

/-- Exit condition and index bounds of the payload loop, whatever the
device does: with enough fuel the loop only ends with `okay` set once the
index has reached `len`, and the index never passes `len`. -/
theorem writeLoop_bounds (dev : Device) (str : Nat → Nat) (len : Int) :
    ∀ (fuel : Nat) (s : TxState), (len - s.dataIndex).toNat ≤ fuel →
      ((writeLoop dev str len fuel s).okay = true →
        len ≤ (writeLoop dev str len fuel s).dataIndex) ∧
      s.dataIndex ≤ (writeLoop dev str len fuel s).dataIndex ∧
      ((writeLoop dev str len fuel s).dataIndex : Int) ≤ max (s.dataIndex : Int) len := by
  intro fuel
  induction fuel with
  | zero =>
    intro s h
    simp only [writeLoop]
    refine ⟨fun _ => by omega, le_refl _, le_max_left _ _⟩
  | succ fuel ih =>
    intro s h
    by_cases hc : (s.dataIndex : Int) < len ∧ s.okay = true
    · simp only [writeLoop, hc, and_self, if_true]
      have hi := ih { dataIndex := s.dataIndex + 1,
                      okay := (TransmitOneByte dev s.log (str s.dataIndex)).1,
                      log := (TransmitOneByte dev s.log (str s.dataIndex)).2 }
        (by simp only; omega)
      simp only at hi
      refine ⟨hi.1, by omega, ?_⟩
      have h3 := hi.2.2
      have h4 : max ((s.dataIndex + 1 : Nat) : Int) len = len := max_eq_right (by omega)
      rw [h4] at h3
      exact le_trans h3 (le_max_right _ _)
    · simp only [writeLoop, hc, if_false]
      refine ⟨fun hk => ?_, le_refl _, le_max_left _ _⟩
      by_contra hlt
      exact hc ⟨by omega, hk⟩

/-- The payload loop never issues a stop. -/
theorem writeLoop_stopCount (dev : Device) (str : Nat → Nat) (len : Int) :
    ∀ (fuel : Nat) (s : TxState),
      stopCount (writeLoop dev str len fuel s).log = stopCount s.log := by
  intro fuel
  induction fuel with
  | zero => intro s; rfl
  | succ fuel ih =>
    intro s
    by_cases hc : (s.dataIndex : Int) < len ∧ s.okay = true
    · simp only [writeLoop, hc, and_self, if_true]
      rw [ih]
      exact (TransmitOneByte_frame dev s.log (str s.dataIndex)).2.2
    · simp only [writeLoop, hc, if_false]

/-! ## Claims about I2C_Write -/

/-- Whatever the acknowledge status says, on a device that never collides
`I2C_Write` returns `I2C_SUCCESS` and reports all `n` bytes written: the
result depends on collisions only. -/
theorem I2C_Write_result_noCollision (dev : Device) (a : Nat) (str : Nat → Nat) (n : Nat)
    (htx : ∀ log b, dev.I2CSendByte log b ≠ I2C_MASTER_BUS_COLLISION) :
    (I2C_Write dev a str (n : Int)).result = I2C_SUCCESS ∧
      (I2C_Write dev a str (n : Int)).len = (n : Int) := by
  have hl := writeLoop_noCollision dev htx str n n 0
    (writeAddrPhase dev a (StartTransfer dev [] true).1 (StartTransfer dev [] true).2).2
    (by omega)
  have hst : (StartTransfer dev [] true).1 = true := rfl
  rw [hst] at hl
  simp only [I2C_Write, Int.toNat_ofNat, hst, hl.1, hl.2.1, if_true]
  exact ⟨trivial, trivial⟩

/-- C1 (code evaluated at the failing input): writing `[0xAA, 0xBB]` to address
0x50 on a device that transmits every byte without collision but acknowledges
none of them, `I2C_Write` still returns `I2C_SUCCESS` and reports both
payload bytes as written; the acknowledge status is never even queried. -/
theorem I2C_Write_success_without_ack :
    (I2C_Write nackAll 0x50 bufAABB 2).result = I2C_SUCCESS ∧
      (I2C_Write nackAll 0x50 bufAABB 2).len = 2 ∧
      (∀ log, nackAll.I2CByteWasAcknowledged log = false) ∧
      (∀ a, HwCall.ackQuery a ∉ (I2C_Write nackAll 0x50 bufAABB 2).log) := by
  refine ⟨by decide, by decide, fun _ => rfl, ?_⟩
  intro a
  cases a <;> decide

/-- C2 (code evaluated at the failing input): in a write of length 2 where the
device does not acknowledge payload byte 1 (the address byte and payload
byte 0 are acknowledged, nothing collides), `I2C_Write` returns
`I2C_SUCCESS` and reports 2 bytes written, not `I2C_ERROR` and 1; the stop
is issued exactly once. -/
theorem I2C_Write_payload_nack_unnoticed :
    (I2C_Write (nackAt 2) 0x50 bufAABB 2).result = I2C_SUCCESS ∧
      (I2C_Write (nackAt 2) 0x50 bufAABB 2).len = 2 ∧
      stopCount (I2C_Write (nackAt 2) 0x50 bufAABB 2).log = 1 := by
  decide

/-- C3 (code evaluated at the failing input): for address 0x50 and buffer
`[0xAA, 0xBB]` on a fully responsive device the trace of `I2C_Write` is not
START, ADDR(0x50,W), 0xAA, 0xBB, STOP as it should be: the transaction opens
with a repeated start, because the opening call passes `restart = TRUE` where
every sibling transaction passes `FALSE`. -/
theorem I2C_Write_trace_not_plain_start :
    busTrace (I2C_Write (responsive id) 0x50 bufAABB 2).log
      ≠ [BusEvent.START, BusEvent.TX 0xA0, BusEvent.TX 0xAA, BusEvent.TX 0xBB, BusEvent.STOP] ∧
    busTrace (I2C_Write (responsive id) 0x50 bufAABB 2).log
      = [BusEvent.RESTART, BusEvent.TX 0xA0, BusEvent.TX 0xAA, BusEvent.TX 0xBB,
          BusEvent.STOP] := by
  decide

/-- Trace of `I2C_Write` as the code stands, for every input: for every 7-bit
device address `a` and payload of length `n`, on a device that never collides
(in particular a fully responsive one) the bus event trace is one REPEATED
start, the address byte `(a << 1) | I2C_WRITE`, the `n` payload bytes in
buffer order, one STOP. Only the opening event differs from the intended
trace. -/
theorem I2C_Write_trace (dev : Device) (a : Nat) (str : Nat → Nat) (n : Nat)
    (ha : a < 128)
    (htx : ∀ log b, dev.I2CSendByte log b ≠ I2C_MASTER_BUS_COLLISION) :
    busTrace (I2C_Write dev a str (n : Int)).log
      = [BusEvent.RESTART, BusEvent.TX (a <<< 1 ||| I2C_WRITE)]
          ++ (List.range n).map (fun j => BusEvent.TX (str j))
          ++ [BusEvent.STOP] := by
  have haddr : I2C_FORMAT_7_BIT_ADDRESS a I2C_WRITE = a <<< 1 ||| I2C_WRITE := by
    simp [I2C_FORMAT_7_BIT_ADDRESS, I2C_WRITE, Nat.shiftLeft_eq, Nat.mod_eq_of_lt ha]
  have ht := TransmitOneByte_noCollision dev htx
    (StartTransfer dev [] true).2 (I2C_FORMAT_7_BIT_ADDRESS a I2C_WRITE)
  have hl := writeLoop_noCollision dev htx str n n 0
    (TransmitOneByte dev (StartTransfer dev [] true).2
      (I2C_FORMAT_7_BIT_ADDRESS a I2C_WRITE)).2 (by omega)
  have hst : (StartTransfer dev [] true).1 = true := rfl
  have hbs : busTrace (StartTransfer dev [] true).2 = [BusEvent.RESTART] := by
    simp [StartTransfer, busTrace, HwCall.bus]
  rw [haddr] at ht hl
  simp only [I2C_Write, writeAddrPhase, hst, haddr, ht.1, Int.toNat_ofNat, and_self, if_true,
    Bool.true_eq_false, if_false, StopTransfer, busTrace_append, hl.2.2.1, ht.2.1, hbs,
    List.range_eq_range']
  simp [busTrace, HwCall.bus]

/-- The general trace of `I2C_Write` applied to the scenario of the
specification, address 0x50 and buffer `[0xAA, 0xBB]` on a fully responsive
device. -/
theorem I2C_Write_trace_witness :
    busTrace (I2C_Write (responsive id) 0x50 bufAABB ((2 : Nat) : Int)).log
      = [BusEvent.RESTART, BusEvent.TX (0x50 <<< 1 ||| I2C_WRITE)]
          ++ (List.range 2).map (fun j => BusEvent.TX (bufAABB j))
          ++ [BusEvent.STOP] :=
  I2C_Write_trace (responsive id) 0x50 bufAABB 2 (by decide)
    (by intro log b; simp [responsive, I2C_SUCCESS, I2C_MASTER_BUS_COLLISION])

/-! ## The receive loop shared by I2C_Read and I2CReadRegs -/

/-- Exit condition and index bounds of the receive loop, whatever the
device does: with enough fuel the loop only ends with the result still
`I2C_SUCCESS` once the index has reached `len - 1`, and the index never
passes `len - 1`. -/
theorem recvAckLoop_bounds (dev : Device) (len : Int) :
    ∀ (fuel : Nat) (s : RxState), (len - 1 - s.dataIndex).toNat ≤ fuel →
      ((recvAckLoop dev len fuel s).i2c_result = I2C_SUCCESS →
        len - 1 ≤ (recvAckLoop dev len fuel s).dataIndex) ∧
      s.dataIndex ≤ (recvAckLoop dev len fuel s).dataIndex ∧
      ((recvAckLoop dev len fuel s).dataIndex : Int) ≤ max (s.dataIndex : Int) (len - 1) := by
  intro fuel
  induction fuel with
  | zero =>
    intro s h
    simp only [recvAckLoop]
    refine ⟨fun _ => by omega, le_refl _, le_max_left _ _⟩
  | succ fuel ih =>
    intro s h
    by_cases hc : (s.dataIndex : Int) < len - 1 ∧ s.i2c_result = I2C_SUCCESS
    · simp only [recvAckLoop, hc, and_self, if_true]
      have hi := ih { dataIndex := s.dataIndex + 1,
                      i2c_result := s.i2c_result |||
                        (ReceiveOneByte dev s.log s.buf s.dataIndex true).result,
                      buf := (ReceiveOneByte dev s.log s.buf s.dataIndex true).buf,
                      log := (ReceiveOneByte dev s.log s.buf s.dataIndex true).log }
        (by simp only; omega)
      simp only at hi
      rw [hc.2] at hi
      refine ⟨hi.1, by omega, ?_⟩
      have h3 := hi.2.2
      have h4 : max ((s.dataIndex + 1 : Nat) : Int) (len - 1) = len - 1 :=
        max_eq_right (by omega)
      rw [h4] at h3
      exact le_trans h3 (le_max_right _ _)
    · simp only [recvAckLoop, hc, if_false]
      refine ⟨fun hk => ?_, le_refl _, le_max_left _ _⟩
      by_contra hlt
      exact hc ⟨by omega, hk⟩

/-- One receive step entered with result `I2C_SUCCESS` keeps the buffer in
step with the bytes delivered: delivered byte `i` sits in `buf[i]`, and the
positions from the number of delivered bytes on are those of `buf0`. -/
theorem rxStep_inv (dev : Device) (buf0 : Nat → Nat) (s : RxState) (ack : Bool)
    (hres : s.i2c_result = I2C_SUCCESS)
    (hlen : (received s.log).length = s.dataIndex)
    (hpre : ∀ i, i < (received s.log).length → (received s.log)[i]? = some (s.buf i))
    (hpost : ∀ i, (received s.log).length ≤ i → s.buf i = buf0 i) :
    (s.i2c_result ||| (ReceiveOneByte dev s.log s.buf s.dataIndex ack).result = I2C_SUCCESS →
      (received (ReceiveOneByte dev s.log s.buf s.dataIndex ack).log).length
        = s.dataIndex + 1) ∧
    (s.i2c_result ||| (ReceiveOneByte dev s.log s.buf s.dataIndex ack).result ≠ I2C_SUCCESS →
      (received (ReceiveOneByte dev s.log s.buf s.dataIndex ack).log).length
        = s.dataIndex) ∧
    (∀ i, i < (received (ReceiveOneByte dev s.log s.buf s.dataIndex ack).log).length →
      (received (ReceiveOneByte dev s.log s.buf s.dataIndex ack).log)[i]?
        = some ((ReceiveOneByte dev s.log s.buf s.dataIndex ack).buf i)) ∧
    (∀ i, (received (ReceiveOneByte dev s.log s.buf s.dataIndex ack).log).length ≤ i →
      (ReceiveOneByte dev s.log s.buf s.dataIndex ack).buf i = buf0 i) := by
  rcases ReceiveOneByte_result dev s.log s.buf s.dataIndex ack with h | h
  · obtain ⟨b, hr, hb, -, -, -⟩ := ReceiveOneByte_ok dev s.log s.buf s.dataIndex ack h
    rw [hr, hb, h, hres]
    refine ⟨fun _ => by simp [hlen], fun hne => absurd rfl hne, ?_, ?_⟩
    · intro i hi
      simp only [List.length_append, List.length_singleton] at hi
      by_cases hi2 : i < (received s.log).length
      · rw [List.getElem?_append_left hi2, hpre i hi2,
          Function.update_noteq (by omega)]
      · have hi3 : i = s.dataIndex := by omega
        subst hi3
        rw [List.getElem?_append_right (by omega)]
        simp [hlen]
    · intro i hi
      simp only [List.length_append, List.length_singleton] at hi
      rw [Function.update_noteq (by omega)]
      exact hpost i (by omega)
  · have hne : (ReceiveOneByte dev s.log s.buf s.dataIndex ack).result ≠ I2C_SUCCESS := by
      rw [h]; decide
    obtain ⟨hr, hb, -, -, -⟩ := ReceiveOneByte_fail dev s.log s.buf s.dataIndex ack hne
    rw [hr, hb, h, hres]
    exact ⟨fun hk => absurd hk (by decide), fun _ => hlen, hpre, hpost⟩

/-- The receive loop keeps the buffer in step with the delivered bytes,
whatever the device does. -/
theorem recvAckLoop_inv (dev : Device) (len : Int) (buf0 : Nat → Nat) :
    ∀ (fuel : Nat) (s : RxState), RxInv buf0 s → RxInv buf0 (recvAckLoop dev len fuel s) := by
  intro fuel
  induction fuel with
  | zero => intro s h; exact h
  | succ fuel ih =>
    intro s h
    by_cases hc : (s.dataIndex : Int) < len - 1 ∧ s.i2c_result = I2C_SUCCESS
    · simp only [recvAckLoop, hc, and_self, if_true]
      apply ih
      obtain ⟨h1, h2, h3, h4⟩ := rxStep_inv dev buf0 s true hc.2 (h.2.1 hc.2) h.2.2.1 h.2.2.2
      rw [hc.2] at h1 h2
      refine ⟨?_, h1, h3, h4⟩
      by_cases hk : I2C_SUCCESS |||
          (ReceiveOneByte dev s.log s.buf s.dataIndex true).result = I2C_SUCCESS
      · exact le_of_eq (h1 hk)
      · simp only
        rw [h2 hk]
        exact Nat.le_succ _
    · simp only [recvAckLoop, hc, if_false]
      exact h

/-- The last receive of `I2C_Read` keeps the buffer in step with the
delivered bytes. -/
theorem readLastByte_inv (dev : Device) (buf0 : Nat → Nat) (s : RxState)
    (h : RxInv buf0 s) : RxInv buf0 (readLastByte dev s) := by
  unfold readLastByte
  by_cases hc : s.i2c_result = I2C_SUCCESS
  · simp only [hc, if_true]
    obtain ⟨h1, h2, h3, h4⟩ := rxStep_inv dev buf0 s false hc (h.2.1 hc) h.2.2.1 h.2.2.2
    rw [hc] at h1 h2
    refine ⟨?_, h1, h3, h4⟩
    by_cases hk : I2C_SUCCESS |||
        (ReceiveOneByte dev s.log s.buf s.dataIndex false).result = I2C_SUCCESS
    · exact le_of_eq (h1 hk)
    · simp only
      rw [h2 hk]
      exact Nat.le_succ _
  · simp only [hc, if_false]
    exact h

/-- The last receive of `I2C_Read` advances the index by one exactly when it
is attempted, and it is attempted whenever the final result is
`I2C_SUCCESS`. -/
theorem readLastByte_index (dev : Device) (s : RxState) :
    (readLastByte dev s).dataIndex ≤ s.dataIndex + 1 ∧
    ((readLastByte dev s).i2c_result = I2C_SUCCESS →
      s.i2c_result = I2C_SUCCESS ∧ (readLastByte dev s).dataIndex = s.dataIndex + 1) := by
  unfold readLastByte
  by_cases hc : s.i2c_result = I2C_SUCCESS <;> simp [hc]

/-- The last receive of `I2CReadRegs` stores its byte at `i2cData[dataIndex]`:
afterwards delivered byte `i` sits in position `i`, later positions are
untouched, and at most one more byte has been delivered. -/
theorem regsLastByte_inv (dev : Device) (buf0 : Nat → Nat) (s : RxState)
    (h : RxInv buf0 s) :
    (received (regsLastByte dev s).log).length ≤ s.dataIndex + 1 ∧
    ((regsLastByte dev s).i2c_result = I2C_SUCCESS →
      s.i2c_result = I2C_SUCCESS ∧
        (received (regsLastByte dev s).log).length = s.dataIndex + 1) ∧
    (∀ i, i < (received (regsLastByte dev s).log).length →
      (received (regsLastByte dev s).log)[i]? = some ((regsLastByte dev s).buf i)) ∧
    (∀ i, (received (regsLastByte dev s).log).length ≤ i →
      (regsLastByte dev s).buf i = buf0 i) := by
  unfold regsLastByte
  by_cases hc : s.i2c_result = I2C_SUCCESS
  · simp only [hc, if_true]
    obtain ⟨h1, h2, h3, h4⟩ := rxStep_inv dev buf0 s false hc (h.2.1 hc) h.2.2.1 h.2.2.2
    rw [hc] at h1 h2
    refine ⟨?_, fun hk => ⟨trivial, h1 hk⟩, h3, h4⟩
    by_cases hk : I2C_SUCCESS |||
        (ReceiveOneByte dev s.log s.buf s.dataIndex false).result = I2C_SUCCESS
    · exact le_of_eq (h1 hk)
    · rw [h2 hk]
      exact Nat.le_succ _
  · simp only [hc, if_false]
    exact ⟨le_trans h.1 (Nat.le_succ _), fun hk => hk.elim, h.2.2.1, h.2.2.2⟩

/-- On a device that never reports receive overflow the receive loop, entered
with result `I2C_SUCCESS`, receives every byte up to index `len - 2` with
ACK and ends with result `I2C_SUCCESS`. -/
theorem recvAckLoop_noOverflow (dev : Device)
    (hrx : ∀ log, dev.I2CReceiverEnable log ≠ I2C_RECEIVE_OVERFLOW) (len : Int) :
    ∀ (fuel : Nat) (s : RxState), s.i2c_result = I2C_SUCCESS →
      (len - 1 - s.dataIndex).toNat ≤ fuel →
      (recvAckLoop dev len fuel s).i2c_result = I2C_SUCCESS ∧
      acksIssued (recvAckLoop dev len fuel s).log
        = acksIssued s.log ++ List.replicate (len - 1 - s.dataIndex).toNat true ∧
      (received (recvAckLoop dev len fuel s).log).length
        = (received s.log).length + (len - 1 - s.dataIndex).toNat := by
  intro fuel
  induction fuel with
  | zero =>
    intro s hs h
    have h0 : (len - 1 - s.dataIndex).toNat = 0 := by omega
    simp [recvAckLoop, hs, h0]
  | succ fuel ih =>
    intro s hs h
    have hok := ReceiveOneByte_noOverflow dev hrx s.log s.buf s.dataIndex true
    by_cases hc : (s.dataIndex : Int) < len - 1
    · obtain ⟨b, hr, -, hacks, -, -⟩ := ReceiveOneByte_ok dev s.log s.buf s.dataIndex true hok
      have hi := ih { dataIndex := s.dataIndex + 1,
                      i2c_result := s.i2c_result |||
                        (ReceiveOneByte dev s.log s.buf s.dataIndex true).result,
                      buf := (ReceiveOneByte dev s.log s.buf s.dataIndex true).buf,
                      log := (ReceiveOneByte dev s.log s.buf s.dataIndex true).log }
        (by simp only; rw [hs, hok]; rfl) (by simp only; omega)
      simp only at hi
      have hk : (len - 1 - (s.dataIndex : Int)).toNat
          = (len - 1 - ((s.dataIndex + 1 : Nat) : Int)).toNat + 1 := by omega
      simp only [recvAckLoop, hc, hs, and_self, if_true]
      rw [hs] at hi
      refine ⟨hi.1, ?_, ?_⟩
      · rw [hi.2.1, hacks, hk, List.replicate_succ]
        simp
      · rw [hi.2.2, hr, hk]
        simp only [List.length_append, List.length_singleton]
        omega
    · have h0 : (len - 1 - s.dataIndex).toNat = 0 := by omega
      simp [recvAckLoop, hc, hs, h0]

/-- The receive loop puts only receive-phase events on the bus and never
issues a stop. -/
theorem recvAckLoop_trace (dev : Device) (len : Int) :
    ∀ (fuel : Nat) (s : RxState),
      (∃ rest, busTrace (recvAckLoop dev len fuel s).log = busTrace s.log ++ rest ∧
        ∀ e ∈ rest, e.isReceive = true) ∧
      stopCount (recvAckLoop dev len fuel s).log = stopCount s.log := by
  intro fuel
  induction fuel with
  | zero =>
    intro s
    exact ⟨⟨[], by simp [recvAckLoop], by simp⟩, rfl⟩
  | succ fuel ih =>
    intro s
    by_cases hc : (s.dataIndex : Int) < len - 1 ∧ s.i2c_result = I2C_SUCCESS
    · simp only [recvAckLoop, hc, and_self, if_true]
      obtain ⟨⟨rest, hr, hall⟩, hstop⟩ := ih
        { dataIndex := s.dataIndex + 1,
          i2c_result := I2C_SUCCESS |||
            (ReceiveOneByte dev s.log s.buf s.dataIndex true).result,
          buf := (ReceiveOneByte dev s.log s.buf s.dataIndex true).buf,
          log := (ReceiveOneByte dev s.log s.buf s.dataIndex true).log }
      simp only at hr hstop
      rcases ReceiveOneByte_result dev s.log s.buf s.dataIndex true with h | h
      · obtain ⟨b, -, -, -, hb, hs⟩ := ReceiveOneByte_ok dev s.log s.buf s.dataIndex true h
        refine ⟨⟨[BusEvent.ACKBIT true, BusEvent.RX b] ++ rest, ?_, ?_⟩, ?_⟩
        · rw [hr, hb]; simp
        · intro e he
          simp only [List.cons_append, List.nil_append, List.mem_cons] at he
          rcases he with he | he | he
          · rw [he]; rfl
          · rw [he]; rfl
          · exact hall e he
        · rw [hstop, hs]
      · have hne : (ReceiveOneByte dev s.log s.buf s.dataIndex true).result ≠ I2C_SUCCESS := by
          rw [h]; decide
        obtain ⟨-, -, -, hb, hs⟩ := ReceiveOneByte_fail dev s.log s.buf s.dataIndex true hne
        refine ⟨⟨rest, ?_, hall⟩, ?_⟩
        · rw [hr, hb]
        · rw [hstop, hs]
    · simp only [recvAckLoop, hc, if_false]
      exact ⟨⟨[], by simp, by simp⟩, trivial⟩

/-! ## The address phases and the header loop -/

/-- An acknowledge-status query delivers no byte, issues no acknowledge and
no stop. -/
theorem ackQuery_frame (log : List HwCall) (a : Bool) :
    received (log ++ [HwCall.ackQuery a]) = received log ∧
      acksIssued (log ++ [HwCall.ackQuery a]) = acksIssued log ∧
      stopCount (log ++ [HwCall.ackQuery a]) = stopCount log := by
  simp [received, acksIssued, stopCount, List.filterMap_append, List.count_append]

/-- The address block of `I2C_Read` delivers no byte, issues no acknowledge
and no stop. -/
theorem readAddrPhase_frame (dev : Device) (a : Nat) (okay : Bool) (log : List HwCall) :
    received (readAddrPhase dev a okay log).2 = received log ∧
      acksIssued (readAddrPhase dev a okay log).2 = acksIssued log ∧
      stopCount (readAddrPhase dev a okay log).2 = stopCount log := by
  have ht := TransmitOneByte_frame dev log (I2C_FORMAT_7_BIT_ADDRESS a I2C_READ)
  unfold readAddrPhase
  dsimp only
  split_ifs <;> dsimp only <;>
    first
      | exact ht
      | exact ⟨rfl, rfl, rfl⟩
      | (rw [(ackQuery_frame _ _).1, (ackQuery_frame _ _).2.1, (ackQuery_frame _ _).2.2]
         exact ht)

/-- Without collision the address block of `I2C_Read` leaves the result at
`I2C_SUCCESS`, whether or not the address byte is acknowledged. -/
theorem readAddrPhase_noCollision (dev : Device)
    (htx : ∀ log b, dev.I2CSendByte log b ≠ I2C_MASTER_BUS_COLLISION)
    (a : Nat) (okay : Bool) (log : List HwCall) :
    (readAddrPhase dev a okay log).1 = I2C_SUCCESS := by
  have ht := TransmitOneByte_noCollision dev htx log (I2C_FORMAT_7_BIT_ADDRESS a I2C_READ)
  unfold readAddrPhase
  cases okay
  · simp
  · simp [ht.1]

/-- The read-address block of `I2CReadRegs` delivers no byte, issues no
acknowledge and no stop. -/
theorem regsAddrPhase_frame (dev : Device) (a r : Nat) (okay : Bool) (log : List HwCall) :
    received (regsAddrPhase dev a r okay log).2 = received log ∧
      acksIssued (regsAddrPhase dev a r okay log).2 = acksIssued log ∧
      stopCount (regsAddrPhase dev a r okay log).2 = stopCount log := by
  have ht := TransmitOneByte_frame dev log (I2C_FORMAT_7_BIT_ADDRESS a I2C_READ)
  unfold regsAddrPhase
  dsimp only
  split_ifs <;> dsimp only <;>
    first
      | exact ht
      | exact ⟨rfl, rfl, rfl⟩
      | (rw [(ackQuery_frame _ _).1, (ackQuery_frame _ _).2.1, (ackQuery_frame _ _).2.2]
         exact ht)

/-- Without collision the read-address block of `I2CReadRegs`, entered with
result `I2C_SUCCESS` after the repeated start, sends the read address byte
and leaves the result at `I2C_SUCCESS`. -/
theorem regsAddrPhase_noCollision (dev : Device)
    (htx : ∀ log b, dev.I2CSendByte log b ≠ I2C_MASTER_BUS_COLLISION)
    (a : Nat) (log : List HwCall) :
    (regsAddrPhase dev a I2C_SUCCESS true log).1 = I2C_SUCCESS ∧
      busTrace (regsAddrPhase dev a I2C_SUCCESS true log).2
        = busTrace log ++ [BusEvent.TX (I2C_FORMAT_7_BIT_ADDRESS a I2C_READ)] := by
  have ht := TransmitOneByte_noCollision dev htx log (I2C_FORMAT_7_BIT_ADDRESS a I2C_READ)
  unfold regsAddrPhase
  simp [ht.1, ht.2.1]

/-- The header loop of `I2CReadRegs` delivers no byte, issues no acknowledge
and no stop. -/
theorem headerLoop_frame (dev : Device) (header : List Nat) (okay : Bool) :
    ∀ (fuel : Nat) (s : HdrState),
      received (headerLoop dev header okay fuel s).log = received s.log ∧
      acksIssued (headerLoop dev header okay fuel s).log = acksIssued s.log ∧
      stopCount (headerLoop dev header okay fuel s).log = stopCount s.log := by
  intro fuel
  induction fuel with
  | zero => intro s; exact ⟨rfl, rfl, rfl⟩
  | succ fuel ih =>
    intro s
    have ht := TransmitOneByte_frame dev s.log (header.getD s.headerIndex 0)
    rw [headerLoop]
    dsimp only
    split_ifs <;>
      first
        | exact ⟨rfl, rfl, rfl⟩
        | (rw [(ih _).1, (ih _).2.1, (ih _).2.2]
           dsimp only
           first
             | exact ht
             | (rw [(ackQuery_frame _ _).1, (ackQuery_frame _ _).2.1,
                  (ackQuery_frame _ _).2.2]
                exact ht))

/-- Without collision and with every byte acknowledged the header loop sends
both header bytes and leaves the result at `I2C_SUCCESS`. -/
theorem headerLoop_ok (dev : Device)
    (htx : ∀ log b, dev.I2CSendByte log b ≠ I2C_MASTER_BUS_COLLISION)
    (hack : ∀ log, dev.I2CByteWasAcknowledged log = true)
    (h0 h1 : Nat) (log : List HwCall) :
    (headerLoop dev [h0, h1] true 2 ⟨0, I2C_SUCCESS, log⟩).i2c_result = I2C_SUCCESS ∧
      busTrace (headerLoop dev [h0, h1] true 2 ⟨0, I2C_SUCCESS, log⟩).log
        = busTrace log ++ [BusEvent.TX h0, BusEvent.TX h1] := by
  have t0 := TransmitOneByte_noCollision dev htx log h0
  have t1 := TransmitOneByte_noCollision dev htx
    ((TransmitOneByte dev log h0).2 ++ [HwCall.ackQuery true]) h1
  simp only [headerLoop, hack, t0.1, t1.1, List.getD_cons_zero, List.getD_cons_succ,
    Nat.lt_succ_self, Nat.zero_lt_succ, and_self, if_true, Bool.true_eq_false, if_false,
    Nat.zero_add, busTrace_append, t0.2.1, t1.2.1, Nat.lt_irrefl, false_and, Nat.reduceAdd,
    Nat.reduceLT]
  simp [busTrace, HwCall.bus]

/-- Two unrollings are enough for the header loop started at index 0: it
ends because its condition is false. -/
theorem headerLoop_exit (dev : Device) (header : List Nat) (okay : Bool) :
    ∀ (fuel : Nat) (s : HdrState), 2 - s.headerIndex ≤ fuel →
      ¬ ((headerLoop dev header okay fuel s).headerIndex < 2 ∧
        (headerLoop dev header okay fuel s).i2c_result = I2C_SUCCESS ∧ okay = true) := by
  intro fuel
  induction fuel with
  | zero =>
    intro s h hc
    simp only [headerLoop] at hc
    omega
  | succ fuel ih =>
    intro s h
    rw [headerLoop]
    dsimp only
    split_ifs with h1 h2 h3
    · exact ih _ (by dsimp only; omega)
    · exact ih _ (by dsimp only; omega)
    · exact ih _ (by dsimp only; omega)
    · exact h1

/-- When the start failed the header loop does nothing. -/
theorem headerLoop_notStarted (dev : Device) (header : List Nat) (fuel : Nat) (s : HdrState) :
    headerLoop dev header false fuel s = s := by
  cases fuel <;> simp [headerLoop]

/-! ## Shape of the read transactions -/

/-- The stop step delivers no byte and issues no acknowledge; it adds one
stop, as the last bus event. -/
theorem StopTransfer_frame (log : List HwCall) :
    received (StopTransfer log) = received log ∧
      acksIssued (StopTransfer log) = acksIssued log ∧
      stopCount (StopTransfer log) = stopCount log + 1 ∧
      busTrace (StopTransfer log) = busTrace log ++ [BusEvent.STOP] := by
  simp [StopTransfer, received, acksIssued, stopCount, busTrace, HwCall.bus,
    List.filterMap_append, List.count_append]

/-- `I2C_Read` is the receive loop followed by the last receive and the stop,
run from a state in which nothing has been received yet. -/
theorem I2C_Read_decomp (dev : Device) (a : Nat) (str : Nat → Nat) (len : Int) :
    ∃ s0 : RxState, s0.dataIndex = 0 ∧ s0.buf = str ∧ received s0.log = [] ∧
      acksIssued s0.log = [] ∧ stopCount s0.log = 0 ∧
      ((∀ log b, dev.I2CSendByte log b ≠ I2C_MASTER_BUS_COLLISION) →
        s0.i2c_result = I2C_SUCCESS) ∧
      I2C_Read dev a str len =
        { result := (readLastByte dev (recvAckLoop dev len (len - 1).toNat s0)).i2c_result,
          len := ((readLastByte dev (recvAckLoop dev len (len - 1).toNat s0)).dataIndex : Int),
          str := (readLastByte dev (recvAckLoop dev len (len - 1).toNat s0)).buf,
          log := StopTransfer
            (readLastByte dev (recvAckLoop dev len (len - 1).toNat s0)).log } := by
  have hs := StartTransfer_frame dev [] false
  have ha := readAddrPhase_frame dev a (StartTransfer dev [] false).1
    (StartTransfer dev [] false).2
  refine ⟨⟨0, (readAddrPhase dev a (StartTransfer dev [] false).1
      (StartTransfer dev [] false).2).1, str,
    (readAddrPhase dev a (StartTransfer dev [] false).1
      (StartTransfer dev [] false).2).2⟩, rfl, rfl, ?_, ?_, ?_, ?_, rfl⟩
  · show received (readAddrPhase dev a _ _).2 = []
    rw [ha.1, hs.1]; rfl
  · show acksIssued (readAddrPhase dev a _ _).2 = []
    rw [ha.2.1, hs.2.1]; rfl
  · show stopCount (readAddrPhase dev a _ _).2 = 0
    rw [ha.2.2, hs.2.2]; rfl
  · intro htx
    exact readAddrPhase_noCollision dev htx a _ _

/-- `I2CReadRegs` either fails in the header phase, receiving nothing and
leaving the buffer alone, or is the receive loop followed by the last
receive and the stop, run from a state in which nothing has been received
yet. -/
theorem I2CReadRegs_decomp (dev : Device) (a : Nat) (reg : Int) (buf : Nat → Nat)
    (len : Int) :
    (∃ r log, r ≠ I2C_SUCCESS ∧ received log = [] ∧ acksIssued log = [] ∧
      stopCount log = 0 ∧
      I2CReadRegs dev a reg buf len
        = { result := r, i2cData := buf, log := StopTransfer log }) ∨
    (∃ s0 : RxState, s0.dataIndex = 0 ∧ s0.buf = buf ∧ received s0.log = [] ∧
      acksIssued s0.log = [] ∧ stopCount s0.log = 0 ∧
      I2CReadRegs dev a reg buf len =
        { result := (regsLastByte dev (recvAckLoop dev len (len - 1).toNat s0)).i2c_result,
          i2cData := (regsLastByte dev (recvAckLoop dev len (len - 1).toNat s0)).buf,
          log := StopTransfer
            (regsLastByte dev (recvAckLoop dev len (len - 1).toNat s0)).log }) := by
  have hs := StartTransfer_frame dev [] false
  obtain ⟨H, hH⟩ : ∃ H, H = headerLoop dev (regsHeader a reg) (StartTransfer dev [] false).1 2
      ⟨0, I2C_SUCCESS, (StartTransfer dev [] false).2⟩ := ⟨_, rfl⟩
  have hh : received H.log = [] ∧ acksIssued H.log = [] ∧ stopCount H.log = 0 := by
    have h1 := headerLoop_frame dev (regsHeader a reg) (StartTransfer dev [] false).1 2
      ⟨0, I2C_SUCCESS, (StartTransfer dev [] false).2⟩
    dsimp only at h1
    rw [hs.1, hs.2.1, hs.2.2, ← hH] at h1
    exact h1
  by_cases h : H.i2c_result = I2C_SUCCESS
  · right
    have hs2 := StartTransfer_frame dev H.log true
    have ha := regsAddrPhase_frame dev a H.i2c_result (StartTransfer dev H.log true).1
      (StartTransfer dev H.log true).2
    rw [hs2.1, hs2.2.1, hs2.2.2, hh.1, hh.2.1, hh.2.2] at ha
    refine ⟨⟨0, (regsAddrPhase dev a H.i2c_result (StartTransfer dev H.log true).1
        (StartTransfer dev H.log true).2).1, buf,
      (regsAddrPhase dev a H.i2c_result (StartTransfer dev H.log true).1
        (StartTransfer dev H.log true).2).2⟩, rfl, rfl, ha.1, ha.2.1, ha.2.2, ?_⟩
    subst hH
    unfold I2CReadRegs
    dsimp only
    rw [if_pos h]
  · left
    refine ⟨H.i2c_result, H.log, h, hh.1, hh.2.1, hh.2.2, ?_⟩
    subst hH
    unfold I2CReadRegs
    dsimp only
    rw [if_neg h]

/-- A repeated start always succeeds and shows as one REPEATED-START. -/
theorem StartTransfer_restart (dev : Device) (log : List HwCall) :
    (StartTransfer dev log true).1 = true ∧
      busTrace (StartTransfer dev log true).2 = busTrace log ++ [BusEvent.RESTART] := by
  simp [StartTransfer, busTrace, HwCall.bus, List.filterMap_append]

/-- On a device that never collides and acknowledges every byte,
`I2CReadRegs` reaches its receive phase with result `I2C_SUCCESS`; when the
start succeeds as well, the bus has by then seen exactly START, the write
address byte, the header byte, REPEATED-START and the read address byte. -/
theorem I2CReadRegs_decomp_ok (dev : Device) (a : Nat) (reg : Int) (buf : Nat → Nat)
    (len : Int)
    (htx : ∀ log b, dev.I2CSendByte log b ≠ I2C_MASTER_BUS_COLLISION)
    (hack : ∀ log, dev.I2CByteWasAcknowledged log = true) :
    ∃ s0 : RxState, s0.dataIndex = 0 ∧ s0.buf = buf ∧ s0.i2c_result = I2C_SUCCESS ∧
      received s0.log = [] ∧ acksIssued s0.log = [] ∧ stopCount s0.log = 0 ∧
      ((∀ log, dev.I2CStart log = I2C_SUCCESS) →
        busTrace s0.log = [BusEvent.START,
          BusEvent.TX (I2C_FORMAT_7_BIT_ADDRESS a I2C_WRITE),
          BusEvent.TX ((reg >>> 8) % 256).toNat,
          BusEvent.RESTART,
          BusEvent.TX (I2C_FORMAT_7_BIT_ADDRESS a I2C_READ)]) ∧
      I2CReadRegs dev a reg buf len =
        { result := (regsLastByte dev (recvAckLoop dev len (len - 1).toNat s0)).i2c_result,
          i2cData := (regsLastByte dev (recvAckLoop dev len (len - 1).toNat s0)).buf,
          log := StopTransfer
            (regsLastByte dev (recvAckLoop dev len (len - 1).toNat s0)).log } := by
  have hs := StartTransfer_frame dev [] false
  obtain ⟨H, hH⟩ : ∃ H, H = headerLoop dev (regsHeader a reg) (StartTransfer dev [] false).1 2
      ⟨0, I2C_SUCCESS, (StartTransfer dev [] false).2⟩ := ⟨_, rfl⟩
  have hh : received H.log = [] ∧ acksIssued H.log = [] ∧ stopCount H.log = 0 := by
    have h1 := headerLoop_frame dev (regsHeader a reg) (StartTransfer dev [] false).1 2
      ⟨0, I2C_SUCCESS, (StartTransfer dev [] false).2⟩
    dsimp only at h1
    rw [hs.1, hs.2.1, hs.2.2, ← hH] at h1
    exact h1
  have hHok : H.i2c_result = I2C_SUCCESS ∧
      ((∀ log, dev.I2CStart log = I2C_SUCCESS) →
        busTrace H.log = [BusEvent.START,
          BusEvent.TX (I2C_FORMAT_7_BIT_ADDRESS a I2C_WRITE),
          BusEvent.TX ((reg >>> 8) % 256).toNat]) := by
    rw [hH]
    cases hst : (StartTransfer dev [] false).1
    · rw [headerLoop_notStarted]
      refine ⟨rfl, fun hstart => ?_⟩
      exfalso
      simp [StartTransfer, hstart] at hst
    · have hl := headerLoop_ok dev htx hack (I2C_FORMAT_7_BIT_ADDRESS a I2C_WRITE)
        ((reg >>> 8) % 256).toNat (StartTransfer dev [] false).2
      unfold regsHeader
      refine ⟨hl.1, fun hstart => ?_⟩
      rw [hl.2]
      simp [StartTransfer, hstart, busTrace, HwCall.bus]
  have hr := StartTransfer_restart dev H.log
  have hs2 := StartTransfer_frame dev H.log true
  have ha := regsAddrPhase_frame dev a H.i2c_result (StartTransfer dev H.log true).1
    (StartTransfer dev H.log true).2
  rw [hs2.1, hs2.2.1, hs2.2.2, hh.1, hh.2.1, hh.2.2] at ha
  have hA : (regsAddrPhase dev a H.i2c_result (StartTransfer dev H.log true).1
        (StartTransfer dev H.log true).2).1 = I2C_SUCCESS ∧
      busTrace (regsAddrPhase dev a H.i2c_result (StartTransfer dev H.log true).1
        (StartTransfer dev H.log true).2).2
        = busTrace (StartTransfer dev H.log true).2
          ++ [BusEvent.TX (I2C_FORMAT_7_BIT_ADDRESS a I2C_READ)] := by
    rw [hHok.1, hr.1]
    exact regsAddrPhase_noCollision dev htx a _
  refine ⟨⟨0, (regsAddrPhase dev a H.i2c_result (StartTransfer dev H.log true).1
      (StartTransfer dev H.log true).2).1, buf,
    (regsAddrPhase dev a H.i2c_result (StartTransfer dev H.log true).1
      (StartTransfer dev H.log true).2).2⟩, rfl, rfl, hA.1, ha.1, ha.2.1, ha.2.2, ?_, ?_⟩
  · intro hstart
    dsimp only
    rw [hA.2, hr.2, hHok.2 hstart]
    rfl
  · have h := hHok.1
    subst hH
    unfold I2CReadRegs
    dsimp only
    rw [if_pos h]

/-- The last receive of either read function logs the same calls, so it puts
only receive-phase events on the bus and issues no stop. -/
theorem lastByte_trace (dev : Device) (s : RxState) :
    (regsLastByte dev s).log = (readLastByte dev s).log ∧
    (∃ rest, busTrace (readLastByte dev s).log = busTrace s.log ++ rest ∧
      ∀ e ∈ rest, e.isReceive = true) ∧
    stopCount (readLastByte dev s).log = stopCount s.log := by
  refine ⟨?_, ?_⟩
  · unfold regsLastByte readLastByte
    split_ifs <;> rfl
  · unfold readLastByte
    by_cases hc : s.i2c_result = I2C_SUCCESS
    · rw [if_pos hc]
      dsimp only
      rcases ReceiveOneByte_result dev s.log s.buf s.dataIndex false with h | h
      · obtain ⟨b, -, -, -, hb, hs⟩ := ReceiveOneByte_ok dev s.log s.buf s.dataIndex false h
        refine ⟨⟨[BusEvent.ACKBIT false, BusEvent.RX b], hb, ?_⟩, hs⟩
        intro e he
        simp only [List.mem_cons, List.mem_singleton, List.not_mem_nil, or_false] at he
        rcases he with he | he <;> rw [he] <;> rfl
      · have hne : (ReceiveOneByte dev s.log s.buf s.dataIndex false).result ≠ I2C_SUCCESS := by
          rw [h]; decide
        obtain ⟨-, -, -, hb, hs⟩ := ReceiveOneByte_fail dev s.log s.buf s.dataIndex false hne
        exact ⟨⟨[], by rw [hb]; simp, by simp⟩, hs⟩
    · rw [if_neg hc]
      exact ⟨⟨[], by simp, by simp⟩, rfl⟩

/-- Without receive overflow the last receive, entered with result
`I2C_SUCCESS`, delivers one more byte, issues exactly one NACK and leaves
the result at `I2C_SUCCESS`. -/
theorem lastByte_noOverflow (dev : Device)
    (hrx : ∀ log, dev.I2CReceiverEnable log ≠ I2C_RECEIVE_OVERFLOW)
    (s : RxState) (hs : s.i2c_result = I2C_SUCCESS) :
    acksIssued (readLastByte dev s).log = acksIssued s.log ++ [false] ∧
      (received (readLastByte dev s).log).length = (received s.log).length + 1 ∧
      (readLastByte dev s).i2c_result = I2C_SUCCESS := by
  have hok := ReceiveOneByte_noOverflow dev hrx s.log s.buf s.dataIndex false
  obtain ⟨b, hr, -, ha, -, -⟩ := ReceiveOneByte_ok dev s.log s.buf s.dataIndex false hok
  unfold readLastByte
  rw [if_pos hs]
  dsimp only
  rw [ha, hr, hs, hok]
  exact ⟨rfl, by simp, rfl⟩

/-! ## Claims about the byte counts, the acknowledge pattern and the buffer -/

/-- C4 (counterexample): a read of requested length 0 on a fully responsive
device returns `I2C_SUCCESS` and writes back the count 1, not 0. -/
theorem I2C_Read_zero_length_counts_one :
    (I2C_Read (responsive id) 0x50 (fun _ => 0) 0).result = I2C_SUCCESS ∧
      (I2C_Read (responsive id) 0x50 (fun _ => 0) 0).len = 1 ∧
      (I2C_Read (responsive id) 0x50 (fun _ => 0) 0).len ≠ 0 := by
  decide

/-- C4 (amended): for every requested length `n ≥ 0` and every device
behaviour, if `I2C_Write` returns `I2C_SUCCESS` the count written back through
`*len` equals `n`; and for every `n ≥ 1`, if `I2C_Read` returns `I2C_SUCCESS`
the count written back through `*len` equals `n`. -/
theorem success_count_eq_length (dev : Device) (a : Nat) (str : Nat → Nat) (n : Int)
    (hn : 0 ≤ n) :
    ((I2C_Write dev a str n).result = I2C_SUCCESS → (I2C_Write dev a str n).len = n) ∧
    (1 ≤ n → (I2C_Read dev a str n).result = I2C_SUCCESS →
      (I2C_Read dev a str n).len = n) := by
  constructor
  · intro h
    have hb := writeLoop_bounds dev str n n.toNat
      { dataIndex := 0, okay := (StartTransfer dev [] true).1,
        log := (writeAddrPhase dev a (StartTransfer dev [] true).1
          (StartTransfer dev [] true).2).2 }
      (by simp)
    simp only [I2C_Write] at h ⊢
    by_cases hk : (writeLoop dev str n n.toNat
        { dataIndex := 0, okay := (StartTransfer dev [] true).1,
          log := (writeAddrPhase dev a (StartTransfer dev [] true).1
            (StartTransfer dev [] true).2).2 }).okay = true
    · have h1 := hb.1 hk
      have h2 := hb.2.2
      simp only [Nat.cast_zero, max_eq_right hn] at h2
      omega
    · rw [if_neg hk] at h
      exact absurd h (by decide)
  · intro h1 h
    obtain ⟨s0, h0, -, -, -, -, -, heq⟩ := I2C_Read_decomp dev a str n
    rw [heq] at h ⊢
    dsimp only at h ⊢
    have hi := (readLastByte_index dev (recvAckLoop dev n (n - 1).toNat s0)).2 h
    have hb := recvAckLoop_bounds dev n (n - 1).toNat s0 (by rw [h0]; simp)
    have h2 := hb.1 hi.1
    have h3 := hb.2.2
    rw [h0] at h3
    simp only [Nat.cast_zero, max_eq_right (show (0 : Int) ≤ n - 1 by omega)] at h3
    rw [hi.2]
    push_cast
    omega

/-- C4 (amended, witness): length 2 on a fully responsive device. -/
theorem success_count_eq_length_witness :
    (I2C_Write (responsive id) 0x50 bufAABB 2).result = I2C_SUCCESS ∧
      (I2C_Write (responsive id) 0x50 bufAABB 2).len = 2 ∧
      (I2C_Read (responsive id) 0x50 bufAABB 2).result = I2C_SUCCESS ∧
      (I2C_Read (responsive id) 0x50 bufAABB 2).len = 2 :=
  ⟨by decide,
    (success_count_eq_length (responsive id) 0x50 bufAABB 2 (by decide)).1 (by decide),
    by decide,
    (success_count_eq_length (responsive id) 0x50 bufAABB 2 (by decide)).2 (by decide)
      (by decide)⟩

/-- C5: for every requested length `n ≥ 1`, on a device that never collides,
acknowledges every byte sent to it and never reports receive overflow,
`I2C_Read` and `I2CReadRegs` each receive exactly `n` data bytes and call
the acknowledge step with ACK for the first `n - 1` bytes and NACK for the
`n`-th byte only; for `n = 1` the only acknowledge issued is the NACK. -/
theorem read_ack_pattern (dev : Device) (a : Nat) (reg : Int) (buf : Nat → Nat) (n : Int)
    (hn : 1 ≤ n)
    (htx : ∀ log b, dev.I2CSendByte log b ≠ I2C_MASTER_BUS_COLLISION)
    (hack : ∀ log, dev.I2CByteWasAcknowledged log = true)
    (hrx : ∀ log, dev.I2CReceiverEnable log ≠ I2C_RECEIVE_OVERFLOW) :
    (acksIssued (I2C_Read dev a buf n).log = List.replicate (n - 1).toNat true ++ [false] ∧
      ((received (I2C_Read dev a buf n).log).length : Int) = n) ∧
    (acksIssued (I2CReadRegs dev a reg buf n).log
        = List.replicate (n - 1).toNat true ++ [false] ∧
      ((received (I2CReadRegs dev a reg buf n).log).length : Int) = n) ∧
    (n = 1 → acksIssued (I2C_Read dev a buf n).log = [false] ∧
      acksIssued (I2CReadRegs dev a reg buf n).log = [false]) := by
  have key : ∀ s0 : RxState, s0.dataIndex = 0 → s0.i2c_result = I2C_SUCCESS →
      received s0.log = [] → acksIssued s0.log = [] →
      acksIssued (StopTransfer (readLastByte dev
          (recvAckLoop dev n (n - 1).toNat s0)).log)
        = List.replicate (n - 1).toNat true ++ [false] ∧
      ((received (StopTransfer (readLastByte dev
          (recvAckLoop dev n (n - 1).toNat s0)).log)).length : Int) = n := by
    intro s0 h0 hres hr ha
    have hl := recvAckLoop_noOverflow dev hrx n (n - 1).toNat s0 hres (by rw [h0]; simp)
    have hf := lastByte_noOverflow dev hrx (recvAckLoop dev n (n - 1).toNat s0) hl.1
    have hst := StopTransfer_frame (readLastByte dev (recvAckLoop dev n (n - 1).toNat s0)).log
    rw [hst.1, hst.2.1, hf.1, hf.2.1, hl.2.1, hl.2.2, ha, hr, h0]
    simp only [Nat.cast_zero, sub_zero, List.nil_append, List.length_nil, Nat.zero_add]
    refine ⟨trivial, ?_⟩
    push_cast
    rw [Int.toNat_of_nonneg (by omega)]
    omega
  have hRead : acksIssued (I2C_Read dev a buf n).log
        = List.replicate (n - 1).toNat true ++ [false] ∧
      ((received (I2C_Read dev a buf n).log).length : Int) = n := by
    obtain ⟨s0, h0, -, hr, ha, -, hok, heq⟩ := I2C_Read_decomp dev a buf n
    rw [heq]
    exact key s0 h0 (hok htx) hr ha
  have hRegs : acksIssued (I2CReadRegs dev a reg buf n).log
        = List.replicate (n - 1).toNat true ++ [false] ∧
      ((received (I2CReadRegs dev a reg buf n).log).length : Int) = n := by
    obtain ⟨s0, h0, -, hres, hr, ha, -, -, heq⟩ :=
      I2CReadRegs_decomp_ok dev a reg buf n htx hack
    rw [heq]
    dsimp only
    rw [(lastByte_trace dev _).1]
    exact key s0 h0 hres hr ha
  refine ⟨hRead, hRegs, fun h1 => ?_⟩
  rw [hRead.1, hRegs.1, h1]
  exact ⟨rfl, rfl⟩

/-- C5 (witness): a three-byte burst on a fully responsive device is received
with ACK, ACK, NACK by both read functions. -/
theorem read_ack_pattern_witness :
    acksIssued (I2C_Read (responsive id) 0x50 (fun _ => 0) 3).log = [true, true, false] ∧
      acksIssued (I2CReadRegs (responsive id) 0x50 0x10 (fun _ => 0) 3).log
        = [true, true, false] :=
  have h := read_ack_pattern (responsive id) 0x50 0x10 (fun _ => 0) 3 (by decide)
    (by intro log b; simp [responsive, I2C_SUCCESS, I2C_MASTER_BUS_COLLISION])
    (by intro log; rfl)
    (by intro log; simp [responsive, I2C_SUCCESS, I2C_RECEIVE_OVERFLOW])
  ⟨h.1.1, h.2.1.1⟩

/-- A state in which nothing has been received yet is in step with the
original buffer. -/
theorem RxInv_init (buf : Nat → Nat) (s0 : RxState) (h0 : s0.dataIndex = 0)
    (hb : s0.buf = buf) (hr : received s0.log = []) : RxInv buf s0 := by
  refine ⟨by simp [hr], fun _ => by simp [hr, h0], ?_, fun i _ => by rw [hb]⟩
  intro i hi
  simp [hr] at hi

/-- C10: for every call of `I2C_Read` or `I2CReadRegs` with length `n ≥ 1` and
every device behaviour, with `m` the number of bytes the device delivered
during the call (`m = n` when the result is `I2C_SUCCESS`, `m ≤ n` always):
on return `buffer[i]` is the `i`-th delivered byte for every `i < m`, and
every position `i ≥ m` holds the value it had before the call. -/
theorem read_buffer_contents (dev : Device) (a : Nat) (reg : Int) (buf : Nat → Nat)
    (n : Int) (hn : 1 ≤ n) :
    ((∀ i, i < (received (I2C_Read dev a buf n).log).length →
        (received (I2C_Read dev a buf n).log)[i]? = some ((I2C_Read dev a buf n).str i)) ∧
      (∀ i, (received (I2C_Read dev a buf n).log).length ≤ i →
        (I2C_Read dev a buf n).str i = buf i) ∧
      ((I2C_Read dev a buf n).result = I2C_SUCCESS →
        ((received (I2C_Read dev a buf n).log).length : Int) = n) ∧
      ((received (I2C_Read dev a buf n).log).length : Int) ≤ n) ∧
    ((∀ i, i < (received (I2CReadRegs dev a reg buf n).log).length →
        (received (I2CReadRegs dev a reg buf n).log)[i]?
          = some ((I2CReadRegs dev a reg buf n).i2cData i)) ∧
      (∀ i, (received (I2CReadRegs dev a reg buf n).log).length ≤ i →
        (I2CReadRegs dev a reg buf n).i2cData i = buf i) ∧
      ((I2CReadRegs dev a reg buf n).result = I2C_SUCCESS →
        ((received (I2CReadRegs dev a reg buf n).log).length : Int) = n) ∧
      ((received (I2CReadRegs dev a reg buf n).log).length : Int) ≤ n) := by
  have hmax : max ((0 : Nat) : Int) (n - 1) = n - 1 := max_eq_right (by omega)
  constructor
  · obtain ⟨s0, h0, hb, hr, -, -, -, heq⟩ := I2C_Read_decomp dev a buf n
    have hbd := recvAckLoop_bounds dev n (n - 1).toNat s0 (by rw [h0]; simp)
    rw [h0, hmax] at hbd
    have hL := recvAckLoop_inv dev n buf (n - 1).toNat s0 (RxInv_init buf s0 h0 hb hr)
    have hF := readLastByte_inv dev buf _ hL
    have hI := readLastByte_index dev (recvAckLoop dev n (n - 1).toNat s0)
    rw [heq]
    dsimp only
    rw [(StopTransfer_frame _).1]
    refine ⟨hF.2.2.1, hF.2.2.2, fun hres => ?_, ?_⟩
    · have h1 := hF.2.1 hres
      have h2 := hI.2 hres
      have h3 := hbd.1 h2.1
      have h4 := hbd.2.2
      omega
    · have h1 := hF.1
      have h2 := hI.1
      have h4 := hbd.2.2
      omega
  · rcases I2CReadRegs_decomp dev a reg buf n with
      ⟨r, log, hne, hr, -, -, heq⟩ | ⟨s0, h0, hb, hr, -, -, heq⟩
    · rw [heq]
      dsimp only
      rw [(StopTransfer_frame _).1, hr]
      refine ⟨fun i hi => ?_, fun i _ => rfl, fun hres => absurd hres hne, ?_⟩
      · simp at hi
      · simp only [List.length_nil, Nat.cast_zero]
        omega
    · have hbd := recvAckLoop_bounds dev n (n - 1).toNat s0 (by rw [h0]; simp)
      rw [h0, hmax] at hbd
      have hL := recvAckLoop_inv dev n buf (n - 1).toNat s0 (RxInv_init buf s0 h0 hb hr)
      have hF := regsLastByte_inv dev buf _ hL
      rw [heq]
      dsimp only
      rw [(StopTransfer_frame _).1]
      refine ⟨hF.2.2.1, hF.2.2.2, fun hres => ?_, ?_⟩
      · have h1 := hF.2.1 hres
        have h3 := hbd.1 h1.1
        have h4 := hbd.2.2
        omega
      · have h1 := hF.1
        have h4 := hbd.2.2
        omega

/-- C10 (witness): a three-byte read where the device delivers 7 and then
overflows on receive step 1: one byte was delivered, it sits in `buffer[0]`,
and every later position keeps its old value `0xEE`. -/
theorem read_buffer_contents_witness :
    (received (I2C_Read (overflowAt 1 (fun k => k + 7)) 0x50 (fun _ => 0xEE) 3).log).length
        = 1 ∧
      (I2C_Read (overflowAt 1 (fun k => k + 7)) 0x50 (fun _ => 0xEE) 3).str 0 = 7 ∧
      (∀ i, 1 ≤ i →
        (I2C_Read (overflowAt 1 (fun k => k + 7)) 0x50 (fun _ => 0xEE) 3).str i = 0xEE) ∧
      (∀ i, 1 ≤ i →
        (I2CReadRegs (overflowAt 1 (fun k => k + 7)) 0x50 0x10 (fun _ => 0xEE) 3).i2cData i
          = 0xEE) :=
  have h := read_buffer_contents (overflowAt 1 (fun k => k + 7)) 0x50 0x10
    (fun _ => 0xEE) 3 (by decide)
  have hm : (received
      (I2C_Read (overflowAt 1 (fun k => k + 7)) 0x50 (fun _ => 0xEE) 3).log).length = 1 := by
    decide
  have hm2 : (received
      (I2CReadRegs (overflowAt 1 (fun k => k + 7)) 0x50 0x10 (fun _ => 0xEE) 3).log).length
        = 1 := by
    decide
  ⟨hm, by decide, fun i hi => h.1.2.1 i (by rw [hm]; exact hi),
    fun i hi => h.2.2.1 i (by rw [hm2]; exact hi)⟩

/-! ## Claims about the register-addressed read -/

/-- C6: for every device address, register address and length (any integer),
when the start succeeds, no byte collides and every transmitted byte is
acknowledged, the bus event trace of `I2CReadRegs` is START, the device
address byte with write direction, one register-address byte (the header
byte the code computes), REPEATED-START, the device address byte with read
direction, then only receive-phase events, then STOP; and exactly one stop
is issued. -/
theorem I2CReadRegs_trace (dev : Device) (a : Nat) (reg : Int) (buf : Nat → Nat) (len : Int)
    (hstart : ∀ log, dev.I2CStart log = I2C_SUCCESS)
    (htx : ∀ log b, dev.I2CSendByte log b ≠ I2C_MASTER_BUS_COLLISION)
    (hack : ∀ log, dev.I2CByteWasAcknowledged log = true) :
    (∃ rest, busTrace (I2CReadRegs dev a reg buf len).log
        = [BusEvent.START,
            BusEvent.TX (I2C_FORMAT_7_BIT_ADDRESS a I2C_WRITE),
            BusEvent.TX ((regsHeader a reg).getD 1 0),
            BusEvent.RESTART,
            BusEvent.TX (I2C_FORMAT_7_BIT_ADDRESS a I2C_READ)] ++ rest ++ [BusEvent.STOP] ∧
      ∀ e ∈ rest, e.isReceive = true) ∧
    stopCount (I2CReadRegs dev a reg buf len).log = 1 := by
  obtain ⟨s0, -, -, -, -, -, hsc, htr, heq⟩ := I2CReadRegs_decomp_ok dev a reg buf len htx hack
  obtain ⟨⟨r1, hr1, hall1⟩, hs1⟩ := recvAckLoop_trace dev len (len - 1).toNat s0
  obtain ⟨hlog, ⟨r2, hr2, hall2⟩, hs2⟩ :=
    lastByte_trace dev (recvAckLoop dev len (len - 1).toNat s0)
  rw [heq]
  dsimp only
  rw [hlog, (StopTransfer_frame _).2.2.1, (StopTransfer_frame _).2.2.2, hs2, hs1, hsc, hr2,
    hr1, htr hstart]
  refine ⟨⟨r1 ++ r2, ?_, ?_⟩, rfl⟩
  · simp [regsHeader]
  · intro e he
    rcases List.mem_append.mp he with h | h
    · exact hall1 e h
    · exact hall2 e h

/-- C6 (witness): the scenario of the specification on a fully responsive
device; the receive-phase events are exactly the three received bytes with
their acknowledge bits. -/
theorem I2CReadRegs_trace_witness :
    (∃ rest, busTrace (I2CReadRegs (responsive id) 0x50 0x10 (fun _ => 0) 3).log
        = [BusEvent.START,
            BusEvent.TX (I2C_FORMAT_7_BIT_ADDRESS 0x50 I2C_WRITE),
            BusEvent.TX ((regsHeader 0x50 0x10).getD 1 0),
            BusEvent.RESTART,
            BusEvent.TX (I2C_FORMAT_7_BIT_ADDRESS 0x50 I2C_READ)] ++ rest ++ [BusEvent.STOP] ∧
      ∀ e ∈ rest, e.isReceive = true) ∧
    stopCount (I2CReadRegs (responsive id) 0x50 0x10 (fun _ => 0) 3).log = 1 :=
  I2CReadRegs_trace (responsive id) 0x50 0x10 (fun _ => 0) 3 (fun _ => rfl)
    (by intro log b; simp [responsive, I2C_SUCCESS, I2C_MASTER_BUS_COLLISION])
    (fun _ => rfl)

/-- C7 (code evaluated at the failing input): reading three bytes from
register 0x10 of device 0x50 on a fully responsive device, the byte sent
between ADDR(0x50,W) and the REPEATED-START is 0x00, the high byte
`reg_addr >> 8`, and the byte 0x10 never appears on the bus. -/
theorem I2CReadRegs_sends_high_byte :
    busTrace (I2CReadRegs (responsive id) 0x50 0x10 (fun _ => 0) 3).log
      = [BusEvent.START, BusEvent.TX 0xA0, BusEvent.TX 0x00, BusEvent.RESTART,
          BusEvent.TX 0xA1, BusEvent.ACKBIT true, BusEvent.RX 0, BusEvent.ACKBIT true,
          BusEvent.RX 1, BusEvent.ACKBIT false, BusEvent.RX 2, BusEvent.STOP] ∧
    BusEvent.TX 0x10 ∉ busTrace (I2CReadRegs (responsive id) 0x50 0x10 (fun _ => 0) 3).log := by
  decide

/-! ## Claims about the result and the count of I2C_Read -/

/-- C8 (code evaluated at the failing input): a one-byte read from a device
that lets the start and the address byte through without collision, never
overflows, but does not acknowledge the address byte (it acknowledges
nothing): `I2C_Read` returns `I2C_SUCCESS`, and the acknowledge status is
never queried. -/
theorem I2C_Read_success_without_ack :
    (I2C_Read nackAll 0x50 (fun _ => 0) 1).result = I2C_SUCCESS ∧
      (∀ log, nackAll.I2CByteWasAcknowledged log = false) ∧
      (∀ a, HwCall.ackQuery a ∉ (I2C_Read nackAll 0x50 (fun _ => 0) 1).log) := by
  refine ⟨by decide, fun _ => rfl, ?_⟩
  intro a
  cases a <;> decide

/-- C9 (code evaluated at the failing input): a three-byte read where the
hardware reports receive overflow on the receive step for byte 1 (byte 0 was
received normally): the result is `I2C_RECEIVE_OVERFLOW`, one byte was
received, but the count written back through `*len` is 2; likewise a
one-byte read that overflows on byte 0 writes back 1 with nothing received. -/
theorem I2C_Read_overflow_count_off_by_one :
    (I2C_Read (overflowAt 1 id) 0x50 (fun _ => 0) 3).result = I2C_RECEIVE_OVERFLOW ∧
      (received (I2C_Read (overflowAt 1 id) 0x50 (fun _ => 0) 3).log).length = 1 ∧
      (I2C_Read (overflowAt 1 id) 0x50 (fun _ => 0) 3).len = 2 ∧
      (I2C_Read (overflowAt 0 id) 0x50 (fun _ => 0) 1).result = I2C_RECEIVE_OVERFLOW ∧
      (received (I2C_Read (overflowAt 0 id) 0x50 (fun _ => 0) 1).log).length = 0 ∧
      (I2C_Read (overflowAt 0 id) 0x50 (fun _ => 0) 1).len = 1 := by
  decide

/-! ## The closing stop of I2C_Write, I2C_Read and I2CReadRegs -/

/-- The address block of `I2C_Write` issues no stop. -/
theorem writeAddrPhase_stopCount (dev : Device) (a : Nat) (okay : Bool) (log : List HwCall) :
    stopCount (writeAddrPhase dev a okay log).2 = stopCount log := by
  have ht := TransmitOneByte_frame dev log (I2C_FORMAT_7_BIT_ADDRESS a I2C_WRITE)
  unfold writeAddrPhase
  dsimp only
  split_ifs <;> dsimp only <;>
    first
      | exact ht.2.2
      | rfl
      | (rw [(ackQuery_frame _ _).2.2]
         exact ht.2.2)

/-- A log closed by the stop step has the stop as its last bus event. -/
theorem StopTransfer_last (log : List HwCall) :
    (busTrace (StopTransfer log)).getLast? = some BusEvent.STOP := by
  rw [(StopTransfer_frame log).2.2.2]
  simp

/-- C11: for every input and every device behaviour (start collision,
transmit collision, missing acknowledgment, receive overflow at any step),
each of `I2C_Write`, `I2C_Read` and `I2CReadRegs` issues the stop exactly
once, and the stop is the last bus event of the transaction. -/
theorem stop_exactly_once_last (dev : Device) (a : Nat) (reg : Int) (buf : Nat → Nat)
    (len : Int) :
    (stopCount (I2C_Write dev a buf len).log = 1 ∧
      (busTrace (I2C_Write dev a buf len).log).getLast? = some BusEvent.STOP) ∧
    (stopCount (I2C_Read dev a buf len).log = 1 ∧
      (busTrace (I2C_Read dev a buf len).log).getLast? = some BusEvent.STOP) ∧
    (stopCount (I2CReadRegs dev a reg buf len).log = 1 ∧
      (busTrace (I2CReadRegs dev a reg buf len).log).getLast? = some BusEvent.STOP) := by
  refine ⟨?_, ?_, ?_⟩
  · have h1 := writeLoop_stopCount dev buf len len.toNat
      { dataIndex := 0, okay := (StartTransfer dev [] true).1,
        log := (writeAddrPhase dev a (StartTransfer dev [] true).1
          (StartTransfer dev [] true).2).2 }
    have h2 := writeAddrPhase_stopCount dev a (StartTransfer dev [] true).1
      (StartTransfer dev [] true).2
    have h3 := (StartTransfer_frame dev [] true).2.2
    simp only [I2C_Write]
    refine ⟨?_, StopTransfer_last _⟩
    rw [(StopTransfer_frame _).2.2.1, h1]
    dsimp only
    rw [h2, h3]
    rfl
  · obtain ⟨s0, -, -, -, -, hs0, -, heq⟩ := I2C_Read_decomp dev a buf len
    rw [heq]
    dsimp only
    refine ⟨?_, StopTransfer_last _⟩
    rw [(StopTransfer_frame _).2.2.1, (lastByte_trace dev _).2.2,
      (recvAckLoop_trace dev len _ s0).2, hs0]
  · rcases I2CReadRegs_decomp dev a reg buf len with
      ⟨r, log, -, -, -, hs0, heq⟩ | ⟨s0, -, -, -, -, hs0, heq⟩
    · rw [heq]
      dsimp only
      refine ⟨?_, StopTransfer_last _⟩
      rw [(StopTransfer_frame _).2.2.1, hs0]
    · rw [heq]
      dsimp only
      refine ⟨?_, StopTransfer_last _⟩
      rw [(StopTransfer_frame _).2.2.1, (lastByte_trace dev _).1, (lastByte_trace dev _).2.2,
        (recvAckLoop_trace dev len _ s0).2, hs0]

/-! ## The closing stop of the block operations -/

/-- An acknowledge-status query is not a stop. -/
theorem stopCount_ackQuery (a : Bool) : stopCount [HwCall.ackQuery a] = 0 := by
  simp [stopCount]

/-- A microsecond delay is not a stop. -/
theorem stopCount_usDelay (n : Nat) : stopCount [HwCall.usDelay n] = 0 := by
  simp [stopCount]

/-- A millisecond delay is not a stop. -/
theorem stopCount_msDelay (n : Nat) : stopCount [HwCall.msDelay n] = 0 := by
  simp [stopCount]

/-- The device-ID block of `I2C_WriteDev` issues no stop. -/
theorem writeDevAddrPhase_stopCount (dev : Device) (blk : I2C_DATA_BLOCK)
    (log : List HwCall) :
    stopCount (writeDevAddrPhase dev blk log).2 = stopCount log := by
  have ht := TransmitOneByte_frame dev log (I2C_FORMAT_7_BIT_ADDRESS blk.dev_id I2C_WRITE)
  unfold writeDevAddrPhase i2c_ackError
  dsimp only
  split_ifs <;>
    simp only [stopCount_append, ht.2.2, stopCount_ackQuery, stopCount_msDelay,
      Nat.add_zero]

/-- The register block of `I2C_WriteDev` issues no stop. -/
theorem writeDevRegPhase_stopCount (dev : Device) (blk : I2C_DATA_BLOCK) (ops : Nat)
    (log : List HwCall) :
    stopCount (writeDevRegPhase dev blk ops log).2 = stopCount log := by
  have ht := TransmitOneByte_frame dev log blk.reg_addr
  unfold writeDevRegPhase i2c_ackError
  dsimp only
  split_ifs <;>
    simp only [stopCount_append, ht.2.2, stopCount_ackQuery, stopCount_usDelay,
      stopCount_msDelay, Nat.add_zero]

/-- The payload loop of `I2C_WriteDev` issues no stop. -/
theorem writeDevLoop_stopCount (dev : Device) (blk : I2C_DATA_BLOCK) :
    ∀ (fuel : Nat) (s : BlkState),
      stopCount (writeDevLoop dev blk fuel s).log = stopCount s.log := by
  intro fuel
  induction fuel with
  | zero => intro s; rfl
  | succ fuel ih =>
    intro s
    have ht := TransmitOneByte_frame dev s.log (s.buf s.data_ptr)
    rw [writeDevLoop]
    dsimp only
    split_ifs <;>
      first
        | rfl
        | (rw [ih]
           simp only [i2c_ackError, stopCount_append, ht.2.2, stopCount_ackQuery,
             stopCount_msDelay, Nat.add_zero])

/-- The fuel `block_size` is enough for the payload loop of `I2C_WriteDev`: it
ends because its condition is false. -/
theorem writeDevLoop_exit (dev : Device) (blk : I2C_DATA_BLOCK) :
    ∀ (fuel : Nat) (s : BlkState),
      (blk.block_size - s.count ≤ fuel ∨ s.i2c_ops ≠ I2C_SUCCESS) →
      ¬ ((writeDevLoop dev blk fuel s).count < blk.block_size ∧
        (writeDevLoop dev blk fuel s).i2c_ops = I2C_SUCCESS) := by
  intro fuel
  induction fuel with
  | zero =>
    intro s h hc
    simp only [writeDevLoop] at hc
    rcases h with h | h
    · omega
    · exact h hc.2
  | succ fuel ih =>
    intro s h
    rw [writeDevLoop]
    dsimp only
    split_ifs with h1 h2 h3
    · exact ih _ (Or.inr (show I2C_ERROR ≠ I2C_SUCCESS by decide))
    · exact ih _ (Or.inl (by
        dsimp only
        rcases h with h | h
        · omega
        · exact absurd h1.2 h))
    · exact ih _ (Or.inr (show I2C_ERROR ≠ I2C_SUCCESS by decide))
    · exact h1

/-- The fuel `block_size` is enough for the receive loop of `I2C_ReadDev`: it
ends because its condition is false. -/
theorem readDevLoop_exit (dev : Device) (blk : I2C_DATA_BLOCK) :
    ∀ (fuel : Nat) (s : BlkState), blk.block_size - s.count ≤ fuel →
      ¬ ((readDevLoop dev blk fuel s).count < blk.block_size ∧
        (readDevLoop dev blk fuel s).i2c_ops = I2C_SUCCESS) := by
  intro fuel
  induction fuel with
  | zero =>
    intro s h hc
    simp only [readDevLoop] at hc
    omega
  | succ fuel ih =>
    intro s h
    rw [readDevLoop]
    dsimp only
    split_ifs with h1
    · exact ih _ (by dsimp only; omega)
    · exact h1

/-- The device-ID block of `I2C_ReadDev` issues no stop. -/
theorem readDevAddrPhase_stopCount (dev : Device) (blk : I2C_DATA_BLOCK) (started : Bool)
    (log : List HwCall) :
    stopCount (readDevAddrPhase dev blk started log).2 = stopCount log := by
  have ht := TransmitOneByte_frame dev log (I2C_FORMAT_7_BIT_ADDRESS blk.dev_id I2C_READ)
  unfold readDevAddrPhase i2c_ackError
  dsimp only
  split_ifs <;>
    simp only [stopCount_append, ht.2.2, stopCount_ackQuery, stopCount_usDelay,
      stopCount_msDelay, Nat.add_zero]

/-- A receive step issues no stop. -/
theorem ReceiveOneByte_stopCount (dev : Device) (log : List HwCall) (buf : Nat → Nat)
    (idx : Nat) (ack : Bool) :
    stopCount (ReceiveOneByte dev log buf idx ack).log = stopCount log := by
  by_cases h : (ReceiveOneByte dev log buf idx ack).result = I2C_SUCCESS
  · obtain ⟨b, -, -, -, -, hs⟩ := ReceiveOneByte_ok dev log buf idx ack h
    exact hs
  · exact (ReceiveOneByte_fail dev log buf idx ack h).2.2.2.2

/-- The receive loop of `I2C_ReadDev` issues no stop. -/
theorem readDevLoop_stopCount (dev : Device) (blk : I2C_DATA_BLOCK) :
    ∀ (fuel : Nat) (s : BlkState),
      stopCount (readDevLoop dev blk fuel s).log = stopCount s.log := by
  intro fuel
  induction fuel with
  | zero => intro s; rfl
  | succ fuel ih =>
    intro s
    rw [readDevLoop]
    dsimp only
    split_ifs
    · rw [ih]
      exact ReceiveOneByte_stopCount dev _ _ _ _
    · rfl

/-- The last receive of `I2C_ReadDev` issues no stop. -/
theorem readDevLastByte_stopCount (dev : Device) (s : BlkState) :
    stopCount (readDevLastByte dev s).log = stopCount s.log := by
  unfold readDevLastByte
  dsimp only
  split_ifs
  · exact ReceiveOneByte_stopCount dev _ _ _ _
  · rfl

/-- C12 (counterexample): when the initial start collides, `I2C_WriteDev`
returns `I2C_ERROR` without issuing any stop. -/
theorem I2C_WriteDev_start_collision_no_stop :
    stopCount (I2C_WriteDev startCollides (blkExample 2)).log = 0 ∧
      (I2C_WriteDev startCollides (blkExample 2)).result = I2C_ERROR ∧
      (I2C_WriteDev startCollides (blkExample 2)).log
        = [HwCall.busIdleWait, HwCall.start I2C_MASTER_BUS_COLLISION] := by
  decide

/-- C12 (amended): for every data block descriptor and every device behaviour,
`I2C_ReadDev` issues the stop exactly once (also when the initial start
collides); `I2C_WriteDev` issues the stop exactly once when the initial
start succeeds and issues no stop when the initial start fails. -/
theorem block_ops_stop (dev : Device) (blk : I2C_DATA_BLOCK) :
    stopCount (I2C_ReadDev dev blk).log = 1 ∧
    (dev.I2CStart [HwCall.busIdleWait] = I2C_SUCCESS →
      stopCount (I2C_WriteDev dev blk).log = 1) ∧
    (dev.I2CStart [HwCall.busIdleWait] ≠ I2C_SUCCESS →
      stopCount (I2C_WriteDev dev blk).log = 0) := by
  have hs := (StartTransfer_frame dev [] false).2.2
  refine ⟨?_, ?_, ?_⟩
  · simp only [I2C_ReadDev]
    rw [(StopTransfer_frame _).2.2.1, readDevLastByte_stopCount, readDevLoop_stopCount]
    dsimp only
    rw [readDevAddrPhase_stopCount, hs]
    rfl
  · intro h
    have h1 : (StartTransfer dev [] false).1 = true := by
      simp [StartTransfer, h]
    simp only [I2C_WriteDev, h1, if_true]
    rw [(StopTransfer_frame _).2.2.1, writeDevLoop_stopCount]
    dsimp only
    rw [writeDevRegPhase_stopCount, writeDevAddrPhase_stopCount, hs]
    rfl
  · intro h
    have h1 : (StartTransfer dev [] false).1 = false := by
      simp [StartTransfer, h]
    simp only [I2C_WriteDev, h1, Bool.false_eq_true, if_false]
    rw [hs]
    rfl

/-- C12 (amended, witness): with a successful start both block operations stop
once; with a colliding start `I2C_ReadDev` stops once and `I2C_WriteDev`
not at all. -/
theorem block_ops_stop_witness :
    stopCount (I2C_ReadDev startCollides (blkExample 2)).log = 1 ∧
      stopCount (I2C_WriteDev (responsive id) (blkExample 2)).log = 1 ∧
      stopCount (I2C_WriteDev startCollides (blkExample 2)).log = 0 :=
  ⟨(block_ops_stop startCollides (blkExample 2)).1,
    (block_ops_stop (responsive id) (blkExample 2)).2.1 rfl,
    (block_ops_stop startCollides (blkExample 2)).2.2 (by decide)⟩

/-! ## I2C_WriteDev on a bus without collisions -/

theorem sendAttempts_append (l1 l2 : List HwCall) :
    sendAttempts (l1 ++ l2) = sendAttempts l1 ++ sendAttempts l2 := by
  simp [sendAttempts, List.filterMap_append]

theorem ackQueries_append (l1 l2 : List HwCall) :
    ackQueries (l1 ++ l2) = ackQueries l1 ++ ackQueries l2 := by
  simp [ackQueries, List.filterMap_append]

/-- What an acknowledge-status query contributes to the observations. -/
theorem obs_ackQuery (a : Bool) :
    sendAttempts [HwCall.ackQuery a] = [] ∧ ackQueries [HwCall.ackQuery a] = [a] ∧
      busTrace [HwCall.ackQuery a] = [] := by
  simp [sendAttempts, ackQueries, busTrace, HwCall.bus]

/-- Delays contribute nothing to the observations. -/
theorem obs_delay (n : Nat) :
    (sendAttempts [HwCall.usDelay n] = [] ∧ ackQueries [HwCall.usDelay n] = [] ∧
      busTrace [HwCall.usDelay n] = [] ∧ received [HwCall.usDelay n] = [] ∧
      acksIssued [HwCall.usDelay n] = []) ∧
    (sendAttempts [HwCall.msDelay n] = [] ∧ ackQueries [HwCall.msDelay n] = [] ∧
      busTrace [HwCall.msDelay n] = [] ∧ received [HwCall.msDelay n] = [] ∧
      acksIssued [HwCall.msDelay n] = []) := by
  simp [sendAttempts, ackQueries, busTrace, received, acksIssued, HwCall.bus]

/-- A transmit step hands exactly its byte to the sender and queries no
acknowledge, whatever the device does. -/
theorem TransmitOneByte_obs (dev : Device) (log : List HwCall) (data : Nat) :
    sendAttempts (TransmitOneByte dev log data).2 = sendAttempts log ++ [data] ∧
      ackQueries (TransmitOneByte dev log data).2 = ackQueries log := by
  unfold TransmitOneByte
  by_cases h : dev.I2CSendByte (log ++ [HwCall.txReadyWait]) data = I2C_MASTER_BUS_COLLISION <;>
    simp [h, sendAttempts, ackQueries, List.filterMap_append]

/-- The start and stop steps send no byte and query no acknowledge. -/
theorem framing_obs (dev : Device) (log : List HwCall) (restart : Bool) :
    (sendAttempts (StartTransfer dev log restart).2 = sendAttempts log ∧
      ackQueries (StartTransfer dev log restart).2 = ackQueries log) ∧
    (sendAttempts (StopTransfer log) = sendAttempts log ∧
      ackQueries (StopTransfer log) = ackQueries log) := by
  refine ⟨?_, by simp [StopTransfer, sendAttempts, ackQueries, List.filterMap_append]⟩
  unfold StartTransfer
  cases restart
  · by_cases h : dev.I2CStart (log ++ [HwCall.busIdleWait]) = I2C_SUCCESS <;>
      simp [h, sendAttempts, ackQueries, List.filterMap_append]
  · simp [sendAttempts, ackQueries, List.filterMap_append]

/-- Sending the next byte of `writeDevBytes` without collision. -/
theorem WInv_send (dev : Device) (blk : I2C_DATA_BLOCK)
    (htx : ∀ log b, dev.I2CSendByte log b ≠ I2C_MASTER_BUS_COLLISION)
    (log : List HwCall) (b : Nat) (h : WInv blk I2C_SUCCESS log)
    (hb : (writeDevBytes blk)[(ackQueries log).length]? = some b) :
    (TransmitOneByte dev log b).1 = true ∧ WSent blk (TransmitOneByte dev log b).2 := by
  obtain ⟨h1, h2, -, h4, h5⟩ := h
  have ht := TransmitOneByte_noCollision dev htx log b
  have ho := TransmitOneByte_obs dev log b
  have hall : ∀ x ∈ ackQueries log, x = true := by
    rcases h1 with h1 | h1
    · exact h1.2
    · exact absurd h1.1 (by decide)
  have hlt : (ackQueries log).length < (writeDevBytes blk).length := by
    by_contra hc
    rw [List.getElem?_eq_none (by omega)] at hb
    exact absurd hb (by simp)
  refine ⟨ht.1, ?_, ?_, ?_, ?_, ?_⟩
  · rw [ho.2]; exact hall
  · rw [ho.1, ho.2, h2, List.take_succ, hb]
    rfl
  · rw [ho.2]; omega
  · rw [ht.2.1, h4, ho.1]
    simp
  · rw [ht.2.2.2.2, h5]

/-- A delay between sending a byte and querying its acknowledge changes
nothing. -/
theorem WSent_usDelay (blk : I2C_DATA_BLOCK) (log : List HwCall) (n : Nat)
    (h : WSent blk log) : WSent blk (log ++ [HwCall.usDelay n]) := by
  obtain ⟨h1, h2, h3, h4, h5⟩ := h
  unfold WSent
  simp only [ackQueries_append, sendAttempts_append, busTrace_append, stopCount_append,
    (obs_delay n).1.1, (obs_delay n).1.2.1, (obs_delay n).1.2.2.1, stopCount_usDelay,
    List.append_nil, Nat.add_zero]
  exact ⟨h1, h2, h3, h4, h5⟩

/-- A positive acknowledge keeps the status at `I2C_SUCCESS`. -/
theorem WSent_ack (blk : I2C_DATA_BLOCK) (log : List HwCall) (h : WSent blk log) :
    WInv blk I2C_SUCCESS (log ++ [HwCall.ackQuery true]) := by
  obtain ⟨h1, h2, h3, h4, h5⟩ := h
  unfold WInv
  simp only [ackQueries_append, sendAttempts_append, busTrace_append, stopCount_append,
    (obs_ackQuery true).1, (obs_ackQuery true).2.1, (obs_ackQuery true).2.2,
    stopCount_ackQuery, List.append_nil, Nat.add_zero, List.length_append,
    List.length_singleton]
  refine ⟨Or.inl ⟨trivial, ?_⟩, h2, h3, h4, h5⟩
  intro x hx
  rcases List.mem_append.mp hx with hx | hx
  · exact h1 x hx
  · simpa using hx

/-- A negative acknowledge sets the status to `I2C_ERROR`. -/
theorem WSent_nack (blk : I2C_DATA_BLOCK) (log : List HwCall) (h : WSent blk log) :
    WInv blk I2C_ERROR (log ++ [HwCall.ackQuery false]) := by
  obtain ⟨h1, h2, h3, h4, h5⟩ := h
  unfold WInv
  simp only [ackQueries_append, sendAttempts_append, busTrace_append, stopCount_append,
    (obs_ackQuery false).1, (obs_ackQuery false).2.1, (obs_ackQuery false).2.2,
    stopCount_ackQuery, List.append_nil, Nat.add_zero, List.length_append,
    List.length_singleton]
  refine ⟨Or.inr ⟨trivial, (ackQueries log).length, ?_⟩, h2, h3, h4, h5⟩
  rw [List.eq_replicate_of_mem h1]
  simp

/-- The delay of `i2c_ackError` changes nothing. -/
theorem WInv_ackError (blk : I2C_DATA_BLOCK) (ops : Nat) (log : List HwCall) (loc : Nat)
    (h : WInv blk ops log) : WInv blk ops (i2c_ackError log loc) := by
  obtain ⟨h1, h2, h3, h4, h5⟩ := h
  unfold WInv i2c_ackError
  simp only [ackQueries_append, sendAttempts_append, busTrace_append, stopCount_append,
    (obs_delay 10).2.1, (obs_delay 10).2.2.1, (obs_delay 10).2.2.2.1, stopCount_msDelay,
    List.append_nil, Nat.add_zero]
  exact ⟨h1, h2, h3, h4, h5⟩

/-- The error code differs from the success code. -/
theorem error_ne_success : I2C_ERROR ≠ I2C_SUCCESS := by decide

/-- The payload bytes sit behind the two addressing bytes of `writeDevBytes`. -/
theorem writeDevBytes_payload (blk : I2C_DATA_BLOCK) (p : Nat) (hp : p < blk.block_size) :
    (writeDevBytes blk)[p + 2]? = some (blk.data p) := by
  simp [writeDevBytes, hp]

/-- After a successful start nothing has been sent or queried yet. -/
theorem WInv_start (dev : Device) (blk : I2C_DATA_BLOCK)
    (hstart : dev.I2CStart [HwCall.busIdleWait] = I2C_SUCCESS) :
    (StartTransfer dev [] false).1 = true ∧
      WInv blk I2C_SUCCESS (StartTransfer dev [] false).2 ∧
      ackQueries (StartTransfer dev [] false).2 = [] := by
  simp [StartTransfer, hstart, WInv, ackQueries, sendAttempts, busTrace, stopCount,
    HwCall.bus, I2C_SUCCESS]

/-- Without collision the device-ID block of `I2C_WriteDev` sends the address
byte and records its acknowledge. -/
theorem writeDevAddrPhase_inv (dev : Device) (blk : I2C_DATA_BLOCK)
    (htx : ∀ log b, dev.I2CSendByte log b ≠ I2C_MASTER_BUS_COLLISION)
    (log : List HwCall) (h : WInv blk I2C_SUCCESS log) (hq : ackQueries log = []) :
    WInv blk (writeDevAddrPhase dev blk log).1 (writeDevAddrPhase dev blk log).2 ∧
      ((writeDevAddrPhase dev blk log).1 = I2C_SUCCESS →
        (ackQueries (writeDevAddrPhase dev blk log).2).length = 1) := by
  have hs := WInv_send dev blk htx log (I2C_FORMAT_7_BIT_ADDRESS blk.dev_id I2C_WRITE) h
    (by rw [hq]; rfl)
  have ho := TransmitOneByte_obs dev log (I2C_FORMAT_7_BIT_ADDRESS blk.dev_id I2C_WRITE)
  unfold writeDevAddrPhase
  dsimp only
  rw [if_pos hs.1]
  by_cases ha : dev.I2CByteWasAcknowledged
      (TransmitOneByte dev log (I2C_FORMAT_7_BIT_ADDRESS blk.dev_id I2C_WRITE)).2 = false
  · rw [if_pos ha, ha]
    exact ⟨WInv_ackError blk _ _ 8 (WSent_nack blk _ hs.2),
      fun hk => absurd hk error_ne_success⟩
  · rw [if_neg ha, Bool.eq_true_of_not_eq_false ha]
    refine ⟨WSent_ack blk _ hs.2, fun _ => ?_⟩
    dsimp only
    rw [ackQueries_append, ho.2, hq]
    rfl

/-- Without collision the register block of `I2C_WriteDev` sends the register
byte and records its acknowledge, unless the status is already an error. -/
theorem writeDevRegPhase_inv (dev : Device) (blk : I2C_DATA_BLOCK)
    (htx : ∀ log b, dev.I2CSendByte log b ≠ I2C_MASTER_BUS_COLLISION)
    (ops : Nat) (log : List HwCall) (h : WInv blk ops log)
    (hq : ops = I2C_SUCCESS → (ackQueries log).length = 1) :
    WInv blk (writeDevRegPhase dev blk ops log).1 (writeDevRegPhase dev blk ops log).2 ∧
      ((writeDevRegPhase dev blk ops log).1 = I2C_SUCCESS →
        (ackQueries (writeDevRegPhase dev blk ops log).2).length = 2) := by
  unfold writeDevRegPhase
  dsimp only
  by_cases hops : ops = I2C_SUCCESS
  · subst hops
    have hs := WInv_send dev blk htx log blk.reg_addr h
      (by rw [hq rfl]; simp [writeDevBytes])
    have ho := TransmitOneByte_obs dev log blk.reg_addr
    have hd := WSent_usDelay blk _ 35 hs.2
    have hlen : (ackQueries ((TransmitOneByte dev log blk.reg_addr).2
        ++ [HwCall.usDelay 35])).length = 1 := by
      rw [ackQueries_append, ho.2, (obs_delay 35).1.2.1, List.append_nil, hq rfl]
    rw [if_pos rfl, if_pos hs.1]
    by_cases ha : dev.I2CByteWasAcknowledged
        ((TransmitOneByte dev log blk.reg_addr).2 ++ [HwCall.usDelay 35]) = false
    · rw [if_pos ha, ha]
      exact ⟨WInv_ackError blk _ _ 9 (WSent_nack blk _ hd),
        fun hk => absurd hk error_ne_success⟩
    · rw [if_neg ha, Bool.eq_true_of_not_eq_false ha]
      refine ⟨WSent_ack blk _ hd, fun _ => ?_⟩
      dsimp only
      rw [ackQueries_append, List.length_append, hlen]
      rfl
  · rw [if_neg hops]
    exact ⟨h, fun hk => absurd hk hops⟩

/-- Without collision the payload loop of `I2C_WriteDev` keeps the
transaction state well-formed: while the status is `I2C_SUCCESS` the number
of acknowledged bytes is the payload index plus two. -/
theorem writeDevLoop_inv (dev : Device) (blk : I2C_DATA_BLOCK)
    (htx : ∀ log b, dev.I2CSendByte log b ≠ I2C_MASTER_BUS_COLLISION) :
    ∀ (fuel : Nat) (s : BlkState), WInv blk s.i2c_ops s.log → s.buf = blk.data →
      (s.i2c_ops = I2C_SUCCESS →
        (ackQueries s.log).length = s.data_ptr + 2 ∧ s.count = s.data_ptr) →
      WInv blk (writeDevLoop dev blk fuel s).i2c_ops (writeDevLoop dev blk fuel s).log ∧
      (writeDevLoop dev blk fuel s).buf = blk.data ∧
      ((writeDevLoop dev blk fuel s).i2c_ops = I2C_SUCCESS →
        (ackQueries (writeDevLoop dev blk fuel s).log).length
          = (writeDevLoop dev blk fuel s).data_ptr + 2 ∧
        (writeDevLoop dev blk fuel s).count = (writeDevLoop dev blk fuel s).data_ptr) := by
  intro fuel
  induction fuel with
  | zero => intro s h hb hq; exact ⟨h, hb, hq⟩
  | succ fuel ih =>
    intro s h hb hq
    rw [writeDevLoop]
    dsimp only
    by_cases hc : s.count < blk.block_size ∧ s.i2c_ops = I2C_SUCCESS
    · rw [if_pos hc]
      have hq' := hq hc.2
      have hw : WInv blk I2C_SUCCESS s.log := by rw [← hc.2]; exact h
      have hbyte : (writeDevBytes blk)[(ackQueries s.log).length]?
          = some (s.buf s.data_ptr) := by
        rw [hq'.1, hb]
        exact writeDevBytes_payload blk s.data_ptr (by omega)
      have hs := WInv_send dev blk htx s.log (s.buf s.data_ptr) hw hbyte
      have ho := TransmitOneByte_obs dev s.log (s.buf s.data_ptr)
      rw [if_pos hs.1]
      by_cases ha : dev.I2CByteWasAcknowledged
          (TransmitOneByte dev s.log (s.buf s.data_ptr)).2 = false
      · rw [if_pos ha, ha]
        exact ih _ (WInv_ackError blk _ _ 10 (WSent_nack blk _ hs.2)) hb
          (fun hk => absurd hk error_ne_success)
      · rw [if_neg ha, Bool.eq_true_of_not_eq_false ha]
        refine ih _ ?_ hb (fun _ => ?_)
        · dsimp only
          rw [hc.2]
          exact WSent_ack blk _ hs.2
        · dsimp only
          rw [ackQueries_append, List.length_append, ho.2, hq'.1, hq'.2]
          exact ⟨rfl, rfl⟩
    · rw [if_neg hc]
      exact ⟨h, hb, hq⟩

/-- In a run of positive acknowledges closed by one negative acknowledge, the
negative one is the last. -/
theorem nack_position (j k : Nat)
    (hk : (List.replicate j true ++ [false])[k]? = some false) : k = j := by
  rcases Nat.lt_trichotomy k j with h | h | h
  · rw [List.getElem?_append_left (by simpa using h)] at hk
    simp [List.getElem?_replicate, h] at hk
  · exact h
  · rw [List.getElem?_eq_none (by simp; omega)] at hk
    exact absurd hk (by simp)

/-- C13: for every data block descriptor, when the start succeeds and no
collision occurs, `I2C_WriteDev` aborts at the first missing
acknowledgment.  Numbering the bytes to send from 0 (0 the device address
byte, 1 the register byte, `j + 2` payload byte `j`): if byte `k` is the one
whose acknowledge query answers "not acknowledged", then exactly the bytes
`0..k` are transmitted and nothing after them (address not acknowledged: no
register byte and no payload; register byte not acknowledged: no payload;
payload byte `j` not acknowledged: payload bytes `0..j`), the result is
`I2C_ERROR`, and the stop is still issued, once, as the last bus event. -/
theorem I2C_WriteDev_aborts_at_first_nack (dev : Device) (blk : I2C_DATA_BLOCK) (k : Nat)
    (hstart : dev.I2CStart [HwCall.busIdleWait] = I2C_SUCCESS)
    (htx : ∀ log b, dev.I2CSendByte log b ≠ I2C_MASTER_BUS_COLLISION)
    (hk : (ackQueries (I2C_WriteDev dev blk).log)[k]? = some false) :
    sendAttempts (I2C_WriteDev dev blk).log = (writeDevBytes blk).take (k + 1) ∧
    busTrace (I2C_WriteDev dev blk).log
      = [BusEvent.START] ++ ((writeDevBytes blk).take (k + 1)).map BusEvent.TX
        ++ [BusEvent.STOP] ∧
    k < blk.block_size + 2 ∧
    (I2C_WriteDev dev blk).result = I2C_ERROR ∧
    stopCount (I2C_WriteDev dev blk).log = 1 := by
  obtain ⟨h1, hw0, hq0⟩ := WInv_start dev blk hstart
  have ha := writeDevAddrPhase_inv dev blk htx _ hw0 hq0
  have hr := writeDevRegPhase_inv dev blk htx _ _ ha.1 ha.2
  have hl := writeDevLoop_inv dev blk htx blk.block_size
    { count := 0, data_ptr := 0,
      i2c_ops := (writeDevRegPhase dev blk
        (writeDevAddrPhase dev blk (StartTransfer dev [] false).2).1
        (writeDevAddrPhase dev blk (StartTransfer dev [] false).2).2).1,
      buf := blk.data,
      log := (writeDevRegPhase dev blk
        (writeDevAddrPhase dev blk (StartTransfer dev [] false).2).1
        (writeDevAddrPhase dev blk (StartTransfer dev [] false).2).2).2 }
    hr.1 rfl (fun h => ⟨hr.2 h, rfl⟩)
  have heq : I2C_WriteDev dev blk =
      { result := (writeDevLoop dev blk blk.block_size
          { count := 0, data_ptr := 0,
            i2c_ops := (writeDevRegPhase dev blk
              (writeDevAddrPhase dev blk (StartTransfer dev [] false).2).1
              (writeDevAddrPhase dev blk (StartTransfer dev [] false).2).2).1,
            buf := blk.data,
            log := (writeDevRegPhase dev blk
              (writeDevAddrPhase dev blk (StartTransfer dev [] false).2).1
              (writeDevAddrPhase dev blk (StartTransfer dev [] false).2).2).2 }).i2c_ops,
        data := (writeDevLoop dev blk blk.block_size
          { count := 0, data_ptr := 0,
            i2c_ops := (writeDevRegPhase dev blk
              (writeDevAddrPhase dev blk (StartTransfer dev [] false).2).1
              (writeDevAddrPhase dev blk (StartTransfer dev [] false).2).2).1,
            buf := blk.data,
            log := (writeDevRegPhase dev blk
              (writeDevAddrPhase dev blk (StartTransfer dev [] false).2).1
              (writeDevAddrPhase dev blk (StartTransfer dev [] false).2).2).2 }).buf,
        log := StopTransfer (writeDevLoop dev blk blk.block_size
          { count := 0, data_ptr := 0,
            i2c_ops := (writeDevRegPhase dev blk
              (writeDevAddrPhase dev blk (StartTransfer dev [] false).2).1
              (writeDevAddrPhase dev blk (StartTransfer dev [] false).2).2).1,
            buf := blk.data,
            log := (writeDevRegPhase dev blk
              (writeDevAddrPhase dev blk (StartTransfer dev [] false).2).1
              (writeDevAddrPhase dev blk (StartTransfer dev [] false).2).2).2 }).log } := by
    unfold I2C_WriteDev
    dsimp only
    rw [if_pos h1]
  rw [heq] at hk ⊢
  dsimp only at hk ⊢
  obtain ⟨hshape, hsend, hlen, hbus, hstop⟩ := hl.1
  rw [(framing_obs dev _ false).2.2] at hk
  rw [(framing_obs dev _ false).2.1, (StopTransfer_frame _).2.2.1,
    (StopTransfer_frame _).2.2.2, hstop, hbus, hsend]
  rcases hshape with ⟨-, hall⟩ | ⟨herr, j, hj⟩
  · exact absurd (hall false (List.getElem?_mem hk)) (by decide)
  · rw [hj] at hk hlen ⊢
    have hkj := nack_position j k hk
    subst hkj
    have hn : (writeDevBytes blk).length = blk.block_size + 2 := by
      simp [writeDevBytes]
    simp only [List.length_append, List.length_replicate, List.length_singleton] at hlen ⊢
    refine ⟨trivial, by simp, by omega, herr, trivial⟩

/-- C13 (witness): a two-byte block where payload byte 0 (byte number 2) is not
acknowledged: the address byte, the register byte and payload byte 0 are
transmitted, payload byte 1 is not. -/
theorem I2C_WriteDev_aborts_at_first_nack_witness :
    sendAttempts (I2C_WriteDev (nackAt 2) (blkExample 2)).log = [0xA0, 0x10, 0xAA] ∧
      (I2C_WriteDev (nackAt 2) (blkExample 2)).result = I2C_ERROR ∧
      stopCount (I2C_WriteDev (nackAt 2) (blkExample 2)).log = 1 :=
  have h := I2C_WriteDev_aborts_at_first_nack (nackAt 2) (blkExample 2) 2 rfl
    (by intro log b; simp [nackAt, I2C_SUCCESS, I2C_MASTER_BUS_COLLISION])
    (by decide)
  ⟨h.1, h.2.2.2.1, h.2.2.2.2⟩

/-! ## Claims about I2C_Init -/

/-- C19: for every requested clock rate `speed ≥ 0` and every actual rate
reported by the hardware (integers without overflow), `I2C_Init` returns
`I2C_ERROR` if and only if `10 * |actual - speed| > speed`, that is, the
absolute deviation exceeds exactly 10% of the requested rate, and returns
`I2C_SUCCESS` otherwise: the integer division `speed / 10` does not change
the verdict. -/
theorem I2C_Init_verdict (actual speed : Int) (enabled : Bool) (hs : 0 ≤ speed) :
    ((I2C_Init actual speed enabled).result = I2C_ERROR ↔ 10 * |actual - speed| > speed) ∧
    (¬ (10 * |actual - speed| > speed) →
      (I2C_Init actual speed enabled).result = I2C_SUCCESS) := by
  have habs : ((actual - speed).natAbs : Int) = |actual - speed| := Int.natCast_natAbs _
  have hnn : (0 : Int) ≤ |actual - speed| := abs_nonneg _
  unfold I2C_Init
  rw [habs, Int.tdiv_eq_ediv hs (by decide)]
  generalize |actual - speed| = d at hnn ⊢
  by_cases h : d > speed / 10
  · rw [if_pos h]
    exact ⟨⟨fun _ => by omega, fun _ => rfl⟩, fun hc => absurd (show 10 * d > speed by omega) hc⟩
  · rw [if_neg h]
    exact ⟨⟨fun hk => absurd hk (by decide), fun hk => absurd hk (by omega)⟩, fun _ => rfl⟩

/-- C19 (witness): at 100 kHz requested, an actual rate of 110 000 Hz (exactly
10% off) is accepted and 110 001 Hz is rejected. -/
theorem I2C_Init_verdict_witness :
    (I2C_Init 110000 100000 false).result = I2C_SUCCESS ∧
      (I2C_Init 110001 100000 false).result = I2C_ERROR :=
  ⟨(I2C_Init_verdict 110000 100000 false (by decide)).2 (by norm_num),
    (I2C_Init_verdict 110001 100000 false (by decide)).1.mpr (by norm_num)⟩

/-- C20 (counterexample): when the actual clock is 200 kHz for a requested 100 kHz,
`I2C_Init` returns `I2C_ERROR` without calling `I2CEnable`: a bus that was
disabled before the call is still disabled when it returns. -/
theorem I2C_Init_failure_not_enabled :
    (I2C_Init 200000 100000 false).result = I2C_ERROR ∧
      (I2C_Init 200000 100000 false).enableCalls = 0 ∧
      (I2C_Init 200000 100000 false).enabled = false := by
  decide

/-- C20 (amended): for every requested and actual clock rate, `I2C_Init`
performs `I2CEnable(port, TRUE)` exactly when it reports success: when it
returns `I2C_SUCCESS` the bus is enabled on return; when it returns
`I2C_ERROR` (clock deviation above the tolerance) `I2CEnable` is not called
and the enable state of the bus is the one it had before the call. -/
theorem I2C_Init_enables_on_success (actual speed : Int) (enabled : Bool) :
    ((I2C_Init actual speed enabled).result = I2C_SUCCESS →
      (I2C_Init actual speed enabled).enabled = true ∧
        (I2C_Init actual speed enabled).enableCalls = 1) ∧
    ((I2C_Init actual speed enabled).result = I2C_ERROR →
      (I2C_Init actual speed enabled).enabled = enabled ∧
        (I2C_Init actual speed enabled).enableCalls = 0) ∧
    ((I2C_Init actual speed enabled).result = I2C_SUCCESS ∨
      (I2C_Init actual speed enabled).result = I2C_ERROR) := by
  unfold I2C_Init
  by_cases h : ((actual - speed).natAbs : Int) > Int.tdiv speed 10
  · rw [if_pos h]
    exact ⟨fun hk => absurd hk error_ne_success, fun _ => ⟨rfl, rfl⟩, Or.inr rfl⟩
  · rw [if_neg h]
    exact ⟨fun _ => ⟨rfl, rfl⟩, fun hk => absurd hk.symm error_ne_success, Or.inl rfl⟩

/-- C20 (amended, witness): a successful initialisation enables a disabled bus, a
failed one leaves it disabled. -/
theorem I2C_Init_enables_on_success_witness :
    ((I2C_Init 100000 100000 false).enabled = true ∧
        (I2C_Init 100000 100000 false).enableCalls = 1) ∧
      ((I2C_Init 200000 100000 false).enabled = false ∧
        (I2C_Init 200000 100000 false).enableCalls = 0) :=
  ⟨(I2C_Init_enables_on_success 100000 100000 false).1 (by decide),
    (I2C_Init_enables_on_success 200000 100000 false).2.1 (by decide)⟩

/-! ## Claims about the acknowledge of the read address in I2CReadRegs -/

/-- C14 (code evaluated at the failing input): reading three bytes from register
0x10 of device 0x50 on a device that acknowledges both header bytes but not
the device address byte re-sent with read direction (no collision, no
overflow): `I2CReadRegs` returns `I2C_SUCCESS` and receives all three data
bytes; only the two header bytes were ever queried for their acknowledge. -/
theorem I2CReadRegs_read_address_nack_unnoticed :
    (I2CReadRegs (nackAt 2) 0x50 0x10 (fun _ => 0) 3).result = I2C_SUCCESS ∧
      (received (I2CReadRegs (nackAt 2) 0x50 0x10 (fun _ => 0) 3).log).length = 3 ∧
      ackQueries (I2CReadRegs (nackAt 2) 0x50 0x10 (fun _ => 0) 3).log = [true, true] ∧
      sendAttempts (I2CReadRegs (nackAt 2) 0x50 0x10 (fun _ => 0) 3).log
        = [0xA0, 0x00, 0xA1] ∧
      (∀ log, (sendAttempts log).length = 3 →
        (nackAt 2).I2CByteWasAcknowledged log = false) := by
  refine ⟨by decide, by decide, by decide, by decide, ?_⟩
  intro log h
  simp [nackAt, h]

/-! ## Claims about I2C_ReadDev -/

/-- C16 (code evaluated at the failing input): a block read with `block_size = 1`
on a fully responsive device receives two data bytes, the first with ACK
and the second with NACK, and stores the second one into `data[1]`, one
position past a buffer of capacity 1. -/
theorem I2C_ReadDev_reads_one_byte_too_many :
    acksIssued (I2C_ReadDev (responsive (fun k => k + 7))
        { dev_id := 0x50, reg_addr := 0x10, block_size := 1, data := fun _ => 0xEE }).log
      = [true, false] ∧
    received (I2C_ReadDev (responsive (fun k => k + 7))
        { dev_id := 0x50, reg_addr := 0x10, block_size := 1, data := fun _ => 0xEE }).log
      = [7, 8] ∧
    (I2C_ReadDev (responsive (fun k => k + 7))
        { dev_id := 0x50, reg_addr := 0x10, block_size := 1, data := fun _ => 0xEE }).data 1
      = 8 ∧
    (I2C_ReadDev (responsive (fun k => k + 7))
        { dev_id := 0x50, reg_addr := 0x10, block_size := 1, data := fun _ => 0xEE }).result
      = I2C_SUCCESS := by
  decide

/-- A receive step puts only receive-phase events on the bus. -/
theorem ReceiveOneByte_trace (dev : Device) (log : List HwCall) (buf : Nat → Nat)
    (idx : Nat) (ack : Bool) :
    ∃ rest, busTrace (ReceiveOneByte dev log buf idx ack).log = busTrace log ++ rest ∧
      ∀ e ∈ rest, e.isReceive = true := by
  by_cases h : (ReceiveOneByte dev log buf idx ack).result = I2C_SUCCESS
  · obtain ⟨b, -, -, -, hb, -⟩ := ReceiveOneByte_ok dev log buf idx ack h
    refine ⟨[BusEvent.ACKBIT ack, BusEvent.RX b], hb, ?_⟩
    intro e he
    simp only [List.mem_cons, List.mem_singleton, List.not_mem_nil, or_false] at he
    rcases he with he | he <;> rw [he] <;> rfl
  · exact ⟨[], by rw [(ReceiveOneByte_fail dev log buf idx ack h).2.2.2.1]; simp, by simp⟩

/-- The receive loop of `I2C_ReadDev` puts only receive-phase events on the
bus. -/
theorem readDevLoop_trace (dev : Device) (blk : I2C_DATA_BLOCK) :
    ∀ (fuel : Nat) (s : BlkState),
      ∃ rest, busTrace (readDevLoop dev blk fuel s).log = busTrace s.log ++ rest ∧
        ∀ e ∈ rest, e.isReceive = true := by
  intro fuel
  induction fuel with
  | zero => intro s; exact ⟨[], by simp [readDevLoop], by simp⟩
  | succ fuel ih =>
    intro s
    rw [readDevLoop]
    dsimp only
    split_ifs
    · obtain ⟨r1, h1, ha1⟩ := ReceiveOneByte_trace dev s.log s.buf s.data_ptr true
      obtain ⟨r2, h2, ha2⟩ := ih
        { count := s.count + 1, data_ptr := s.data_ptr + 1,
          i2c_ops := (ReceiveOneByte dev s.log s.buf s.data_ptr true).result,
          buf := (ReceiveOneByte dev s.log s.buf s.data_ptr true).buf,
          log := (ReceiveOneByte dev s.log s.buf s.data_ptr true).log }
      refine ⟨r1 ++ r2, ?_, ?_⟩
      · rw [h2]
        dsimp only
        rw [h1, List.append_assoc]
      · intro e he
        rcases List.mem_append.mp he with h | h
        · exact ha1 e h
        · exact ha2 e h
    · exact ⟨[], by simp, by simp⟩

/-- The last receive of `I2C_ReadDev` puts only receive-phase events on the
bus. -/
theorem readDevLastByte_trace (dev : Device) (s : BlkState) :
    ∃ rest, busTrace (readDevLastByte dev s).log = busTrace s.log ++ rest ∧
      ∀ e ∈ rest, e.isReceive = true := by
  unfold readDevLastByte
  dsimp only
  split_ifs
  · exact ReceiveOneByte_trace dev s.log s.buf s.data_ptr false
  · exact ⟨[], by simp, by simp⟩

/-- After a successful start, without collision and with the address byte
acknowledged, the device-ID block of `I2C_ReadDev` sends the read address
byte and leaves the status at `I2C_SUCCESS`. -/
theorem readDevAddrPhase_ok (dev : Device) (blk : I2C_DATA_BLOCK)
    (htx : ∀ log b, dev.I2CSendByte log b ≠ I2C_MASTER_BUS_COLLISION)
    (hack : ∀ log, dev.I2CByteWasAcknowledged log = true) (log : List HwCall) :
    (readDevAddrPhase dev blk true log).1 = I2C_SUCCESS ∧
      busTrace (readDevAddrPhase dev blk true log).2
        = busTrace log ++ [BusEvent.TX (I2C_FORMAT_7_BIT_ADDRESS blk.dev_id I2C_READ)] := by
  have ht := TransmitOneByte_noCollision dev htx log
    (I2C_FORMAT_7_BIT_ADDRESS blk.dev_id I2C_READ)
  unfold readDevAddrPhase
  dsimp only
  rw [if_pos rfl, if_pos ht.1, if_neg (by rw [hack]; decide)]
  dsimp only
  refine ⟨rfl, ?_⟩
  rw [busTrace_append, busTrace_append, ht.2.1, (obs_delay 35).1.2.2.1, hack,
    (obs_ackQuery true).2.2]
  simp

/-- A successful plain start shows as one START. -/
theorem StartTransfer_ok (dev : Device)
    (hstart : dev.I2CStart [HwCall.busIdleWait] = I2C_SUCCESS) :
    (StartTransfer dev [] false).1 = true ∧
      busTrace (StartTransfer dev [] false).2 = [BusEvent.START] := by
  simp [StartTransfer, hstart, busTrace, HwCall.bus]

/-- C17 (counterexample): on a fully responsive device the block read of the
example descriptor (device 0x50, register 0x10, two bytes) puts START,
ADDR(0x50,R) and then received bytes on the bus: no write-direction address
byte, no register byte 0x10 and no repeated start. -/
theorem I2C_ReadDev_not_register_addressed :
    busTrace (I2C_ReadDev (responsive id) (blkExample 2)).log
      = [BusEvent.START, BusEvent.TX 0xA1, BusEvent.ACKBIT true, BusEvent.RX 0,
          BusEvent.ACKBIT true, BusEvent.RX 1, BusEvent.ACKBIT false, BusEvent.RX 2,
          BusEvent.STOP] ∧
    (busTrace (I2C_ReadDev (responsive id) (blkExample 2)).log).take 5
      ≠ [BusEvent.START, BusEvent.TX 0xA0, BusEvent.TX 0x10, BusEvent.RESTART,
          BusEvent.TX 0xA1] := by
  decide

/-- Shape of the bus trace of `I2C_ReadDev` when the start succeeds, nothing
collides and the address byte is acknowledged. -/
theorem I2C_ReadDev_shape (dev : Device) (blk : I2C_DATA_BLOCK)
    (hstart : dev.I2CStart [HwCall.busIdleWait] = I2C_SUCCESS)
    (htx : ∀ log b, dev.I2CSendByte log b ≠ I2C_MASTER_BUS_COLLISION)
    (hack : ∀ log, dev.I2CByteWasAcknowledged log = true) :
    ∃ rest, busTrace (I2C_ReadDev dev blk).log
        = [BusEvent.START, BusEvent.TX (I2C_FORMAT_7_BIT_ADDRESS blk.dev_id I2C_READ)]
          ++ rest ++ [BusEvent.STOP] ∧
      ∀ e ∈ rest, e.isReceive = true := by
  obtain ⟨h1, h2⟩ := StartTransfer_ok dev hstart
  have ha := readDevAddrPhase_ok dev blk htx hack (StartTransfer dev [] false).2
  obtain ⟨r1, hr1, hall1⟩ := readDevLoop_trace dev blk blk.block_size
    { count := 0, data_ptr := 0,
      i2c_ops := (readDevAddrPhase dev blk true (StartTransfer dev [] false).2).1,
      buf := blk.data,
      log := (readDevAddrPhase dev blk true (StartTransfer dev [] false).2).2 }
  obtain ⟨r2, hr2, hall2⟩ := readDevLastByte_trace dev
    (readDevLoop dev blk blk.block_size
      { count := 0, data_ptr := 0,
        i2c_ops := (readDevAddrPhase dev blk true (StartTransfer dev [] false).2).1,
        buf := blk.data,
        log := (readDevAddrPhase dev blk true (StartTransfer dev [] false).2).2 })
  refine ⟨r1 ++ r2, ?_, ?_⟩
  · simp only [I2C_ReadDev, h1]
    rw [(StopTransfer_frame _).2.2.2, hr2, hr1]
    dsimp only
    rw [ha.2, h2]
    simp
  · intro e he
    rcases List.mem_append.mp he with h | h
    · exact hall1 e h
    · exact hall2 e h

/-- C17 (amended): the block read `I2C_ReadDev` is a plain addressed read: for
every descriptor, when the start succeeds, nothing collides and the address
byte is acknowledged, the bus sees a START, the device address byte with
read direction, then only receive-phase events, then STOP; `reg_addr` is
not transmitted and no repeated start is issued. -/
theorem I2C_ReadDev_trace (dev : Device) (blk : I2C_DATA_BLOCK)
    (hstart : dev.I2CStart [HwCall.busIdleWait] = I2C_SUCCESS)
    (htx : ∀ log b, dev.I2CSendByte log b ≠ I2C_MASTER_BUS_COLLISION)
    (hack : ∀ log, dev.I2CByteWasAcknowledged log = true) :
    (∃ rest, busTrace (I2C_ReadDev dev blk).log
        = [BusEvent.START, BusEvent.TX (I2C_FORMAT_7_BIT_ADDRESS blk.dev_id I2C_READ)]
          ++ rest ++ [BusEvent.STOP] ∧
      ∀ e ∈ rest, e.isReceive = true) ∧
    BusEvent.RESTART ∉ busTrace (I2C_ReadDev dev blk).log := by
  obtain ⟨rest, htrace, hrest⟩ := I2C_ReadDev_shape dev blk hstart htx hack
  refine ⟨⟨rest, htrace, hrest⟩, ?_⟩
  rw [htrace]
  intro hmem
  simp only [List.cons_append, List.nil_append, List.mem_cons, List.mem_append,
    List.mem_singleton, List.not_mem_nil, reduceCtorEq, false_or, or_false] at hmem
  have := hrest _ hmem
  exact absurd this (by decide)

/-- C17 (amended, witness): the example descriptor on a fully responsive device. -/
theorem I2C_ReadDev_trace_witness :
    (∃ rest, busTrace (I2C_ReadDev (responsive id) (blkExample 2)).log
        = [BusEvent.START, BusEvent.TX (I2C_FORMAT_7_BIT_ADDRESS 0x50 I2C_READ)]
          ++ rest ++ [BusEvent.STOP] ∧
      ∀ e ∈ rest, e.isReceive = true) ∧
    BusEvent.RESTART ∉ busTrace (I2C_ReadDev (responsive id) (blkExample 2)).log :=
  I2C_ReadDev_trace (responsive id) (blkExample 2) rfl
    (by intro log b; simp [responsive, I2C_SUCCESS, I2C_MASTER_BUS_COLLISION])
    (fun _ => rfl)

/-! ## Zero-length blocks -/

/-- Without collision and with every byte acknowledged the device-ID block of
`I2C_WriteDev` sends the write address byte and keeps the status at
`I2C_SUCCESS`. -/
theorem writeDevAddrPhase_ok (dev : Device) (blk : I2C_DATA_BLOCK)
    (htx : ∀ log b, dev.I2CSendByte log b ≠ I2C_MASTER_BUS_COLLISION)
    (hack : ∀ log, dev.I2CByteWasAcknowledged log = true) (log : List HwCall) :
    (writeDevAddrPhase dev blk log).1 = I2C_SUCCESS ∧
      busTrace (writeDevAddrPhase dev blk log).2
        = busTrace log ++ [BusEvent.TX (I2C_FORMAT_7_BIT_ADDRESS blk.dev_id I2C_WRITE)] ∧
      received (writeDevAddrPhase dev blk log).2 = received log := by
  have ht := TransmitOneByte_noCollision dev htx log
    (I2C_FORMAT_7_BIT_ADDRESS blk.dev_id I2C_WRITE)
  unfold writeDevAddrPhase
  dsimp only
  rw [if_pos ht.1, if_neg (by rw [hack]; decide)]
  dsimp only
  refine ⟨rfl, ?_, ?_⟩
  · rw [busTrace_append, ht.2.1, hack, (obs_ackQuery true).2.2]
    simp
  · rw [(ackQuery_frame _ _).1, ht.2.2.1]

/-- Without collision and with every byte acknowledged the register block of
`I2C_WriteDev` sends the register byte and keeps the status at
`I2C_SUCCESS`. -/
theorem writeDevRegPhase_ok (dev : Device) (blk : I2C_DATA_BLOCK)
    (htx : ∀ log b, dev.I2CSendByte log b ≠ I2C_MASTER_BUS_COLLISION)
    (hack : ∀ log, dev.I2CByteWasAcknowledged log = true) (log : List HwCall) :
    (writeDevRegPhase dev blk I2C_SUCCESS log).1 = I2C_SUCCESS ∧
      busTrace (writeDevRegPhase dev blk I2C_SUCCESS log).2
        = busTrace log ++ [BusEvent.TX blk.reg_addr] ∧
      received (writeDevRegPhase dev blk I2C_SUCCESS log).2 = received log := by
  have ht := TransmitOneByte_noCollision dev htx log blk.reg_addr
  unfold writeDevRegPhase
  dsimp only
  rw [if_pos rfl, if_pos ht.1, if_neg (by rw [hack]; decide)]
  dsimp only
  refine ⟨rfl, ?_, ?_⟩
  · rw [busTrace_append, busTrace_append, ht.2.1, hack, (obs_ackQuery true).2.2,
      (obs_delay 35).1.2.2.1]
    simp
  · rw [(ackQuery_frame _ _).1, received_append, (obs_delay 35).1.2.2.2.1, ht.2.2.1]
    simp

/-- The last receive of `I2CReadRegs` ends with the same result as the last
receive of `I2C_Read`. -/
theorem regsLastByte_result (dev : Device) (s : RxState) :
    (regsLastByte dev s).i2c_result = (readLastByte dev s).i2c_result := by
  unfold regsLastByte readLastByte
  split_ifs <;> rfl

/-- C18 (counterexample): a register read of length 0 and a block read of
`block_size = 0` on a fully responsive device each still receive one data
byte and store it in position 0 of the buffer. -/
theorem zero_length_reads_receive_one_byte :
    received (I2CReadRegs (responsive (fun k => k + 7)) 0x50 0x10 (fun _ => 0xEE) 0).log
      = [7] ∧
    (I2CReadRegs (responsive (fun k => k + 7)) 0x50 0x10 (fun _ => 0xEE) 0).i2cData 0 = 7 ∧
    received (I2C_ReadDev (responsive (fun k => k + 7))
        { dev_id := 0x50, reg_addr := 0x10, block_size := 0, data := fun _ => 0xEE }).log
      = [7] ∧
    (I2C_ReadDev (responsive (fun k => k + 7))
        { dev_id := 0x50, reg_addr := 0x10, block_size := 0, data := fun _ => 0xEE }).data 0
      = 7 := by
  decide

/-- C18 (amended): on a fully responsive device (start succeeds, no collision,
every byte acknowledged, no receive overflow) a block length of zero gives:
for `I2C_WriteDev` the bus trace START, device address byte, register byte,
STOP, nothing received, the data buffer unchanged and result `I2C_SUCCESS`;
for `I2CReadRegs` (len = 0) and `I2C_ReadDev` (block_size = 0) only the
addressing bytes are transmitted (everything between them and the STOP is a
receive-phase event), the result is `I2C_SUCCESS`, and every buffer
position other than position 0 is unchanged. -/
theorem zero_length_block (dev : Device) (a : Nat) (reg : Int) (buf : Nat → Nat)
    (blk : I2C_DATA_BLOCK) (hblk : blk.block_size = 0)
    (hstart : ∀ log, dev.I2CStart log = I2C_SUCCESS)
    (htx : ∀ log b, dev.I2CSendByte log b ≠ I2C_MASTER_BUS_COLLISION)
    (hack : ∀ log, dev.I2CByteWasAcknowledged log = true)
    (hrx : ∀ log, dev.I2CReceiverEnable log ≠ I2C_RECEIVE_OVERFLOW) :
    (busTrace (I2C_WriteDev dev blk).log
        = [BusEvent.START, BusEvent.TX (I2C_FORMAT_7_BIT_ADDRESS blk.dev_id I2C_WRITE),
            BusEvent.TX blk.reg_addr, BusEvent.STOP] ∧
      received (I2C_WriteDev dev blk).log = [] ∧
      (I2C_WriteDev dev blk).data = blk.data ∧
      (I2C_WriteDev dev blk).result = I2C_SUCCESS) ∧
    ((∃ rest, busTrace (I2CReadRegs dev a reg buf 0).log
          = [BusEvent.START, BusEvent.TX (I2C_FORMAT_7_BIT_ADDRESS a I2C_WRITE),
              BusEvent.TX ((regsHeader a reg).getD 1 0), BusEvent.RESTART,
              BusEvent.TX (I2C_FORMAT_7_BIT_ADDRESS a I2C_READ)] ++ rest ++ [BusEvent.STOP] ∧
        ∀ e ∈ rest, e.isReceive = true) ∧
      (I2CReadRegs dev a reg buf 0).result = I2C_SUCCESS ∧
      ∀ i, 1 ≤ i → (I2CReadRegs dev a reg buf 0).i2cData i = buf i) ∧
    ((∃ rest, busTrace (I2C_ReadDev dev blk).log
          = [BusEvent.START, BusEvent.TX (I2C_FORMAT_7_BIT_ADDRESS blk.dev_id I2C_READ)]
            ++ rest ++ [BusEvent.STOP] ∧
        ∀ e ∈ rest, e.isReceive = true) ∧
      (I2C_ReadDev dev blk).result = I2C_SUCCESS ∧
      ∀ i, 1 ≤ i → (I2C_ReadDev dev blk).data i = blk.data i) := by
  obtain ⟨h1, h2⟩ := StartTransfer_ok dev (hstart _)
  have hs0 := (StartTransfer_frame dev [] false).1
  refine ⟨?_, ?_, ?_⟩
  · have ha := writeDevAddrPhase_ok dev blk htx hack (StartTransfer dev [] false).2
    have hr := writeDevRegPhase_ok dev blk htx hack
      (writeDevAddrPhase dev blk (StartTransfer dev [] false).2).2
    simp only [I2C_WriteDev, h1, if_true, hblk, writeDevLoop, ha.1]
    rw [(StopTransfer_frame _).2.2.2, (StopTransfer_frame _).1, hr.1, hr.2.1, hr.2.2, ha.2.1,
      ha.2.2, h2, hs0]
    refine ⟨?_, ?_, ?_, ?_⟩ <;> first | rfl | trivial
  · obtain ⟨s0, h0, hb, hres, hrec, -, -, htr, heq⟩ :=
      I2CReadRegs_decomp_ok dev a reg buf 0 htx hack
    have hfuel : ((0 : Int) - 1).toNat = 0 := by decide
    rw [heq, hfuel]
    simp only [recvAckLoop]
    obtain ⟨hlog, ⟨r2, hr2, hall2⟩, -⟩ := lastByte_trace dev s0
    have hf := lastByte_noOverflow dev hrx s0 hres
    have hinv := regsLastByte_inv dev buf s0 (RxInv_init buf s0 h0 hb hrec)
    refine ⟨⟨r2, ?_, hall2⟩, ?_, ?_⟩
    · rw [hlog, (StopTransfer_frame _).2.2.2, hr2, htr hstart]
      simp [regsHeader]
    · rw [regsLastByte_result]
      exact hf.2.2
    · intro i hi
      exact hinv.2.2.2 i (by have := hinv.1; omega)
  · refine ⟨I2C_ReadDev_shape dev blk (hstart _) htx hack, ?_, ?_⟩
    · have ha := readDevAddrPhase_ok dev blk htx hack (StartTransfer dev [] false).2
      simp only [I2C_ReadDev, h1, hblk, readDevLoop, readDevLastByte, ha.1, if_true]
      rw [ReceiveOneByte_noOverflow dev hrx]
      rfl
    · intro i hi
      have ha := readDevAddrPhase_ok dev blk htx hack (StartTransfer dev [] false).2
      have hok := ReceiveOneByte_noOverflow dev hrx
        (readDevAddrPhase dev blk true (StartTransfer dev [] false).2).2 blk.data 0 false
      obtain ⟨b, -, hbuf, -, -, -⟩ := ReceiveOneByte_ok dev _ _ _ _ hok
      simp only [I2C_ReadDev, h1, hblk, readDevLoop, readDevLastByte, ha.1, if_true]
      rw [hbuf, Function.update_noteq (by omega)]

/-- C18 (amended, witness): the zero-length example on a fully responsive device. -/
theorem zero_length_block_witness :
    busTrace (I2C_WriteDev (responsive id) (blkExample 0)).log
        = [BusEvent.START, BusEvent.TX (I2C_FORMAT_7_BIT_ADDRESS 0x50 I2C_WRITE),
            BusEvent.TX 0x10, BusEvent.STOP] ∧
      (I2CReadRegs (responsive id) 0x50 0x10 bufAABB 0).result = I2C_SUCCESS ∧
      (I2C_ReadDev (responsive id) (blkExample 0)).result = I2C_SUCCESS :=
  have h := zero_length_block (responsive id) 0x50 0x10 bufAABB (blkExample 0) rfl
    (fun _ => rfl)
    (by intro log b; simp [responsive, I2C_SUCCESS, I2C_MASTER_BUS_COLLISION])
    (fun _ => rfl)
    (by intro log; simp [responsive, I2C_SUCCESS, I2C_RECEIVE_OVERFLOW])
  ⟨h.1.1, h.2.1.2.1, h.2.2.2.1⟩

/-! ## Acknowledge failures in the header of I2CReadRegs -/

/-- The two unrollings of the header loop of `I2CReadRegs` after a successful
start, case by case: collision or missing acknowledge on the first byte,
collision or missing acknowledge on the second byte, or both bytes sent and
acknowledged. -/
theorem headerLoop_two (dev : Device) (h0 h1 : Nat) (log : List HwCall) :
    headerLoop dev [h0, h1] true 2 ⟨0, I2C_SUCCESS, log⟩ =
      if (TransmitOneByte dev log h0).1 = true then
        if dev.I2CByteWasAcknowledged (TransmitOneByte dev log h0).2 = false then
          ⟨1, I2C_ERROR, (TransmitOneByte dev log h0).2 ++ [HwCall.ackQuery false]⟩
        else if (TransmitOneByte dev
            ((TransmitOneByte dev log h0).2 ++ [HwCall.ackQuery true]) h1).1 = true then
          if dev.I2CByteWasAcknowledged (TransmitOneByte dev
              ((TransmitOneByte dev log h0).2 ++ [HwCall.ackQuery true]) h1).2 = false then
            ⟨2, I2C_ERROR, (TransmitOneByte dev
              ((TransmitOneByte dev log h0).2 ++ [HwCall.ackQuery true]) h1).2
                ++ [HwCall.ackQuery false]⟩
          else
            ⟨2, I2C_SUCCESS, (TransmitOneByte dev
              ((TransmitOneByte dev log h0).2 ++ [HwCall.ackQuery true]) h1).2
                ++ [HwCall.ackQuery true]⟩
        else
          ⟨2, I2C_ERROR, (TransmitOneByte dev
            ((TransmitOneByte dev log h0).2 ++ [HwCall.ackQuery true]) h1).2⟩
      else ⟨1, I2C_ERROR, (TransmitOneByte dev log h0).2⟩ := by
  have he : I2C_SUCCESS ||| I2C_ERROR = I2C_ERROR := by decide
  cases c0 : (TransmitOneByte dev log h0).1
  · simp [headerLoop, c0, he, error_ne_success]
  · cases a0 : dev.I2CByteWasAcknowledged (TransmitOneByte dev log h0).2
    · simp [headerLoop, c0, a0, he, error_ne_success]
    · cases c1 : (TransmitOneByte dev
          ((TransmitOneByte dev log h0).2 ++ [HwCall.ackQuery true]) h1).1
      · simp [headerLoop, c0, a0, c1, he, error_ne_success]
      · cases a1 : dev.I2CByteWasAcknowledged (TransmitOneByte dev
            ((TransmitOneByte dev log h0).2 ++ [HwCall.ackQuery true]) h1).2
        · simp [headerLoop, c0, a0, c1, a1, he, error_ne_success]
        · simp [headerLoop, c0, a0, c1, a1, he]

/-- A transmit step issues no repeated start. -/
theorem TransmitOneByte_noRestart (dev : Device) (log : List HwCall) (data : Nat)
    (h : HwCall.repeatStart ∉ log) :
    HwCall.repeatStart ∉ (TransmitOneByte dev log data).2 := by
  unfold TransmitOneByte
  by_cases hc : dev.I2CSendByte (log ++ [HwCall.txReadyWait]) data = I2C_MASTER_BUS_COLLISION <;>
    simp [hc, h]

/-- A transmit step only extends the log. -/
theorem TransmitOneByte_ext (dev : Device) (log : List HwCall) (data : Nat) :
    ∃ ext, (TransmitOneByte dev log data).2 = log ++ ext := by
  unfold TransmitOneByte
  dsimp only
  by_cases hc : dev.I2CSendByte (log ++ [HwCall.txReadyWait]) data = I2C_MASTER_BUS_COLLISION
  · rw [if_pos hc]
    exact ⟨_, List.append_assoc _ _ _⟩
  · rw [if_neg hc]
    exact ⟨_, List.append_assoc _ _ _⟩

/-- A receive step only extends the log. -/
theorem ReceiveOneByte_ext (dev : Device) (log : List HwCall) (buf : Nat → Nat) (idx : Nat)
    (ack : Bool) : ∃ ext, (ReceiveOneByte dev log buf idx ack).log = log ++ ext := by
  unfold ReceiveOneByte
  dsimp only
  by_cases hc : dev.I2CReceiverEnable log = I2C_RECEIVE_OVERFLOW
  · rw [if_pos hc]
    exact ⟨_, rfl⟩
  · rw [if_neg hc]
    have key : ∀ (A B C : List HwCall), ((log ++ A) ++ B) ++ C = log ++ (A ++ B ++ C) := by
      intro A B C
      simp
    exact ⟨_, key _ _ _⟩

/-- The receive loop only extends the log. -/
theorem recvAckLoop_ext (dev : Device) (len : Int) :
    ∀ (fuel : Nat) (s : RxState), ∃ ext, (recvAckLoop dev len fuel s).log = s.log ++ ext := by
  intro fuel
  induction fuel with
  | zero => intro s; exact ⟨[], by simp [recvAckLoop]⟩
  | succ fuel ih =>
    intro s
    rw [recvAckLoop]
    dsimp only
    split_ifs
    · obtain ⟨e1, h1⟩ := ReceiveOneByte_ext dev s.log s.buf s.dataIndex true
      obtain ⟨e2, h2⟩ := ih
        { dataIndex := s.dataIndex + 1,
          i2c_result := s.i2c_result |||
            (ReceiveOneByte dev s.log s.buf s.dataIndex true).result,
          buf := (ReceiveOneByte dev s.log s.buf s.dataIndex true).buf,
          log := (ReceiveOneByte dev s.log s.buf s.dataIndex true).log }
      exact ⟨e1 ++ e2, by rw [h2]; dsimp only; rw [h1, List.append_assoc]⟩
    · exact ⟨[], by simp⟩

/-- After a header phase that ended with `I2C_SUCCESS`, the rest of
`I2CReadRegs` only extends the log of the header phase. -/
theorem I2CReadRegs_ext (dev : Device) (a : Nat) (reg : Int) (buf : Nat → Nat) (len : Int)
    (h : (headerLoop dev (regsHeader a reg) (StartTransfer dev [] false).1 2
      ⟨0, I2C_SUCCESS, (StartTransfer dev [] false).2⟩).i2c_result = I2C_SUCCESS) :
    ∃ ext, (I2CReadRegs dev a reg buf len).log
      = (headerLoop dev (regsHeader a reg) (StartTransfer dev [] false).1 2
          ⟨0, I2C_SUCCESS, (StartTransfer dev [] false).2⟩).log ++ ext := by
  unfold I2CReadRegs
  dsimp only
  rw [if_pos h]
  generalize (headerLoop dev (regsHeader a reg) (StartTransfer dev [] false).1 2
      ⟨0, I2C_SUCCESS, (StartTransfer dev [] false).2⟩) = H
  have e1 : ∃ ext, (regsAddrPhase dev a H.i2c_result (StartTransfer dev H.log true).1
      (StartTransfer dev H.log true).2).2 = H.log ++ ext := by
    obtain ⟨e, he⟩ := TransmitOneByte_ext dev (StartTransfer dev H.log true).2
      (I2C_FORMAT_7_BIT_ADDRESS a I2C_READ)
    have hs : (StartTransfer dev H.log true).2
        = H.log ++ [HwCall.repeatStart, HwCall.startStatusWait] := rfl
    unfold regsAddrPhase
    dsimp only
    split_ifs
    · exact ⟨_, by rw [he, hs, List.append_assoc, List.append_assoc]⟩
    · exact ⟨_, by rw [he, hs, List.append_assoc, List.append_assoc]⟩
    · exact ⟨_, by rw [he, hs, List.append_assoc]⟩
    · exact ⟨_, hs⟩
  obtain ⟨x1, hx1⟩ := e1
  obtain ⟨x2, hx2⟩ := recvAckLoop_ext dev len (len - 1).toNat
    { dataIndex := 0,
      i2c_result := (regsAddrPhase dev a H.i2c_result (StartTransfer dev H.log true).1
        (StartTransfer dev H.log true).2).1,
      buf := buf,
      log := (regsAddrPhase dev a H.i2c_result (StartTransfer dev H.log true).1
        (StartTransfer dev H.log true).2).2 }
  have e3 : ∀ s : RxState, ∃ ext, (regsLastByte dev s).log = s.log ++ ext := by
    intro s
    unfold regsLastByte
    dsimp only
    split_ifs
    · exact ReceiveOneByte_ext dev s.log s.buf s.dataIndex false
    · exact ⟨[], by simp⟩
  obtain ⟨x3, hx3⟩ := e3 (recvAckLoop dev len (len - 1).toNat
    { dataIndex := 0,
      i2c_result := (regsAddrPhase dev a H.i2c_result (StartTransfer dev H.log true).1
        (StartTransfer dev H.log true).2).1,
      buf := buf,
      log := (regsAddrPhase dev a H.i2c_result (StartTransfer dev H.log true).1
        (StartTransfer dev H.log true).2).2 })
  refine ⟨x1 ++ x2 ++ x3 ++ [HwCall.stop, HwCall.stopStatusWait], ?_⟩
  unfold StopTransfer
  rw [hx3, hx2]
  dsimp only
  rw [hx1]
  simp only [List.append_assoc]

/-- When the header phase of `I2CReadRegs` ends with `I2C_ERROR`, the function
returns `I2C_ERROR` right after the stop, with the buffer untouched. -/
theorem I2CReadRegs_header_error (dev : Device) (a : Nat) (reg : Int) (buf : Nat → Nat)
    (len : Int) (idx : Nat) (hlog : List HwCall)
    (h : headerLoop dev (regsHeader a reg) (StartTransfer dev [] false).1 2
      ⟨0, I2C_SUCCESS, (StartTransfer dev [] false).2⟩ = ⟨idx, I2C_ERROR, hlog⟩) :
    I2CReadRegs dev a reg buf len
      = { result := I2C_ERROR, i2cData := buf, log := StopTransfer hlog } := by
  unfold I2CReadRegs
  dsimp only
  rw [h]
  dsimp only
  rw [if_neg error_ne_success]

/-- C15: in `I2CReadRegs`, for every length, after a successful start: if the
acknowledge query of header byte `k` (`k = 0` the device address byte with
write direction, `k = 1` the register-address byte) answers "not
acknowledged", then the bytes handed to the bus are exactly header bytes
`0..k` (no later header byte, no read address byte), no repeated start is
issued, no data byte is received, the data buffer is unchanged, the result
is `I2C_ERROR`, and exactly one stop is issued. -/
theorem I2CReadRegs_header_nack (dev : Device) (a : Nat) (reg : Int) (buf : Nat → Nat)
    (len : Int) (k : Nat) (hk2 : k < 2)
    (hstart : dev.I2CStart [HwCall.busIdleWait] = I2C_SUCCESS)
    (hk : (ackQueries (I2CReadRegs dev a reg buf len).log)[k]? = some false) :
    sendAttempts (I2CReadRegs dev a reg buf len).log = (regsHeader a reg).take (k + 1) ∧
    HwCall.repeatStart ∉ (I2CReadRegs dev a reg buf len).log ∧
    received (I2CReadRegs dev a reg buf len).log = [] ∧
    (I2CReadRegs dev a reg buf len).i2cData = buf ∧
    (I2CReadRegs dev a reg buf len).result = I2C_ERROR ∧
    stopCount (I2CReadRegs dev a reg buf len).log = 1 := by
  have hst1 := (StartTransfer_ok dev hstart).1
  have hq0 : ackQueries (StartTransfer dev [] false).2 = [] :=
    (framing_obs dev [] false).1.2
  have hs0 : sendAttempts (StartTransfer dev [] false).2 = [] :=
    (framing_obs dev [] false).1.1
  have hr0 : received (StartTransfer dev [] false).2 = [] := (StartTransfer_frame dev [] false).1
  have hc0 : stopCount (StartTransfer dev [] false).2 = 0 :=
    (StartTransfer_frame dev [] false).2.2
  have hn0 : HwCall.repeatStart ∉ (StartTransfer dev [] false).2 := by
    simp [StartTransfer, hstart]
  have herr := I2CReadRegs_header_error dev a reg buf len
  have hext := I2CReadRegs_ext dev a reg buf len
  rw [hst1] at herr hext
  unfold regsHeader at herr hext
  have hH := headerLoop_two dev (I2C_FORMAT_7_BIT_ADDRESS a I2C_WRITE)
    ((reg >>> 8) % 256).toNat (StartTransfer dev [] false).2
  generalize (StartTransfer dev [] false).2 = L0 at hq0 hs0 hr0 hc0 hn0 herr hext hH
  have o0 := TransmitOneByte_obs dev L0 (I2C_FORMAT_7_BIT_ADDRESS a I2C_WRITE)
  have f0 := TransmitOneByte_frame dev L0 (I2C_FORMAT_7_BIT_ADDRESS a I2C_WRITE)
  have n0 := TransmitOneByte_noRestart dev L0 (I2C_FORMAT_7_BIT_ADDRESS a I2C_WRITE) hn0
  have o1 := TransmitOneByte_obs dev
    ((TransmitOneByte dev L0 (I2C_FORMAT_7_BIT_ADDRESS a I2C_WRITE)).2
      ++ [HwCall.ackQuery true]) ((reg >>> 8) % 256).toNat
  have f1 := TransmitOneByte_frame dev
    ((TransmitOneByte dev L0 (I2C_FORMAT_7_BIT_ADDRESS a I2C_WRITE)).2
      ++ [HwCall.ackQuery true]) ((reg >>> 8) % 256).toNat
  have n1 := TransmitOneByte_noRestart dev
    ((TransmitOneByte dev L0 (I2C_FORMAT_7_BIT_ADDRESS a I2C_WRITE)).2
      ++ [HwCall.ackQuery true]) ((reg >>> 8) % 256).toNat (by simp [n0])
  rw [ackQueries_append, o0.2, hq0, (obs_ackQuery true).2.1] at o1
  rw [sendAttempts_append, o0.1, hs0, (obs_ackQuery true).1] at o1
  rw [(ackQuery_frame _ _).1, (ackQuery_frame _ _).2.2, f0.1, f0.2.2, hr0, hc0] at f1
  rw [hs0] at o0
  rw [hq0] at o0
  rw [hr0, hc0] at f0
  generalize (TransmitOneByte dev
    ((TransmitOneByte dev L0 (I2C_FORMAT_7_BIT_ADDRESS a I2C_WRITE)).2
      ++ [HwCall.ackQuery true]) ((reg >>> 8) % 256).toNat) = T1 at o1 f1 n1 hH
  generalize (TransmitOneByte dev L0 (I2C_FORMAT_7_BIT_ADDRESS a I2C_WRITE)) = T0
    at o0 f0 n0 hH
  cases c0 : T0.1
  · -- collision on the first header byte: no acknowledge was ever queried
    rw [c0] at hH
    have heq := herr _ _ hH
    rw [heq, (framing_obs dev _ false).2.2, o0.2] at hk
    exact absurd hk (by simp)
  · cases a0 : dev.I2CByteWasAcknowledged T0.2
    · -- the first header byte is not acknowledged
      rw [c0, a0] at hH
      have heq := herr _ _ hH
      rw [heq] at hk ⊢
      dsimp only at hk ⊢
      rw [(framing_obs dev _ false).2.2, ackQueries_append, o0.2,
        (obs_ackQuery false).2.1] at hk
      have hk0 : k = 0 := by
        interval_cases k
        · rfl
        · simp at hk
      subst hk0
      refine ⟨?_, ?_, ?_, rfl, rfl, ?_⟩
      · rw [(framing_obs dev _ false).2.1, sendAttempts_append, o0.1,
          (obs_ackQuery false).1]
        rfl
      · simp [StopTransfer, n0]
      · rw [(StopTransfer_frame _).1, (ackQuery_frame _ _).1, f0.1]
      · rw [(StopTransfer_frame _).2.2.1, (ackQuery_frame _ _).2.2, f0.2.2]
    · cases c1 : T1.1
      · -- collision on the second header byte: the only query answered "acknowledged"
        rw [c0, a0, c1] at hH
        have heq := herr _ _ hH
        rw [heq, (framing_obs dev _ false).2.2, o1.2] at hk
        interval_cases k <;> simp at hk
      · cases a1 : dev.I2CByteWasAcknowledged T1.2
        · -- the second header byte is not acknowledged
          rw [c0, a0, c1, a1] at hH
          have heq := herr _ _ hH
          rw [heq] at hk ⊢
          dsimp only at hk ⊢
          rw [(framing_obs dev _ false).2.2, ackQueries_append, o1.2,
            (obs_ackQuery false).2.1] at hk
          have hk1 : k = 1 := by
            interval_cases k
            · simp at hk
            · rfl
          subst hk1
          refine ⟨?_, ?_, ?_, rfl, rfl, ?_⟩
          · rw [(framing_obs dev _ false).2.1, sendAttempts_append, o1.1,
              (obs_ackQuery false).1]
            rfl
          · simp [StopTransfer, n1]
          · rw [(StopTransfer_frame _).1, (ackQuery_frame _ _).1, f1.1]
          · rw [(StopTransfer_frame _).2.2.1, (ackQuery_frame _ _).2.2, f1.2.2]
        · -- both header bytes acknowledged: the first two queries answered "acknowledged"
          rw [c0, a0, c1, a1] at hH
          simp only [eq_self, if_true, if_false, Bool.true_eq_false] at hH
          obtain ⟨ext, he⟩ := hext (by rw [hH])
          rw [he, hH] at hk
          rw [ackQueries_append, ackQueries_append, o1.2, (obs_ackQuery true).2.1] at hk
          interval_cases k <;> simp at hk

/-- C15 (witness): a three-byte register read where the register-address byte
(header byte 1) is not acknowledged: both header bytes went out, then the
stop; no repeated start, nothing received, buffer untouched. -/
theorem I2CReadRegs_header_nack_witness :
    sendAttempts (I2CReadRegs (nackAt 1) 0x50 0x10 bufAABB 3).log = [0xA0, 0x00] ∧
      HwCall.repeatStart ∉ (I2CReadRegs (nackAt 1) 0x50 0x10 bufAABB 3).log ∧
      received (I2CReadRegs (nackAt 1) 0x50 0x10 bufAABB 3).log = [] ∧
      (I2CReadRegs (nackAt 1) 0x50 0x10 bufAABB 3).i2cData = bufAABB ∧
      (I2CReadRegs (nackAt 1) 0x50 0x10 bufAABB 3).result = I2C_ERROR ∧
      stopCount (I2CReadRegs (nackAt 1) 0x50 0x10 bufAABB 3).log = 1 :=
  I2CReadRegs_header_nack (nackAt 1) 0x50 0x10 bufAABB 3 1 (by decide) rfl (by decide)

/-! ## Propagation of start and transmit failures -/

/-- When the initial start fails, the block operations propagate the failure:
`I2C_WriteDev` and `I2C_ReadDev` hand no byte to the bus, receive nothing,
leave the data buffer as it was and return `I2C_ERROR`. -/
theorem block_ops_start_failure (dev : Device) (blk : I2C_DATA_BLOCK)
    (hstart : dev.I2CStart [HwCall.busIdleWait] ≠ I2C_SUCCESS) :
    (sendAttempts (I2C_WriteDev dev blk).log = [] ∧ received (I2C_WriteDev dev blk).log = [] ∧
      (I2C_WriteDev dev blk).data = blk.data ∧ (I2C_WriteDev dev blk).result = I2C_ERROR) ∧
    (sendAttempts (I2C_ReadDev dev blk).log = [] ∧ received (I2C_ReadDev dev blk).log = [] ∧
      (I2C_ReadDev dev blk).data = blk.data ∧ (I2C_ReadDev dev blk).result = I2C_ERROR) := by
  have h1 : (StartTransfer dev [] false).1 = false := by
    simp [StartTransfer, hstart]
  have hs := (framing_obs dev [] false).1.1
  have hr := (StartTransfer_frame dev [] false).1
  have herr : ¬ I2C_ERROR = I2C_SUCCESS := by decide
  constructor
  · simp only [I2C_WriteDev, h1, Bool.false_eq_true, if_false]
    exact ⟨hs, hr, trivial, trivial⟩
  · have hz : ∀ l : List HwCall, readDevLoop dev blk blk.block_size
        { count := 0, data_ptr := 0, i2c_ops := I2C_ERROR, buf := blk.data, log := l }
          = { count := 0, data_ptr := 0, i2c_ops := I2C_ERROR, buf := blk.data, log := l } := by
      intro l
      cases blk.block_size <;> simp [readDevLoop, herr]
    simp only [I2C_ReadDev, readDevAddrPhase, h1, Bool.false_eq_true, if_false, hz,
      readDevLastByte, herr]
    rw [(framing_obs dev _ false).2.1, (StopTransfer_frame _).1]
    exact ⟨hs, hr, trivial, trivial⟩

/-- C21 (code evaluated at the failing input): with a start that collides,
`I2C_Read` (length 1) still receives a byte, overwrites `str[0]` and returns
`I2C_SUCCESS`; `I2CReadRegs` (length 1) still issues the repeated start,
transmits the read address byte, receives a byte, overwrites `i2cData[0]`
and returns `I2C_SUCCESS`.  The block operations do propagate the failure. -/
theorem start_failure_not_propagated :
    ((I2C_Read startCollides 0x50 (fun _ => 0xEE) 1).result = I2C_SUCCESS ∧
      received (I2C_Read startCollides 0x50 (fun _ => 0xEE) 1).log = [0] ∧
      (I2C_Read startCollides 0x50 (fun _ => 0xEE) 1).str 0 = 0) ∧
    ((I2CReadRegs startCollides 0x50 0x10 (fun _ => 0xEE) 1).result = I2C_SUCCESS ∧
      busTrace (I2CReadRegs startCollides 0x50 0x10 (fun _ => 0xEE) 1).log
        = [BusEvent.RESTART, BusEvent.TX 0xA1, BusEvent.ACKBIT false, BusEvent.RX 0,
            BusEvent.STOP] ∧
      (I2CReadRegs startCollides 0x50 0x10 (fun _ => 0xEE) 1).i2cData 0 = 0) ∧
    ((I2C_WriteDev startCollides (blkExample 2)).result = I2C_ERROR ∧
      (I2C_ReadDev startCollides (blkExample 2)).result = I2C_ERROR) := by
  decide

/-- C22 (code evaluated at the failing input): a write of length 2 where payload
byte 0 collides (the address byte went out): no later payload byte is
attempted and the result is `I2C_ERROR`, but the count written back through
`*len` is 1 although no payload byte was sent. -/
theorem I2C_Write_collision_count_off_by_one :
    (I2C_Write (collideAt 1) 0x50 bufAABB 2).result = I2C_ERROR ∧
      sendAttempts (I2C_Write (collideAt 1) 0x50 bufAABB 2).log = [0xA0, 0xAA] ∧
      busTrace (I2C_Write (collideAt 1) 0x50 bufAABB 2).log
        = [BusEvent.RESTART, BusEvent.TX 0xA0, BusEvent.STOP] ∧
      (I2C_Write (collideAt 1) 0x50 bufAABB 2).len = 1 := by
  decide

/-- C23 (code evaluated at the failing input): in a block write of two bytes where
the device address byte collides, `I2C_WriteDev` goes on to send the
register byte and both payload bytes and returns `I2C_SUCCESS`; the same
happens when the register byte collides. -/
theorem I2C_WriteDev_collision_ignored :
    ((I2C_WriteDev (collideAt 0) (blkExample 2)).result = I2C_SUCCESS ∧
      sendAttempts (I2C_WriteDev (collideAt 0) (blkExample 2)).log
        = [0xA0, 0x10, 0xAA, 0xBB] ∧
      busTrace (I2C_WriteDev (collideAt 0) (blkExample 2)).log
        = [BusEvent.START, BusEvent.TX 0x10, BusEvent.TX 0xAA, BusEvent.TX 0xBB,
            BusEvent.STOP]) ∧
    ((I2C_WriteDev (collideAt 1) (blkExample 2)).result = I2C_SUCCESS ∧
      sendAttempts (I2C_WriteDev (collideAt 1) (blkExample 2)).log
        = [0xA0, 0x10, 0xAA, 0xBB] ∧
      busTrace (I2C_WriteDev (collideAt 1) (blkExample 2)).log
        = [BusEvent.START, BusEvent.TX 0xA0, BusEvent.TX 0xAA, BusEvent.TX 0xBB,
            BusEvent.STOP]) := by
  decide

/-! ## Contracts of the byte receiver and the start step -/

/-- C25: `ReceiveOneByte`, for every acknowledge value: if enabling the receiver
reports `I2C_RECEIVE_OVERFLOW`, the call returns `I2C_RECEIVE_OVERFLOW` at
once, having only called `I2CReceiverEnable` (no wait for data, no
acknowledge bit) and without modifying `*data`; otherwise it waits for the
data, issues exactly one acknowledge with the value passed in, waits for its
completion, stores the byte read from the hardware into `*data` and returns
`I2C_SUCCESS`. -/
theorem ReceiveOneByte_contract (dev : Device) (log : List HwCall) (buf : Nat → Nat)
    (idx : Nat) (ack : Bool) :
    (dev.I2CReceiverEnable log = I2C_RECEIVE_OVERFLOW →
      (ReceiveOneByte dev log buf idx ack).result = I2C_RECEIVE_OVERFLOW ∧
      (ReceiveOneByte dev log buf idx ack).log
        = log ++ [HwCall.rxEnable I2C_RECEIVE_OVERFLOW] ∧
      (ReceiveOneByte dev log buf idx ack).buf = buf) ∧
    (dev.I2CReceiverEnable log ≠ I2C_RECEIVE_OVERFLOW →
      (ReceiveOneByte dev log buf idx ack).result = I2C_SUCCESS ∧
      (ReceiveOneByte dev log buf idx ack).log
        = log ++ [HwCall.rxEnable (dev.I2CReceiverEnable log), HwCall.rxDataWait,
            HwCall.ackByte ack, HwCall.ackDoneWait,
            HwCall.getByte (dev.I2CGetByte
              (log ++ [HwCall.rxEnable (dev.I2CReceiverEnable log), HwCall.rxDataWait,
                HwCall.ackByte ack, HwCall.ackDoneWait]) % 256)] ∧
      (ReceiveOneByte dev log buf idx ack).buf
        = Function.update buf idx (dev.I2CGetByte
            (log ++ [HwCall.rxEnable (dev.I2CReceiverEnable log), HwCall.rxDataWait,
              HwCall.ackByte ack, HwCall.ackDoneWait]) % 256) ∧
      acksIssued (ReceiveOneByte dev log buf idx ack).log = acksIssued log ++ [ack]) := by
  constructor
  · intro h
    simp [ReceiveOneByte, h]
  · intro h
    simp [ReceiveOneByte, h, acksIssued, List.filterMap_append]

/-- C25 (witness): an overflowing receive leaves the buffer alone, a normal
receive with NACK stores the delivered byte. -/
theorem ReceiveOneByte_contract_witness :
    ((ReceiveOneByte (overflowAt 0 id) [] (fun _ => 0xEE) 0 true).result
        = I2C_RECEIVE_OVERFLOW ∧
      (ReceiveOneByte (overflowAt 0 id) [] (fun _ => 0xEE) 0 true).log
        = [HwCall.rxEnable I2C_RECEIVE_OVERFLOW]) ∧
    ((ReceiveOneByte (responsive (fun k => k + 7)) [] (fun _ => 0xEE) 0 false).result
        = I2C_SUCCESS ∧
      acksIssued (ReceiveOneByte (responsive (fun k => k + 7)) [] (fun _ => 0xEE) 0 false).log
        = [false]) :=
  have h1 := (ReceiveOneByte_contract (overflowAt 0 id) [] (fun _ => 0xEE) 0 true).1 rfl
  have h2 := (ReceiveOneByte_contract (responsive (fun k => k + 7)) [] (fun _ => 0xEE)
    0 false).2 (by decide)
  ⟨⟨h1.1, h1.2.1⟩, ⟨h2.1, h2.2.2.2⟩⟩

/-- C26: `StartTransfer` with `restart = TRUE` issues a repeated start without
waiting for bus idle, waits for the start status and returns TRUE; with
`restart = FALSE` it waits for bus idle, issues a fresh start, and returns
FALSE if and only if `I2CStart` reports a result other than `I2C_SUCCESS`,
in which case it returns without waiting for the start status; otherwise it
waits for the start status and returns TRUE. -/
theorem StartTransfer_contract (dev : Device) (log : List HwCall) :
    StartTransfer dev log true
      = (true, log ++ [HwCall.repeatStart, HwCall.startStatusWait]) ∧
    ((StartTransfer dev log false).1 = false ↔
      dev.I2CStart (log ++ [HwCall.busIdleWait]) ≠ I2C_SUCCESS) ∧
    (dev.I2CStart (log ++ [HwCall.busIdleWait]) ≠ I2C_SUCCESS →
      (StartTransfer dev log false).2
        = log ++ [HwCall.busIdleWait,
            HwCall.start (dev.I2CStart (log ++ [HwCall.busIdleWait]))]) ∧
    (dev.I2CStart (log ++ [HwCall.busIdleWait]) = I2C_SUCCESS →
      StartTransfer dev log false
        = (true, log ++ [HwCall.busIdleWait, HwCall.start I2C_SUCCESS,
            HwCall.startStatusWait])) := by
  refine ⟨rfl, ?_, ?_, ?_⟩
  · by_cases h : dev.I2CStart (log ++ [HwCall.busIdleWait]) = I2C_SUCCESS <;>
      simp [StartTransfer, h]
  · intro h
    simp [StartTransfer, h]
  · intro h
    simp [StartTransfer, h]

/-- C26 (witness): a colliding fresh start returns FALSE after the bus-idle wait
and the start attempt only; a successful one also waits for the start
status. -/
theorem StartTransfer_contract_witness :
    (StartTransfer startCollides [] false).2
        = [HwCall.busIdleWait, HwCall.start I2C_MASTER_BUS_COLLISION] ∧
      StartTransfer (responsive id) [] false
        = (true, [HwCall.busIdleWait, HwCall.start I2C_SUCCESS, HwCall.startStatusWait]) :=
  ⟨(StartTransfer_contract startCollides []).2.2.1 (by decide),
    (StartTransfer_contract (responsive id) []).2.2.2 rfl⟩

/-! ## Timer1Handler -/

/-- The counters of `Timer1Handler` after `n` invocations. -/
theorem timerAfter_state (n : Nat) :
    (timerAfter n).ms = 100 - ((n % 100 : Nat) : Int) ∧
      (timerAfter n).onesec = 1000 - (((n / 100) % 1000 : Nat) : Int) ∧
      (timerAfter n).millisec = (n / 100) % 4294967296 ∧
      (timerAfter n).led3Toggles = n / 100000 := by
  induction n with
  | zero => exact ⟨rfl, rfl, rfl, rfl⟩
  | succ n ih =>
    obtain ⟨h1, h2, h3, h4⟩ := ih
    have hp : (2 : Nat) ^ 32 = 4294967296 := by norm_num
    simp only [timerAfter, Timer1Handler, hp]
    by_cases c1 : (timerAfter n).ms - 1 ≤ 0
    · by_cases c2 : (timerAfter n).onesec - 1 ≤ 0
      · simp only [c1, c2, if_true]
        refine ⟨?_, ?_, ?_, ?_⟩ <;> omega
      · simp only [c1, c2, if_true, if_false]
        refine ⟨?_, ?_, ?_, ?_⟩ <;> omega
    · simp only [c1, if_false]
      refine ⟨?_, ?_, ?_, ?_⟩ <;> omega

/-- C28: starting from the initial state (`ms = 100`, `onesec = 1000`,
`millisec = 0`), after `n` invocations of `Timer1Handler` the global
`millisec` equals `floor(n / 100)` modulo `2^32`, `invLED3` has been
performed exactly `floor(n / 100000)` times, and the counters satisfy
`1 ≤ ms ≤ 100` and `1 ≤ onesec ≤ 1000`. -/
theorem Timer1Handler_ticks (n : Nat) :
    (timerAfter n).millisec = (n / 100) % 2 ^ 32 ∧
      (timerAfter n).led3Toggles = n / 100000 ∧
      1 ≤ (timerAfter n).ms ∧ (timerAfter n).ms ≤ 100 ∧
      1 ≤ (timerAfter n).onesec ∧ (timerAfter n).onesec ≤ 1000 := by
  obtain ⟨h1, h2, h3, h4⟩ := timerAfter_state n
  have hp : (2 : Nat) ^ 32 = 4294967296 := by norm_num
  rw [hp]
  refine ⟨h3, h4, ?_, ?_, ?_, ?_⟩ <;> omega

/-! ## The result taxonomy -/

/-- The body advances the pointer by one character. -/
theorem ckBody_idx (c : Nat) (st : CkState) : (ckBody c st).idx = st.idx + 1 := by
  unfold ckBody
  split_ifs <;> rfl

/-- On a NUL-terminated string whose remaining characters are `l` (non-empty,
none of them NUL), the loop with at least `l.length` unrollings runs the body
over `l` and ends because its condition is false. -/
theorem ckLoop_eq_ckRun (str : Nat → Nat) :
    ∀ (l : List Nat) (fuel : Nat) (st : CkState), l ≠ [] → (∀ c ∈ l, c ≠ 0) →
      l.length ≤ fuel → (∀ j, str (st.idx + j) = l.getD j 0) →
      ckLoop str fuel st = ckRun l st := by
  intro l
  induction l with
  | nil => intro fuel st h; exact absurd rfl h
  | cons c rest ih =>
    intro fuel st _ hnz hf hmem
    cases fuel with
    | zero => simp at hf
    | succ fuel =>
      have h0 : str st.idx = c := by
        have := hmem 0
        simpa using this
      rw [ckLoop, ckRun]
      try dsimp only
      rw [h0, ckBody_idx]
      cases rest with
      | nil =>
        have h1 : str (st.idx + 1) = 0 := by
          have := hmem 1
          simpa using this
        simp [h1, ckRun]
      | cons d rest2 =>
        have h1 : str (st.idx + 1) = d := by
          have := hmem 1
          simpa using this
        have hd : d ≠ 0 := hnz d (by simp)
        by_cases hs : (ckBody c st).stop_flag = false
        · rw [if_pos ⟨by rw [h1]; exact hd, hs⟩, if_pos hs]
          apply ih fuel (ckBody c st) (by simp)
            (fun x hx => hnz x (List.mem_cons_of_mem _ hx))
            (by simp at hf ⊢; omega)
          intro j
          rw [ckBody_idx]
          have := hmem (j + 1)
          rw [show st.idx + 1 + j = st.idx + (j + 1) by omega, this]
          simp
        · rw [if_neg (fun h => hs h.2), if_neg hs]

/-- The XOR of a list with a leading byte. -/
theorem xorAll_cons (c : Nat) (l : List Nat) : xorAll (c :: l) = c ^^^ xorAll l := by
  have key : ∀ (l : List Nat) (a : Nat),
      l.foldl (fun acc c => acc ^^^ c) a = a ^^^ l.foldl (fun acc c => acc ^^^ c) 0 := by
    intro l
    induction l with
    | nil => intro a; simp
    | cons x xs ih =>
      intro a
      simp only [List.foldl_cons]
      rw [ih (a ^^^ x), ih (0 ^^^ x), Nat.zero_xor, Nat.xor_assoc]
  unfold xorAll
  simp only [List.foldl_cons]
  rw [key l (0 ^^^ c), Nat.zero_xor]

/-- Once the `$` has been seen, the loop XORs the bytes up to the first `*` (or
the end) into the checksum. -/
theorem ckRun_started :
    ∀ (l : List Nat) (ck i : Nat), ck < 256 → (∀ c ∈ l, c < 256) →
      (ckRun l { cksum := ck, start_flag := true, stop_flag := false, idx := i }).cksum
        = ck ^^^ xorAll (l.takeWhile (fun c => c != 0x2A)) := by
  intro l
  induction l with
  | nil => intro ck i _ _; simp [ckRun, xorAll]
  | cons c rest ih =>
    intro ck i hck hb
    have hc : c < 256 := hb c (by simp)
    by_cases h : c = 0x2A
    · subst h
      simp [ckRun, ckBody, xorAll]
    · have hx : (ck ^^^ c % 256) % 256 = ck ^^^ c := by
        rw [Nat.mod_eq_of_lt hc]
        exact Nat.mod_eq_of_lt (Nat.xor_lt_two_pow (n := 8) hck hc)
      have hlt : ck ^^^ c < 256 := Nat.xor_lt_two_pow (n := 8) hck hc
      have hne : (c != 0x2A) = true := by simpa using h
      have hstep : ckBody c { cksum := ck, start_flag := true, stop_flag := false, idx := i }
          = { cksum := ck ^^^ c, start_flag := true, stop_flag := false, idx := i + 1 } := by
        simp [ckBody, h, hx]
      rw [ckRun, hstep]
      try dsimp only
      rw [if_pos rfl, ih (ck ^^^ c) (i + 1) hlt (fun x hx => hb x (List.mem_cons_of_mem _ hx)),
        List.takeWhile_cons, hne]
      try dsimp only
      rw [if_pos rfl, xorAll_cons, Nat.xor_assoc]

/-- Before the `$` has been seen the loop skips characters; from the initial
state it computes the documented checksum. -/
theorem ckRun_initial :
    ∀ (l : List Nat) (i : Nat), (∀ c ∈ l, c < 256) →
      (ckRun l { cksum := 0, start_flag := false, stop_flag := false, idx := i }).cksum
        = nmeaChecksum l := by
  intro l
  induction l with
  | nil => intro i _; simp [ckRun, nmeaChecksum, xorAll]
  | cons c rest ih =>
    intro i hb
    have hrest : ∀ x ∈ rest, x < 256 := fun x hx => hb x (List.mem_cons_of_mem _ hx)
    by_cases h : c = 0x24
    · subst h
      have hstep : ckBody 0x24 { cksum := 0, start_flag := false, stop_flag := false, idx := i }
          = { cksum := 0, start_flag := true, stop_flag := false, idx := i + 1 } := by
        simp [ckBody]
      rw [ckRun, hstep]
      try dsimp only
      rw [if_pos rfl, ckRun_started rest 0 (i + 1) (by decide) hrest, Nat.zero_xor]
      simp [nmeaChecksum]
    · have hstep : ckBody c { cksum := 0, start_flag := false, stop_flag := false, idx := i }
          = { cksum := 0, start_flag := false, stop_flag := false, idx := i + 1 } := by
        simp [ckBody, h]
      have hne : (c != 0x24) = true := by simpa using h
      rw [ckRun, hstep]
      try dsimp only
      rw [if_pos rfl, ih (i + 1) hrest]
      simp [nmeaChecksum, List.dropWhile_cons, hne]

/-- C27: `calc_ck_sum` computes the NMEA checksum: for every non-empty
NUL-terminated string (characters `s`, none of them NUL, each a byte,
followed by NUL) and every loop budget of at least `s.length` unrollings, the
result is the XOR of all bytes strictly after the first `$` and strictly
before the first `*` that follows it (up to the end of the string when there
is no such `*`), and 0 when the string contains no `$`; so characters before
the first `$` and after the terminating `*` do not affect the result. -/
theorem calc_ck_sum_spec (s : List Nat) (fuel : Nat) (hne : s ≠ [])
    (hnz : ∀ c ∈ s, c ≠ 0) (hb : ∀ c ∈ s, c < 256) (hf : s.length ≤ fuel) :
    calc_ck_sum (cString s) fuel = nmeaChecksum s ∧
    ((∀ c ∈ s, c ≠ 0x24) → calc_ck_sum (cString s) fuel = 0) ∧
    (∀ pre mid post, s = pre ++ 0x24 :: mid ++ 0x2A :: post → (∀ c ∈ pre, c ≠ 0x24) →
      (∀ c ∈ mid, c ≠ 0x2A) → calc_ck_sum (cString s) fuel = xorAll mid) := by
  have hrun : calc_ck_sum (cString s) fuel = nmeaChecksum s := by
    unfold calc_ck_sum
    rw [ckLoop_eq_ckRun (cString s) s fuel _ hne hnz hf (by intro j; simp [cString]),
      ckRun_initial s 0 hb]
  refine ⟨hrun, ?_, ?_⟩
  · intro hno
    rw [hrun]
    unfold nmeaChecksum
    have hd : s.dropWhile (fun c => c != 0x24) = [] := by
      rw [List.dropWhile_eq_nil_iff]
      intro x hx
      simpa using hno x hx
    rw [hd]
    rfl
  · intro pre mid post hs hpre hmid
    rw [hrun, hs]
    unfold nmeaChecksum
    have h1 : (pre ++ 0x24 :: mid ++ 0x2A :: post).dropWhile (fun c => c != 0x24)
        = 0x24 :: mid ++ 0x2A :: post := by
      rw [List.append_assoc, List.dropWhile_append_of_pos (by
        intro x hx
        simpa using hpre x hx)]
      simp [List.dropWhile_cons]
    rw [h1]
    have h2 : (mid ++ 0x2A :: post).takeWhile (fun c => c != 0x2A) = mid := by
      rw [List.takeWhile_append_of_pos (by
        intro x hx
        simpa using hmid x hx)]
      simp [List.takeWhile_cons]
    simp only [List.cons_append, List.drop_succ_cons, List.drop_zero]
    rw [h2]

/-- C27 (witness): the sentence `ab$GP,1*4F` has the checksum of `GP,1`. -/
theorem calc_ck_sum_spec_witness :
    calc_ck_sum (cString [0x61, 0x62, 0x24, 0x47, 0x50, 0x2C, 0x31, 0x2A, 0x34, 0x46]) 10
      = xorAll [0x47, 0x50, 0x2C, 0x31] :=
  (calc_ck_sum_spec [0x61, 0x62, 0x24, 0x47, 0x50, 0x2C, 0x31, 0x2A, 0x34, 0x46] 10
    (by decide) (by decide) (by decide) (by decide)).2.2
    [0x61, 0x62] [0x47, 0x50, 0x2C, 0x31] [0x34, 0x46] rfl (by decide) (by decide)

end I2CLib
